import Mathlib

/-!
PAFI core: ensemble accumulator and pathway construction.

A shallow embedding of `DataGatherer` (src/core/Utils.hpp) and of
`GenericSimulator::make_path` / `GenericSimulator::path`
(src/pafi/core/GenericSimulator.cpp).

Conventions of the embedding.

* `double` values are elements of a linearly ordered field `K` (exact arithmetic);
  the definitions are polymorphic and compute over `ℚ`.
* A raw C array that the code writes (`double *`) is a `Buf K`: its contents at each
  index; `a[k]` is `a.get k` and the store `a[k] = v` is `a.set k v`. An array that
  is only read (`valid`, `all_data`) is a function from the index.
* A `for (j = 0; j < n; j++) body` loop is `forLoop n body`.
* `std::vector` values that grow (`pathway_r`, `pathway`) are lists; the fixed-size work
  vectors `xs`, `r`, `rr` of `make_path` are kept as buffers and read out as lists of
  `nknots` entries where they are handed on.
* Where the source divides, the claims below keep the divisor away from zero, or the
  statement does not depend on the quotient.
-/

namespace PAFI

/-- The loop `for (i = 0; i < n; i++) body(i)`: runs `body 0`, then `body 1`, ...,
then `body (n-1)` on the threaded state. -/
def forLoop {σ : Type} (n : Nat) (body : Nat → σ → σ) (s : σ) : σ :=
  match n with
  | 0 => s
  | m + 1 => body m (forLoop m body s)

/-- A raw array, given by its contents at each index. -/
structure Buf (K : Type) where
  get : Nat → K

/-- The store `a[k] = v`. -/
def Buf.set {K : Type} (a : Buf K) (k : Nat) (v : K) : Buf K :=
  ⟨Function.update a.get k v⟩

/-! ## DataGatherer (src/core/Utils.hpp) -/

/-- The fields of `DataGatherer` that `ensemble_average` and `next` touch.
`raw_is_open` is `raw.is_open()`, `raw` the lines written to the stream so far,
`all_results` the map from field name to collected values, in key order. -/
structure DataGatherer (K : Type) where
  raw_is_open : Bool
  raw : List (List K)
  ens_data : Buf K
  dsize : Nat
  nWorkers : Nat
  all_results : List (String × List K)
  sample_r : List K

section Gatherer

variable {K : Type} [LinearOrderedField K]

/-- The block "unnormalize for sum" of `ensemble_average`:
first loop `ens_data[j+dsize] *= ens_data[2*dsize]; ens_data[j+dsize] += ens_data[j]*ens_data[j]`
for `j < dsize`, then `ens_data[j] *= ens_data[2*dsize]` for `j < 2*dsize`. -/
def unnormalize (dsize : Nat) (ens_data : Buf K) : Buf K :=
  let e1 := forLoop dsize (fun j e =>
    let e := e.set (j + dsize) (e.get (j + dsize) * e.get (2 * dsize))
    e.set (j + dsize) (e.get (j + dsize) + e.get j * e.get j)) ens_data
  forLoop (2 * dsize) (fun j e => e.set j (e.get j * e.get (2 * dsize))) e1

/-- The body of `if(valid[i]==1)` for worker `i` in the block "add more data":
`ens_data[2*dsize] += 1.0`, then for `j < dsize`
`ens_data[j] += all_data[i*dsize+j]; ens_data[j+dsize] += all_data[i*dsize+j]^2`. -/
def add_row (dsize : Nat) (all_data : Nat → K) (i : Nat) (ens_data : Buf K) : Buf K :=
  let e := ens_data.set (2 * dsize) (ens_data.get (2 * dsize) + 1)
  forLoop dsize (fun j e =>
    let e := e.set j (e.get j + all_data (i * dsize + j))
    e.set (j + dsize)
      (e.get (j + dsize) + all_data (i * dsize + j) * all_data (i * dsize + j))) e

/-- The block "add more data" of `ensemble_average`: the loop over the workers, threading
`total_valid` and `ens_data`. -/
def add_data (dsize nWorkers : Nat) (valid : Nat → Int) (all_data : Nat → K)
    (ens_data : Buf K) : Nat × Buf K :=
  forLoop nWorkers (fun i st =>
    if valid i = 1 then (st.1 + 1, add_row dsize all_data i st.2) else st) (0, ens_data)

/-- The block "renormalize for access" of `ensemble_average`, guarded by
`ens_data[2*dsize] > 0.5`. -/
def renormalize (dsize : Nat) (ens_data : Buf K) : Buf K :=
  if 1 / 2 < ens_data.get (2 * dsize) then
    let e1 := forLoop (2 * dsize) (fun j e => e.set j (e.get j / e.get (2 * dsize))) ens_data
    forLoop dsize (fun j e =>
      let e := e.set (j + dsize) (e.get (j + dsize) - e.get j * e.get j)
      e.set (j + dsize) (e.get (j + dsize) / e.get (2 * dsize))) e1
  else ens_data

/-- `DataGatherer::ensemble_average(r, valid, all_data)`: returns `total_valid` and the
gatherer after the call. With the stream closed it returns 0 and changes nothing. -/
def ensemble_average (g : DataGatherer K) (r : K) (valid : Nat → Int) (all_data : Nat → K) :
    Nat × DataGatherer K :=
  if g.raw_is_open = false then (0, g) else
  -- raw output
  let raw := g.raw ++ [r :: (List.range (g.nWorkers * g.dsize)).map all_data]
  -- all results
  let logs := forLoop g.nWorkers (fun i (st : List K × List (String × List K)) =>
    (st.1 ++ [r],
     st.2.mapIdx (fun j res => (res.1, res.2 ++ [all_data (i * g.dsize + j)]))))
    (g.sample_r, g.all_results)
  -- unnormalize for sum
  let e2 := unnormalize g.dsize g.ens_data
  -- add more data
  let added := add_data g.dsize g.nWorkers valid all_data e2
  -- renormalize for access
  let e4 := renormalize g.dsize added.2
  (added.1, { g with raw := raw, sample_r := logs.1, all_results := logs.2, ens_data := e4 })

/-- `DataGatherer::next()`: wipes `ens_data[0 .. 2*dsize]`. -/
def next (g : DataGatherer K) : DataGatherer K :=
  { g with ens_data := forLoop (2 * g.dsize + 1) (fun j e => e.set j 0) g.ens_data }

/-- The number of workers `i < nWorkers` with `valid[i] == 1`. -/
def validCount (nWorkers : Nat) (valid : Nat → Int) : Nat :=
  ((Finset.range nWorkers).filter (fun i => valid i = 1)).card

/-- The sum of `f i` over the workers `i < nWorkers` with `valid[i] == 1`. -/
def validSum (nWorkers : Nat) (valid : Nat → Int) (f : Nat → K) : K :=
  ∑ i in (Finset.range nWorkers).filter (fun i => valid i = 1), f i

/-- The gatherer with `nWorkers` set to `n`, the assignment `nWorkers = _nWorkers` of
`initialize`. -/
def setWorkers (g : DataGatherer K) (n : Nat) : DataGatherer K :=
  { g with nWorkers := n }

/-- The concatenation of two raw arrays, the first of length `n`. -/
def appendBuf {α : Type} (n : Nat) (a b : Nat → α) : Nat → α :=
  fun m => if m < n then a m else b (m - n)

end Gatherer

/-- Example gatherer: two fields, three workers, stream open, stale contents 7. -/
def gathererEx : DataGatherer ℚ :=
  { raw_is_open := true, raw := [], ens_data := ⟨fun _ => 7⟩, dsize := 2, nWorkers := 3,
    all_results := [("aveF", []), ("stdF", [])], sample_r := [] }

/-- Example batch: three rows of two values. -/
def dataEx : Nat → ℚ := fun m => [1, 2, 3, 4, 5, 6].getD m 0

/-- Example validity mask: workers 0 and 2 valid. -/
def validEx : Nat → Int := fun m => [1, 0, 1].getD m 0


/-! ## GenericSimulator (src/pafi/core/GenericSimulator.cpp) -/

/-- The loop `for (i = lo; i < hi; i++) body(i)`. -/
def forFrom {σ : Type} (lo hi : Nat) (body : Nat → σ → σ) (s : σ) : σ :=
  forLoop (hi - lo) (fun m => body (lo + m)) s

/-- The first `n` entries of a raw array, as a list. -/
def Buf.toList {K : Type} (a : Buf K) (n : Nat) : List K :=
  (List.range n).map a.get

/-- The array after the entries of `l` have been stored at indices `0 .. l.length - 1`. -/
def Buf.write {K : Type} (a : Buf K) (l : List K) : Buf K :=
  ⟨fun i => l.getD i (a.get i)⟩

/-- A `spline` object. The class is declared outside src/; the embedding keeps what
`make_path` hands to it: `fit` is `none` for a default-constructed object, and otherwise
holds the arguments `(x, y, cubic)` of the last `set_points` call. -/
structure spline (K : Type) where
  fit : Option (List K × List K × Bool)

/-- The call `p.set_points(x, y, cubic)`. -/
def spline.set_points {K : Type} (_p : spline K) (x y : List K) (cubic : Bool) : spline K :=
  ⟨some (x, y, cubic)⟩

/-- The external collaborators of `make_path`.
`read_data f` is what `gather("x",3,x)` delivers after
`delete_atoms group all; read_data f add merge`: the coordinates (x, y, z per atom, in
atom-id order) of the atoms that file `f` holds, so file `f` has `(read_data f).length / 3`
atoms. `wrap` is `pbc.wrap(v, n)` acting on the `n` entries at `v`; it works in place, so
it keeps the number of entries. -/
structure Engine (K : Type) where
  read_data : String → List K
  wrap : List K → List K
  wrap_length : ∀ l, (wrap l).length = l.length

/-- The fields of `GenericSimulator` that `make_path` and `path` touch. `spline_path` is
`parser->spline_path`, `cout` the lines printed. -/
structure GenericSimulator (K : Type) where
  natoms : Nat
  local_rank : Nat
  x : Buf K
  pathway : List (spline K)
  pathway_r : List K
  spline_path : Bool
  cout : List String

/-- The field `nlocal`. It is assigned in two places only: `nlocal = 0` next to
`natoms = 0` in the constructor and `nlocal = 3*natoms` in `fill_lammps_vectors`. -/
def GenericSimulator.nlocal {K : Type} (s : GenericSimulator K) : Nat := 3 * s.natoms

/-- The field `offset`: assigned `offset = 0` in the constructor and in
`fill_lammps_vectors`. -/
def GenericSimulator.offset {K : Type} (_s : GenericSimulator K) : Nat := 0

section Path

variable {K : Type} [LinearOrderedField K]

/-- `load_config(file, x)`, as far as `x` goes: the gather stores the coordinates of the
atoms of the file at the front of `x`. The array behind `x` has `3*natoms` entries
(`new double[3*natoms]` in `fill_lammps_vectors`); a file with more coordinates than that
makes the gather write past it, which has no defined behaviour and which `Buf` does not
show, so a statement about files of differing sizes is made for files that fit. -/
def load_config (E : Engine K) (file : String) (x : Buf K) : Buf K :=
  x.write (E.read_data file)

/-- `pbc.wrap(x + offset, n)`: wraps the `n` entries from index `offset` on, in place. -/
def pbc_wrap (E : Engine K) (x : Buf K) (offset n : Nat) : Buf K :=
  let w := E.wrap ((List.range n).map (fun i => x.get (i + offset)))
  ⟨fun m => if offset ≤ m ∧ m < offset + n then w.getD (m - offset) (x.get m) else x.get m⟩

/-- Lines 118-133 of `make_path`: load the first knot, then load, subtract, wrap and add
back every later knot. Returns `x` and the array `knots` (`nlocal` entries per knot). -/
def unwrap_knots (E : Engine K) (s : GenericSimulator K) (knot_list : List String) :
    Buf K × Buf K :=
  let nknots := knot_list.length
  let knots : Buf K := ⟨fun _ => 0⟩
  let x := load_config E (knot_list.getD 0 "") s.x
  let knots := forLoop s.nlocal (fun i knots => knots.set i (x.get (i + s.offset))) knots
  forFrom 1 nknots (fun knot (st : Buf K × Buf K) =>
    let x := load_config E (knot_list.getD knot "") st.1
    let x := forLoop s.nlocal (fun i x =>
      x.set (i + s.offset) (x.get (i + s.offset) - st.2.get i)) x
    let x := pbc_wrap E x s.offset s.nlocal
    let knots := forLoop s.nlocal (fun i knots =>
      knots.set (i + knot * s.nlocal) (x.get (i + s.offset) + knots.get i)) st.2
    (x, knots)) (x, knots)

/-- The branch `if(real_coord)` of `make_path` (lines 136-154): returns `pathway_r` and
the vector `r`. -/
def real_coord_params (sqrt : K → K) (natoms nknots : Nat) (knots : Buf K)
    (pathway_r : List K) (r rr : Buf K) : List K × Buf K :=
  let acc := forLoop nknots (fun knot (st : Buf K × Buf K) =>
    let r := st.1.set knot 0
    let rr := st.2.set knot 0
    forLoop (3 * natoms) (fun i (st : Buf K × Buf K) =>
      let dx := knots.get (i + knot * 3 * natoms) - knots.get i
      let r := st.1.set knot (st.1.get knot + dx * dx)
      let dx := knots.get (i + knot * 3 * natoms) - knots.get (i + (nknots - 1) * 3 * natoms)
      let rr := st.2.set knot (st.2.get knot + dx * dx)
      (r, rr)) (r, rr)) (r, rr)
  let r := forLoop (nknots - 1) (fun knot r =>
    r.set knot (sqrt (r.get knot / r.get (nknots - 1)))) acc.1
  let rr := forFrom 1 nknots (fun knot rr =>
    rr.set knot (sqrt (rr.get knot / rr.get 0))) acc.2
  let rr := rr.set 0 1
  let r := r.set (nknots - 1) 1
  forLoop nknots (fun knot (st : List K × Buf K) =>
    (st.1 ++ [(1 / 2) * (st.2.get knot + 1 - rr.get knot)],
     st.2.set knot ((1 / 2) * (st.2.get knot + 1 - rr.get knot)))) (pathway_r, r)

/-- The `else` branch (lines 156-159): `r[knot] = 1.0*float(knot)/float(nknots-1)`. -/
def uniform_params (nknots : Nat) (pathway_r : List K) (r : Buf K) : List K × Buf K :=
  forLoop nknots (fun knot (st : List K × Buf K) =>
    let r := st.2.set knot (1 * (knot : K) / (((nknots : Int) - 1 : Int) : K))
    (st.1 ++ [r.get knot], r)) (pathway_r, r)

/-- Lines 162-165: channel `i` gets `set_points(r, xs, parser->spline_path)` with
`xs[knot] = knots[nlocal*knot + i]`. Threads the vector `xs` and `pathway`. -/
def fit_channels (nlocal nknots : Nat) (knots r : Buf K) (spline_path : Bool)
    (xs : Buf K) (pathway : List (spline K)) : Buf K × List (spline K) :=
  forLoop nlocal (fun i (st : Buf K × List (spline K)) =>
    let xs := forLoop nknots (fun knot xs => xs.set knot (knots.get (nlocal * knot + i))) st.1
    (xs, st.2.modify
      (fun p => p.set_points (r.toList nknots) (xs.toList nknots) spline_path) i))
    (xs, pathway)

/-- `GenericSimulator::make_path(knot_list, real_coord)`. The result `none` stands for the
out-of-range read `knot_list[0]` of an empty vector, on which the C++ code has no defined
behaviour; the function returns `void`, so a result `some s` carries no failure flag. -/
def make_path (E : Engine K) (sqrt : K → K) (s : GenericSimulator K)
    (knot_list : List String) (real_coord : Bool) : Option (GenericSimulator K) :=
  let s := { s with pathway_r := [], pathway := [] }
  if s.nlocal = 0 then
    if s.local_rank = 0 then
      some { s with cout := s.cout ++ ["GenericSimulator::make_path : Not initialized!"] }
    else some s
  else if knot_list = [] then none
  else
    let nknots := knot_list.length
    let xs : Buf K := ⟨fun _ => 0⟩
    let r : Buf K := ⟨fun _ => 0⟩
    let rr : Buf K := ⟨fun _ => 0⟩
    let pathway := List.replicate s.nlocal (⟨none⟩ : spline K)
    let xk := unwrap_knots E s knot_list
    let pr := if real_coord then real_coord_params sqrt s.natoms nknots xk.2 s.pathway_r r rr
      else uniform_params nknots s.pathway_r r
    let fitted := fit_channels s.nlocal nknots xk.2 pr.2 s.spline_path xs pathway
    some { s with x := xk.1, pathway_r := pr.1, pathway := fitted.2 }

/-- `GenericSimulator::path(i, r, d, s)`. The evaluator `deriv p d r` is `p.deriv(d, r)` of
the `spline` class; `none` stands for the out-of-range read `pathway[i]`. -/
def path (deriv : spline K → Int → K → K) (sim : GenericSimulator K)
    (i : Nat) (r : K) (d : Int) (s : K) : Option K :=
  match sim.pathway[i]? with
  | none => none
  | some p =>
    if sim.spline_path = true ∨ d = 0 then some (deriv p d r * s)
    else
      let dr : K := 1 / (sim.pathway_r.length : K)
      let val := deriv p 0 r
      if d = 1 then some ((deriv p 0 (r + dr) - val) * s / dr)
      else some ((deriv p 0 (r + dr) + deriv p 0 (r - dr) - 2 * val) * s / dr / dr)

end Path

/-- The channel that `make_path` fits for coordinate `i`: the object after
`set_points(r, xs, spline_path)` with `xs[knot] = knots[nlocal*knot + i]`. -/
def fitted_channel {K : Type} (nlocal n : Nat) (knots r : Buf K) (flag : Bool) (i : Nat) :
    spline K :=
  ⟨some (r.toList n, (List.range n).map (fun k => knots.get (nlocal * k + i)), flag)⟩

/-- The squared Euclidean distance between knots `a` and `b` over the `3*natoms` entries
that `make_path` reads for each of them in `knots`. -/
def sqdist {K : Type} [LinearOrderedField K] (natoms : Nat) (knots : Buf K) (a b : Nat) : K :=
  ∑ i in Finset.range (3 * natoms),
    (knots.get (i + a * 3 * natoms) - knots.get (i + b * 3 * natoms))
      * (knots.get (i + a * 3 * natoms) - knots.get (i + b * 3 * natoms))

/-- The forward estimate of knot `k` among `n` knots (the vector `r` before the final
loop): 1 for the last knot, else `sqrt(r[k]/r[n-1])` of the squared distances from
knot 0. -/
def fwd_estimate {K : Type} [LinearOrderedField K] (sqrt : K → K) (natoms n : Nat)
    (knots : Buf K) (k : Nat) : K :=
  if k = n - 1 then 1 else sqrt (sqdist natoms knots k 0 / sqdist natoms knots (n - 1) 0)

/-- The backward estimate of knot `k` among `n` knots (the vector `rr`): 1 for knot 0, else
`sqrt(rr[k]/rr[0])` of the squared distances from the last knot. -/
def bwd_estimate {K : Type} [LinearOrderedField K] (sqrt : K → K) (natoms n : Nat)
    (knots : Buf K) (k : Nat) : K :=
  if k = 0 then 1
  else sqrt (sqdist natoms knots k (n - 1) / sqdist natoms knots 0 (n - 1))

/-- The loaded coordinate `i` of knot `k`: entry `i` of what the engine gathers after
reading `knot_list[k]`. -/
def knot_coord {K : Type} [LinearOrderedField K] (E : Engine K) (knot_list : List String)
    (k i : Nat) : K :=
  (E.read_data (knot_list.getD k "")).getD i 0

/-- The wrapped difference of two configurations: `pbc.wrap` applied to the `n` entries
`x[j] - x0[j]`. -/
def wrapped_diff {K : Type} [LinearOrderedField K] (E : Engine K) (n : Nat) (x x0 : Buf K) :
    List K :=
  E.wrap ((List.range n).map (fun j => x.get j - x0.get j))

/-- The Euclidean distance between knots `a` and `b`, over the square root `sqrt`. -/
def knot_dist {K : Type} [LinearOrderedField K] (sqrt : K → K) (natoms : Nat) (knots : Buf K)
    (a b : Nat) : K :=
  sqrt (sqdist natoms knots a b)

/-- Example engine: four one-atom knot files on a line at x = 0, 1, -2, 3, in a
non-periodic cell (the wrap changes nothing). -/
def engineEx (K : Type) [LinearOrderedField K] : Engine K :=
  { read_data := fun f =>
      if f = "knot0" then [0, 0, 0] else if f = "knot1" then [1, 0, 0]
      else if f = "knot2" then [-2, 0, 0] else [3, 0, 0]
    wrap := fun l => l
    wrap_length := fun _ => rfl }

/-- Example simulator with one atom. -/
def simEx (K : Type) [LinearOrderedField K] : GenericSimulator K :=
  { natoms := 1, local_rank := 0, x := ⟨fun _ => 0⟩, pathway := [], pathway_r := [],
    spline_path := true, cout := [] }

/-- Example simulator as the constructor leaves it: `natoms = 0`, `nlocal = 0`. -/
def simUninit (K : Type) [LinearOrderedField K] : GenericSimulator K :=
  { natoms := 0, local_rank := 0, x := ⟨fun _ => 0⟩, pathway := [], pathway_r := [],
    spline_path := true, cout := [] }

/-- Example engine with knot files of different sizes: "knot0" holds two atoms, every
other file one atom. -/
def engineMismatch : Engine ℚ :=
  { read_data := fun f => if f = "knot0" then [0, 0, 0, 1, 0, 0] else [5, 0, 0]
    wrap := fun l => l
    wrap_length := fun _ => rfl }

/-- Example simulator with two atoms. -/
def simTwo : GenericSimulator ℚ :=
  { natoms := 2, local_rank := 0, x := ⟨fun _ => 0⟩, pathway := [], pathway_r := [],
    spline_path := true, cout := [] }

/-- Example evaluator: every channel is the parabola `f(r) = r^2` at order 0. -/
def derivEx : spline ℚ → Int → ℚ → ℚ :=
  fun _ d r => if d = 0 then r * r else 0

/-- Example simulator in fallback (non-spline) mode with one channel and one knot. -/
def simFallback : GenericSimulator ℚ :=
  { natoms := 1, local_rank := 0, x := ⟨fun _ => 0⟩, pathway := [⟨none⟩], pathway_r := [0],
    spline_path := false, cout := [] }

/-! ## GenericSimulator::expansion and LAMMPSSimulator (src/pafi/core/LAMMPSSimulator.cpp)

Further conventions.

* The engine is reached through library calls. `EngineCall` lists the calls that hand
  the engine a command or data, or fetch data from it; each such call is appended to
  `Session.log`. Queries of the engine build (`lammps_version`,
  `lammps_config_has_package`) and of its error status are answered by the `Lammps`
  argument and are not recorded. What the engine answers is a function of the calls
  made so far.
* A pointer returned by `lammps_extract_fix` or `lammps_extract_compute` is read without a
  check; the `Lammps` argument gives the value read. There is no case for a null pointer:
  what is stated of a call that runs to its end is stated for an engine that answers
  these reads.
* A command text `a\nb` given to `run_commands(std::string)` ("Parse and run script from
  string with linebreaks") is written as the list of its lines; a line break at the end of
  the text adds no line. `Parser::split_lines` is declared outside src/.
* `EngineCall.command` keeps the line as the program wrote it next to the text that
  `insert_params` made of it, so a declaration can be counted whatever the substitution.
-/

/-- The conversions between text and numbers that the code takes from the C++ standard
library: `std::stod`, `std::stoi` and `std::to_string` on a `double`. -/
structure Text (K : Type) where
  stod : String → K
  stoi : String → Int
  to_string : K → String

/-- The parts of `Parser` (declared outside src/) that the code reads or writes:
the map `configuration`, the flags `preMin` and `postDump`, `maxjump_thresh`, the scripts
`Script(name)`, the text `seed_str()` returns and the substitution `insert_params`. -/
structure Parser (K : Type) where
  configuration : String → Option String
  preMin : Bool
  postDump : Bool
  maxjump_thresh : K
  Script : String → List String
  seed_str : String
  insert_params : String → String

/-- The read `parser->configuration[key]`: the stored text, or the empty text of a key that
is not in the map. -/
def Parser.get {K : Type} (P : Parser K) (key : String) : String :=
  (P.configuration key).getD ""

/-- The store `parser->configuration[key] = val`. -/
def Parser.put {K : Type} (P : Parser K) (key val : String) : Parser K :=
  { P with configuration := Function.update P.configuration key (some val) }

/-- A library call that reaches the engine. `command line text` is `lammps_command(lmp, text)`
made for the line `line` of a command list, `text` being that line after
`parser->insert_params`; `scatter name count values` carries the `natoms*count` values
handed over. -/
inductive EngineCall (K : Type) where
  | command (line text : String)
  | gather (name : String) (count : Nat)
  | scatter (name : String) (count : Nat) (values : List K)
  | extract_global (name : String)
  | extract_compute (id : String)
  | extract_fix (id : String) (kind index : Nat)

/-- The engine as the code sees it: its build, and its answers as functions of the calls
made so far. `compute_defined` says whether `lammps_extract_compute` returns a non-null
pointer. -/
structure Lammps (K : Type) where
  version : Int
  has_package : String → Bool
  has_error : List (EngineCall K) → Bool
  error_message : List (EngineCall K) → String
  natoms : List (EngineCall K) → Nat
  gather : List (EngineCall K) → String → Nat → List K
  extract_fix : List (EngineCall K) → String → Nat → Nat → K
  compute_defined : List (EngineCall K) → String → Bool
  extract_compute : List (EngineCall K) → String → K

/-- The members that the engine calls and their error bookkeeping write: the calls made
(`log`), `error_count`, `last_error_message`, `last_command`, and the lines printed. -/
structure Session (K : Type) where
  log : List (EngineCall K)
  error_count : Nat
  last_error_message : String
  last_command : String
  cout : List String

/-- The members of `LAMMPSSimulator` (with those of its base class in `sim`) that the
functions below touch. `results` is the map from name to value; `scale` is `scale[3]`. -/
structure LAMMPSSimulator (K : Type) where
  sim : GenericSimulator K
  tag : Int
  parser : Parser K
  session : Session K
  scale : Buf K
  results : String → Option K
  lt : Buf K
  made_fix : Bool
  made_compute : Bool
  has_pafi : Bool
  pafi_package : String
  MinEnergy : K
  refP : K

section Lammps

variable {K : Type} [LinearOrderedField K]

/-- `GenericSimulator::expansion(T, newscale)`. -/
def expansion (C : Text K) (P : Parser K) (T : K) (newscale : Buf K) : Buf K :=
  let base : K × K :=
    if 0 < |C.stod (P.get "LinearThermalExpansion")| then
      (C.stod (P.get "LinearThermalExpansion"), C.stod (P.get "QuadraticThermalExpansion"))
    else (0, 0)
  let l_coeff_base := base.1
  let q_coeff_base := base.2
  let l_coeff := C.stod (P.get "LinearThermalExpansionX")
  let q_coeff := C.stod (P.get "QuadraticThermalExpansionX")
  let newscale :=
    if |l_coeff| ≠ 0 ∨ |q_coeff| ≠ 0 then newscale.set 0 (1 + l_coeff * T + q_coeff * T * T)
    else newscale.set 0 (1 + l_coeff_base * T + q_coeff_base * T * T)
  let l_coeff := C.stod (P.get "LinearThermalExpansionY")
  let q_coeff := C.stod (P.get "QuadraticThermalExpansionY")
  let newscale :=
    if |l_coeff| ≠ 0 ∨ |q_coeff| ≠ 0 then newscale.set 1 (1 + l_coeff * T + q_coeff * T * T)
    else newscale.set 1 (1 + l_coeff_base * T + q_coeff_base * T * T)
  let l_coeff := C.stod (P.get "LinearThermalExpansionZ")
  let q_coeff := C.stod (P.get "QuadraticThermalExpansionZ")
  if |l_coeff| ≠ 0 ∨ |q_coeff| ≠ 0 then newscale.set 2 (1 + l_coeff * T + q_coeff * T * T)
  else newscale.set 2 (1 + l_coeff_base * T + q_coeff_base * T * T)

/-- The names "x", "y", "z" of `std::string xyz[3]`. -/
def xyz (j : Nat) : String := ["x", "y", "z"].getD j ""

/-- The configuration key of the linear coefficient of axis `a` (0, 1, 2 for X, Y, Z). -/
def linear_key (a : Nat) : String :=
  ["LinearThermalExpansionX", "LinearThermalExpansionY", "LinearThermalExpansionZ"].getD a ""

/-- The configuration key of the quadratic coefficient of axis `a`. -/
def quadratic_key (a : Nat) : String :=
  ["QuadraticThermalExpansionX", "QuadraticThermalExpansionY",
    "QuadraticThermalExpansionZ"].getD a ""

/-- `LAMMPSSimulator::log_error(std::string lc)`. -/
def log_error (O : Lammps K) (local_rank : Nat) (lc : String) (io : Session K) : Session K :=
  if O.has_error io.log then
    let error_count := io.error_count + 1
    let error_message := O.error_message io.log
    let cout :=
      if (error_count = 1 ∨ error_message ≠ io.last_error_message) ∧ local_rank = 0 then
        io.cout ++ ["LAMMPSSimulator.log_error():\n\t" ++ error_message,
          "\tFrom command: " ++ lc]
      else io.cout
    { io with error_count := error_count, last_error_message := error_message,
              last_command := lc ++ "\n", cout := cout }
  else io

/-- `LAMMPSSimulator::log_error(std::vector<std::string> lc)`. -/
def log_error_lines (O : Lammps K) (local_rank : Nat) (lc : List String) (io : Session K) :
    Session K :=
  if O.has_error io.log then
    let error_count := io.error_count + 1
    let error_message := O.error_message io.log
    let last_command := lc.foldl (fun acc s => acc ++ (s ++ "\n")) ""
    let cout :=
      if (error_count = 1 ∨ error_message ≠ io.last_error_message) ∧ local_rank = 0 then
        io.cout ++ ["LAMMPSSimulator.log_error():\n\t" ++ error_message, "\tFrom commands: "]
          ++ lc.map (fun s => "\t" ++ s)
      else io.cout
    { io with error_count := error_count, last_error_message := error_message,
              last_command := last_command, cout := cout }
  else io

/-- `LAMMPSSimulator::run_commands(std::vector<std::string> strv)`: every line goes through
`insert_params`, then to `lammps_command`, then `log_error` on the lines parsed so far. -/
def run_commands (O : Lammps K) (P : Parser K) (local_rank : Nat) (strv : List String)
    (io : Session K) : Session K :=
  (strv.foldl (fun (st : List String × Session K) s =>
    let strv_parsed := st.1 ++ [P.insert_params s]
    let io := { st.2 with log := st.2.log ++ [EngineCall.command s (P.insert_params s)] }
    (strv_parsed, log_error_lines O local_rank strv_parsed io)) ([], io)).2

/-- `LAMMPSSimulator::run_script(sn)`. -/
def run_script (O : Lammps K) (P : Parser K) (local_rank : Nat) (sn : String)
    (io : Session K) : Session K :=
  let strv := P.Script sn
  if 0 < strv.length then run_commands O P local_rank (strv ++ ["run 0"]) io else io

/-- `LAMMPSSimulator::gather(name, c, double *v)`: returns `v` after the call. -/
def gather (O : Lammps K) (local_rank : Nat) (name : String) (c : Nat) (v : Buf K)
    (io : Session K) : Buf K × Session K :=
  let v := v.write (O.gather io.log name c)
  let io := { io with log := io.log ++ [EngineCall.gather name c] }
  (v, log_error O local_rank ("lammps_gather(" ++ name ++ ",double," ++ toString c ++ ")") io)

/-- `LAMMPSSimulator::scatter(name, c, double *v)` with `natoms` atoms in the engine. -/
def scatter (O : Lammps K) (local_rank natoms : Nat) (name : String) (c : Nat) (v : Buf K)
    (io : Session K) : Session K :=
  let io := { io with log := io.log ++ [EngineCall.scatter name c (v.toList (natoms * c))] }
  log_error O local_rank ("lammps_scatter(" ++ name ++ ",double," ++ toString c ++ ")") io

/-- `LAMMPSSimulator::gather(name, c, int *v)`. The integer arrays `id`, `species` and
`image` that it fills are not part of the state. -/
def gather_int (O : Lammps K) (local_rank : Nat) (name : String) (c : Nat) (io : Session K) :
    Session K :=
  let io := { io with log := io.log ++ [EngineCall.gather name c] }
  log_error O local_rank ("lammps_gather(" ++ name ++ ",int," ++ toString c ++ ")") io

/-- `LAMMPSSimulator::last_error()`. -/
def last_error (tag : Int) (io : Session K) : String :=
  "\nworker " ++ toString tag ++ " had " ++ toString io.error_count
    ++ " errors\n\tlast message:\n" ++ io.last_error_message ++ "\n\tfrom commands:\n"
    ++ io.last_command ++ "\n"

/-- `LAMMPSSimulator::reset()`. -/
def LAMMPSSimulator.reset (O : Lammps K) (s : LAMMPSSimulator K) : LAMMPSSimulator K :=
  { s with session := run_commands O s.parser s.sim.local_rank ["clear"] s.session,
           made_fix := false, made_compute := false }

/-- `LAMMPSSimulator::load_config(file_string, x)` acting on the member `x`. -/
def LAMMPSSimulator.load_config (E : Engine K) (O : Lammps K) (file_string : String)
    (s : LAMMPSSimulator K) : LAMMPSSimulator K :=
  let io := run_commands O s.parser s.sim.local_rank
    ["delete_atoms group all", "read_data " ++ file_string ++ " add merge"] s.session
  let io := { io with log := io.log ++ [EngineCall.gather "x" 3] }
  let io := log_error O s.sim.local_rank "lammps_gather(x,double,3)" io
  let io :=
    if 0 < io.error_count ∧ s.sim.local_rank = 0 then
      { io with cout := io.cout ++ [last_error s.tag io] }
    else io
  { s with made_fix := false, made_compute := false, session := io,
           sim := { s.sim with x := PAFI.load_config E file_string s.sim.x } }

/-- `LAMMPSSimulator::rescale_cell(T)`. -/
def rescale_cell (C : Text K) (O : Lammps K) (T : K) (s : LAMMPSSimulator K) :
    LAMMPSSimulator K :=
  let newscale := expansion C s.parser T ⟨fun _ => 0⟩
  let ssx := C.to_string (newscale.get 0 / s.scale.get 0)
  let ssy := C.to_string (newscale.get 1 / s.scale.get 1)
  let ssz := C.to_string (newscale.get 2 / s.scale.get 2)
  let io := run_commands O s.parser s.sim.local_rank
    ["change_box all x scale " ++ ssx ++ " y scale " ++ ssy ++ " z scale " ++ ssz, "run 0"]
    s.session
  { s with session := io,
           scale := ((s.scale.set 0 (newscale.get 0)).set 1 (newscale.get 1)).set 2
             (newscale.get 2) }

/-- The channel `pathway[k]`. The functions below read it only for `k < 3*natoms`, after a
check that `pathway` has that many entries. -/
def chan (sim : GenericSimulator K) (k : Nat) : spline K :=
  sim.pathway.getD k ⟨none⟩

/-- The text of the `fix __pafipath` declaration of `populate`. -/
def fix_line : String :=
  "fix __pafipath all property/atom d_ux d_uy d_uz d_nx d_ny d_nz d_dnx d_dny d_dnz"

/-- The text of the `compute __pafipath` declaration of `populate`. -/
def compute_line : String :=
  "compute __pafipath all property/atom d_ux d_uy d_uz d_nx d_ny d_nz d_dnx d_dny d_dnz"

/-- The loop `for i < natoms, j < 3: x[3*i+j] = pathway[3*i+j].deriv(d,r) * scale[j]` of
`populate`. -/
def fill_x (deriv : spline K → Int → K → K) (sim : GenericSimulator K) (scale : Buf K)
    (r : K) (d : Int) (x : Buf K) : Buf K :=
  forLoop sim.natoms (fun i x =>
    forLoop 3 (fun j x => x.set (3 * i + j) (deriv (chan sim (3 * i + j)) d r * scale.get j)) x)
    x

/-- The block "Center of mass projection and tangent length" of `populate`, on the array
`x` holding the scaled first derivative: returns `x` and `norm_mag`. -/
def tangent (sqrt : K → K) (natoms : Nat) (x : Buf K) : Buf K × K :=
  let ncom := forLoop (3 * natoms) (fun i (ncom : Buf K) =>
    ncom.set (i % 3) (ncom.get (i % 3) + x.get i / (natoms : K))) ⟨fun _ => 0⟩
  let x := forLoop (3 * natoms) (fun i (x : Buf K) => x.set i (x.get i - ncom.get (i % 3))) x
  let norm_mag := forLoop (3 * natoms) (fun i (nm : K) => nm + x.get i * x.get i) 0
  let norm_mag := sqrt norm_mag
  (forLoop (3 * natoms) (fun i (x : Buf K) => x.set i (x.get i / norm_mag)) x, norm_mag)

/-- Entry `k` of the scaled first derivative of the path at `r`, the value
`pathway[k].deriv(1,r) * scale[k%3]` that `populate` stores in `x[k]`. -/
def scaled_deriv (deriv : spline K → Int → K → K) (sim : GenericSimulator K) (scale : Buf K)
    (r : K) (k : Nat) : K :=
  deriv (chan sim k) 1 r * scale.get (k % 3)

/-- The mean over the `natoms` atoms of dimension `j` of a field `g` on the `3*natoms`
coordinates. -/
def centre (natoms : Nat) (g : Nat → K) (j : Nat) : K :=
  (∑ i in Finset.range natoms, g (3 * i + j)) / (natoms : K)

/-- The field `g` with the mean of each dimension removed (centre of mass removed). -/
def com_removed (natoms : Nat) (g : Nat → K) (k : Nat) : K :=
  g k - centre natoms g (k % 3)

/-- `LAMMPSSimulator::populate`, block "check for __pafipath fix": the declaration of the
fix unless `made_fix` is set. -/
def declare_fix (O : Lammps K) (s : LAMMPSSimulator K) : LAMMPSSimulator K :=
  if s.made_fix = false then
    { s with session := run_commands O s.parser s.sim.local_rank [fix_line, "run 0"] s.session,
             made_fix := true }
  else s

/-- `LAMMPSSimulator::populate`, the scatter of the path: `x`, then `d_ux`, `d_uy`, `d_uz`
through `lt`. -/
def scatter_path (O : Lammps K) (deriv : spline K → Int → K → K) (r : K)
    (s : LAMMPSSimulator K) : LAMMPSSimulator K :=
  let x := fill_x deriv s.sim s.scale r 0 s.sim.x
  let io := scatter O s.sim.local_rank s.sim.natoms "x" 3 x s.session
  let st := forLoop 3 (fun j (st : Buf K × Session K) =>
    let lt := forLoop s.sim.natoms (fun i (lt : Buf K) =>
      lt.set i (deriv (chan s.sim (3 * i + j)) 0 r * s.scale.get j)) st.1
    (lt, scatter O s.sim.local_rank s.sim.natoms ("d_u" ++ xyz j) 1 lt st.2)) (s.lt, io)
  { s with session := st.2, lt := st.1, sim := { s.sim with x := x } }

/-- `LAMMPSSimulator::populate`, the tangent: the first derivative into `x`, the block
"Center of mass projection and tangent length", the scatter of `d_nx` .. `d_dnz` through
`lt`, and `run 0`. Returns the simulator and `norm_mag`. -/
def scatter_tangent (O : Lammps K) (deriv : spline K → Int → K → K) (sqrt : K → K) (r : K)
    (s : LAMMPSSimulator K) : LAMMPSSimulator K × K :=
  let x := fill_x deriv s.sim s.scale r 1 s.sim.x
  let tn := tangent sqrt s.sim.natoms x
  let st := forLoop 3 (fun j (st : Buf K × Session K) =>
    let lt := forLoop s.sim.natoms (fun i (lt : Buf K) => lt.set i (tn.1.get (3 * i + j))) st.1
    let io := scatter O s.sim.local_rank s.sim.natoms ("d_n" ++ xyz j) 1 lt st.2
    let lt := forLoop s.sim.natoms (fun i (lt : Buf K) =>
      lt.set i (deriv (chan s.sim (3 * i + j)) 2 r * s.scale.get j / tn.2 / tn.2)) lt
    (lt, scatter O s.sim.local_rank s.sim.natoms ("d_dn" ++ xyz j) 1 lt io)) (s.lt, s.session)
  let io := run_commands O s.parser s.sim.local_rank ["run 0"] st.2
  ({ s with session := io, lt := st.1, sim := { s.sim with x := tn.1 } }, tn.2)

/-- `LAMMPSSimulator::populate`, the last block: the declaration of the compute unless
`made_compute` is set. -/
def declare_compute (O : Lammps K) (s : LAMMPSSimulator K) : LAMMPSSimulator K :=
  if s.made_compute = false then
    { s with session := run_commands O s.parser s.sim.local_rank [compute_line, "run 0"]
               s.session,
             made_compute := true }
  else s

/-- The body of `LAMMPSSimulator::populate(r, norm_mag, T)` when `pathway` has its
`3*natoms` channels: returns the simulator and `norm_mag`. -/
def populate_core (C : Text K) (O : Lammps K) (deriv : spline K → Int → K → K)
    (sqrt : K → K) (r T : K) (s : LAMMPSSimulator K) : LAMMPSSimulator K × K :=
  let s := rescale_cell C O T s
  let s := declare_fix O s
  let s := scatter_path O deriv r s
  let st := scatter_tangent O deriv sqrt r s
  (declare_compute O st.1, st.2)

/-- `LAMMPSSimulator::populate(r, norm_mag, T)`. The result `none` stands for the
out-of-range read `pathway[3*i+j]` when `pathway` has fewer than `3*natoms` entries. -/
def populate (C : Text K) (O : Lammps K) (deriv : spline K → Int → K → K) (sqrt : K → K)
    (r T : K) (s : LAMMPSSimulator K) : Option (LAMMPSSimulator K × K) :=
  if s.sim.pathway.length < 3 * s.sim.natoms then none
  else some (populate_core C O deriv sqrt r T s)

/-- A run of `populate` calls, one per `(r, T)` of the list, with nothing in between. -/
def populate_all (C : Text K) (O : Lammps K) (deriv : spline K → Int → K → K)
    (sqrt : K → K) : List (K × K) → LAMMPSSimulator K → Option (LAMMPSSimulator K)
  | [], s => some s
  | c :: rest, s =>
    match populate C O deriv sqrt c.1 c.2 s with
    | none => none
    | some st => populate_all C O deriv sqrt rest st.1

/-- Whether a call is `lammps_command` for the line `line` of the program. -/
def is_command (line : String) : EngineCall K → Bool
  | EngineCall.command l _ => l == line
  | _ => false

/-- The number of times the command `line` occurs among the calls `log`. -/
def issued (line : String) (log : List (EngineCall K)) : Nat :=
  log.countP (is_command line)

/-- A read through the pointer `lammps_extract_fix(lmp, id, 0, kind, index, 0)`. -/
def extract_fix (O : Lammps K) (id : String) (kind index : Nat) (io : Session K) :
    K × Session K :=
  (O.extract_fix io.log id kind index,
   { io with log := io.log ++ [EngineCall.extract_fix id kind index] })

/-- `LAMMPSSimulator::getEnergy()`. -/
def getEnergy (O : Lammps K) (P : Parser K) (local_rank : Nat) (io : Session K) :
    K × Session K :=
  let io1 := run_commands O P local_rank ["run 0"] io
  let io2 := { io1 with log := io1.log ++ [EngineCall.extract_compute "pe"] }
  if O.compute_defined io1.log "pe" = true then (O.extract_compute io1.log "pe", io2)
  else
    let io3 := run_commands O P local_rank
      ["compute pe all pe", "variable pe equal pe", "run 0"] io2
    (O.extract_compute io3.log "pe",
     { io3 with log := io3.log ++ [EngineCall.extract_compute "pe"] })

/-- The store `results[key] = v`. -/
def set_result (results : String → Option K) (key : String) (v : K) : String → Option K :=
  Function.update results key (some v)

/-- The first statements of `LAMMPSSimulator::sample`: `error_count = 0`,
`last_error_message = ""`, `results.clear()`. -/
def sample_clear (s : LAMMPSSimulator K) : LAMMPSSimulator K :=
  { s with session := { s.session with error_count := 0, last_error_message := "" },
           results := fun _ => none }

/-- `LAMMPSSimulator::sample`, the default of `OverDamped`: a missing entry of the
configuration is reported and set to "0". -/
def default_overdamped (s : LAMMPSSimulator K) : LAMMPSSimulator K :=
  if s.parser.configuration "OverDamped" = none then
    { s with
      session :=
        if s.sim.local_rank = 0 then
          { s.session with
            cout := s.session.cout ++ ["LAMMPSSimulator: No OverDamped! Defaulting to 0"] }
        else s.session,
      parser := s.parser.put "OverDamped" "0" }
  else s

/-- `LAMMPSSimulator::sample` from the `OverDamped` default to the `PreRun` script: returns
the simulator and `overdamped`. -/
def sample_prepare (C : Text K) (O : Lammps K) (deriv : spline K → Int → K → K)
    (sqrt : K → K) (r : K) (s : LAMMPSSimulator K) : LAMMPSSimulator K × Int :=
  let s := default_overdamped s
  let overdamped := C.stoi (s.parser.get "OverDamped")
  let s := (populate_core C O deriv sqrt r 0 s).1
  ({ s with session := run_script O s.parser s.sim.local_rank "PreRun" s.session }, overdamped)

/-- `LAMMPSSimulator::sample`, block "pafi fix" to the `PreTherm` script. -/
def sample_fix (C : Text K) (O : Lammps K) (T : K) (s : LAMMPSSimulator K) :
    LAMMPSSimulator K :=
  let s := { s with parser := s.parser.put "Temperature" (C.to_string T) }
  let io := run_commands O s.parser s.sim.local_rank
    ["fix hp all pafi __pafipath " ++ s.parser.get "Temperature" ++ " "
       ++ s.parser.get "Friction" ++ " " ++ s.parser.seed_str ++ " overdamped "
       ++ s.parser.get "OverDamped" ++ " com 1", "run 0"] s.session
  let s := { s with session := io }
  let s :=
    if s.parser.preMin = true then
      let io := run_commands O s.parser s.sim.local_rank
        ["min_style fire", " minimize 0 0.001 " ++ s.parser.get "MinSteps" ++ " "
          ++ s.parser.get "MinSteps"] s.session
      { s with session := io }
    else s
  { s with session := run_script O s.parser s.sim.local_rank "PreTherm" s.session }

/-- The conversion of the time-averaged quantity into `sampleT`. -/
def sample_temperature (BOLTZ : K) (overdamped : Int) (natoms : Nat) (MinEnergy v : K) : K :=
  if overdamped = 1 then (v - MinEnergy) / (natoms : K) / (3 / 2) / BOLTZ else v

/-- `LAMMPSSimulator::sample` from "time average" to `unfix ae`: `MinEnergy`, `refP` and the
thermalization window giving `preT`. -/
def sample_thermalize (O : Lammps K) (BOLTZ : K) (overdamped : Int) (s : LAMMPSSimulator K) :
    LAMMPSSimulator K :=
  let e := getEnergy O s.parser s.sim.local_rank s.session
  let s := { s with session := e.2, MinEnergy := e.1,
                    results := set_result s.results "MinEnergy" e.1 }
  let f := extract_fix O "hp" 1 4 s.session
  let s := { s with session := f.2, refP := f.1 }
  let io := run_commands O s.parser s.sim.local_rank
    ["reset_timestep 0",
     "fix ae all ave/time 1 " ++ s.parser.get "ThermWindow" ++ " "
       ++ s.parser.get "ThermSteps" ++ " "
       ++ (if overdamped = 1 then "c_pe" else "c_thermo_temp"),
     "run " ++ s.parser.get "ThermSteps"] s.session
  let s := { s with session := io }
  let f := extract_fix O "ae" 0 0 s.session
  let sampleT := sample_temperature BOLTZ overdamped s.sim.natoms s.MinEnergy f.1
  let s := { s with session := f.2, results := set_result s.results "preT" sampleT }
  { s with session := run_commands O s.parser s.sim.local_rank ["unfix ae", "run 0"] s.session }

/-- `LAMMPSSimulator::constrained_average()`. -/
def constrained_average (O : Lammps K) (s : LAMMPSSimulator K) : LAMMPSSimulator K :=
  let io := run_commands O s.parser s.sim.local_rank
    ["run " ++ s.parser.get "SampleSteps"] s.session
  { s with session := io }

/-- `LAMMPSSimulator::sample` from "time averages for sampling" to `postT`. -/
def sample_average (O : Lammps K) (BOLTZ : K) (overdamped : Int) (s : LAMMPSSimulator K) :
    LAMMPSSimulator K :=
  let SampleSteps := s.parser.get "SampleSteps"
  let io := run_commands O s.parser s.sim.local_rank
    (["reset_timestep 0",
      "fix ae all ave/time 1 " ++ SampleSteps ++ " " ++ SampleSteps ++ " "
        ++ (if overdamped = 1 then "c_pe" else "c_thermo_temp")]
      ++ (if s.parser.postDump = true then
            ["fix ap all ave/atom 1 " ++ SampleSteps ++ " " ++ SampleSteps ++ " x y z"]
          else [])
      ++ ["fix af all ave/time 1 " ++ SampleSteps ++ " " ++ SampleSteps
            ++ " f_hp[1] f_hp[2] f_hp[3] f_hp[4]"]) s.session
  let s := { s with session := io }
  let s := constrained_average O s
  let f := extract_fix O "ae" 0 0 s.session
  let sampleT := sample_temperature BOLTZ overdamped s.sim.natoms s.MinEnergy f.1
  { s with session := f.2, results := set_result s.results "postT" sampleT }

/-- `LAMMPSSimulator::sample`, the four reads of the fix `af`: `aveF`, `stdF`, `avePsi` and
`dXTangent`. -/
def sample_force (O : Lammps K) (norm_mag : K) (s : LAMMPSSimulator K) : LAMMPSSimulator K :=
  let f := extract_fix O "af" 1 0 s.session
  let s := { s with session := f.2,
                    results := set_result s.results "aveF" (f.1 * norm_mag * (-1)) }
  let f := extract_fix O "af" 1 1 s.session
  let s := { s with session := f.2,
                    results := set_result s.results "stdF" (f.1 * norm_mag * norm_mag) }
  let stdF := (s.results "stdF").getD 0 - (s.results "aveF").getD 0 * (s.results "aveF").getD 0
  let s := { s with results := set_result s.results "stdF" stdF }
  let f := extract_fix O "af" 1 2 s.session
  let s := { s with session := f.2, results := set_result s.results "avePsi" f.1 }
  let f := extract_fix O "af" 1 3 s.session
  { s with session := f.2, results := set_result s.results "dXTangent" f.1 }

/-- The deviation of the gathered positions from the path: `dev[i] -= path(i,r,0,scale[i%3])`
for `i < 3*natoms`, then `pbc.wrap(dev, 3*natoms)`. Under the check made by `sample` the
read `pathway[i]` inside `path` is in range, so the default of `getD` is never taken. -/
def wrapped_deviation (E : Engine K) (deriv : spline K → Int → K → K) (r : K)
    (s : LAMMPSSimulator K) (dev : Buf K) : Buf K :=
  let dev := forLoop (3 * s.sim.natoms) (fun i (dev : Buf K) =>
    dev.set i (dev.get i - (path deriv s.sim i r 0 (s.scale.get (i % 3))).getD 0)) dev
  pbc_wrap E dev 0 (3 * s.sim.natoms)

/-- `LAMMPSSimulator::sample`, block "post minmization - max jump" up to `pbc.wrap`: the
minimization, the gather of the positions into `dev` and the wrapped deviation. -/
def sample_gather (E : Engine K) (O : Lammps K) (deriv : spline K → Int → K → K) (r : K)
    (s : LAMMPSSimulator K) (dev : Buf K) : LAMMPSSimulator K × Buf K :=
  let io := run_commands O s.parser s.sim.local_rank
    ["min_style fire", " minimize 0 0.001 " ++ s.parser.get "MinSteps" ++ " "
      ++ s.parser.get "MinSteps"] s.session
  let s := { s with session := io }
  let g := gather O s.sim.local_rank "x" 3 dev s.session
  let s := { s with session := g.2 }
  (s, wrapped_deviation E deriv r s g.1)

/-- The value of `a_disp` for atom `i`: the squared length of its three entries of `dev`. -/
def atom_disp (dev : Buf K) (i : Nat) : K :=
  forLoop 3 (fun j (a : K) => a + dev.get (3 * i + j) * dev.get (3 * i + j)) 0

/-- The loop over the atoms after the wrap: per atom `a_disp`, the running maximum
`max_disp`, and the zero-fill of `dev` when `postDump` is off. Returns `dev` and
`max_disp`. -/
def max_jump (postDump : Bool) (natoms : Nat) (dev : Buf K) : Buf K × K :=
  forLoop natoms (fun i (st : Buf K × K) =>
    let a_disp := atom_disp st.1 i
    let max_disp := max a_disp st.2
    let dev :=
      if postDump = false then forLoop 3 (fun j (dev : Buf K) => dev.set (3 * i + j) 0) st.1
      else st.1
    (dev, max_disp)) (dev, 0)

/-- `LAMMPSSimulator::sample`, the loop over the atoms, `MaxJump` and `Valid`: returns the
simulator, `dev` and `max_disp`. -/
def sample_jump (sqrt : K → K) (s : LAMMPSSimulator K) (dev : Buf K) :
    LAMMPSSimulator K × Buf K × K :=
  let mj := max_jump s.parser.postDump s.sim.natoms dev
  let s := { s with results := set_result s.results "MaxJump" (sqrt mj.2) }
  let valid : K := if (s.results "MaxJump").getD 0 < s.parser.maxjump_thresh then 1 else 0
  let s := { s with results := set_result s.results "Valid" valid }
  (s, mj.1, mj.2)

/-- `LAMMPSSimulator::sample`, block "deviation average": `MaxDev`. -/
def sample_deviation (E : Engine K) (O : Lammps K) (deriv : spline K → Int → K → K)
    (sqrt : K → K) (r max_disp : K) (s : LAMMPSSimulator K) (dev : Buf K) :
    LAMMPSSimulator K × Buf K :=
  if s.parser.postDump = true then
    let g := gather O s.sim.local_rank "f_ap" 3 dev s.session
    let s := { s with session := g.2 }
    let dev := forLoop (3 * s.sim.natoms) (fun i (dev : Buf K) =>
      dev.set i (dev.get i / s.scale.get (i % 3) - (path deriv s.sim i r 0 1).getD 0)) g.1
    let dev := pbc_wrap E dev 0 (3 * s.sim.natoms)
    let st := forLoop (3 * s.sim.natoms) (fun i (st : Buf K × K) =>
      let dev := st.1.set i (st.1.get i * s.scale.get (i % 3))
      (dev, max st.2 (sqrt (dev.get i * dev.get i)))) (dev, 0)
    let s := { s with results := set_result s.results "MaxDev" st.2 }
    ({ s with session := run_commands O s.parser s.sim.local_rank ["unfix ap"] s.session },
     st.1)
  else ({ s with results := set_result s.results "MaxDev" (sqrt max_disp) }, dev)

/-- `LAMMPSSimulator::sample` from "reset" to the end: the unfixes, the `PostRun` script and
the last `populate(r, norm_mag, 0.0)`. -/
def sample_finish (C : Text K) (O : Lammps K) (deriv : spline K → Int → K → K)
    (sqrt : K → K) (r : K) (s : LAMMPSSimulator K) : LAMMPSSimulator K :=
  let io := run_commands O s.parser s.sim.local_rank
    ["unfix ae", "unfix af", "unfix hp"] s.session
  let s := { s with session := io }
  let s := { s with session := run_script O s.parser s.sim.local_rank "PostRun" s.session }
  (populate_core C O deriv sqrt r 0 s).1

/-- `LAMMPSSimulator::sample` from the `OverDamped` default to `postT`, just before the
reads of the fix `af`: returns the simulator and the `norm_mag` that
`populate(r, norm_mag, T)` gave. -/
def sample_before_force (C : Text K) (O : Lammps K) (deriv : spline K → Int → K → K)
    (sqrt : K → K) (BOLTZ : K) (r T : K) (s : LAMMPSSimulator K) : LAMMPSSimulator K × K :=
  let sp := sample_prepare C O deriv sqrt r s
  let pn := populate_core C O deriv sqrt r T sp.1
  let s := sample_fix C O T pn.1
  let s := sample_thermalize O BOLTZ sp.2 s
  (sample_average O BOLTZ sp.2 s, pn.2)

/-- `LAMMPSSimulator::sample` from the `OverDamped` default to `pbc.wrap(dev,3*natoms)`,
just before the loop over the atoms: returns the simulator and `dev`. -/
def sample_before_jump (C : Text K) (E : Engine K) (O : Lammps K)
    (deriv : spline K → Int → K → K) (sqrt : K → K) (BOLTZ : K) (r T : K)
    (s : LAMMPSSimulator K) (dev : Buf K) : LAMMPSSimulator K × Buf K :=
  let sf := sample_before_force C O deriv sqrt BOLTZ r T s
  sample_gather E O deriv r (sample_force O sf.2 sf.1) dev

/-- `LAMMPSSimulator::sample(params, dev)` once both parameters are found. -/
def sample_body (C : Text K) (E : Engine K) (O : Lammps K) (deriv : spline K → Int → K → K)
    (sqrt : K → K) (BOLTZ : K) (r T : K) (s : LAMMPSSimulator K) (dev : Buf K) :
    LAMMPSSimulator K × Buf K :=
  let sb := sample_before_jump C E O deriv sqrt BOLTZ r T s dev
  let sj := sample_jump sqrt sb.1 sb.2
  let sd := sample_deviation E O deriv sqrt r sj.2.2 sj.1 sj.2.1
  (sample_finish C O deriv sqrt r sd.1, sd.2)

/-- `LAMMPSSimulator::sample(params, dev)`: returns the simulator and `dev`. `params` maps a
name to its value when present. The result `none` stands for the out-of-range read of
`pathway` when it has fewer than `3*natoms` entries. -/
def sample (C : Text K) (E : Engine K) (O : Lammps K) (deriv : spline K → Int → K → K)
    (sqrt : K → K) (BOLTZ : K) (s : LAMMPSSimulator K) (params : String → Option K)
    (dev : Buf K) : Option (LAMMPSSimulator K × Buf K) :=
  let s := sample_clear s
  match params "ReactionCoordinate" with
  | none =>
    some ((if s.sim.local_rank = 0 then
      { s with session := { s.session with
          cout := s.session.cout ++ ["LAMMPSSimulator: No ReactionCoordinate! Exiting!"] } }
      else s), dev)
  | some r =>
    match params "Temperature" with
    | none =>
      some ((if s.sim.local_rank = 0 then
        { s with session := { s.session with
            cout := s.session.cout ++ ["LAMMPSSimulator: No Temperature! Exiting!"] } }
        else s), dev)
    | some T =>
      if s.sim.pathway.length < 3 * s.sim.natoms then none
      else some (sample_body C E O deriv sqrt BOLTZ r T s dev)

/-- `LAMMPSSimulator::check_lammps_compatibility()`: returns the answer and the simulator. -/
def check_lammps_compatibility (O : Lammps K) (s : LAMMPSSimulator K) :
    Bool × LAMMPSSimulator K :=
  let lammps_release_int := O.version
  let s := { s with pafi_package := "USER-MISC" }
  if lammps_release_int < 20201101 then
    (false,
     if s.sim.local_rank = 0 then
       { s with session := { s.session with
           cout := s.session.cout ++ ["LAMMPSSimulator(): Require version > 28July2020!"] } }
     else s)
  else
    let s := if lammps_release_int ≥ 20210728 then { s with pafi_package := "EXTRA-FIX" } else s
    let s := { s with has_pafi := O.has_package s.pafi_package }
    (s.has_pafi, s)

/-- The reads of `LAMMPSSimulator::getCellData()`. The cell they give goes to `pbc.load`;
the wrap of that cell is the `Engine` argument of the functions that wrap. -/
def getCellData (io : Session K) : Session K :=
  let io := { io with log := io.log ++ [EngineCall.extract_global "boxlo",
    EngineCall.extract_global "boxhi", EngineCall.extract_global "periodicity"] }
  forLoop 3 (fun i (io : Session K) =>
    { io with log := io.log ++ [EngineCall.extract_global (["xy", "xz", "yz"].getD i "")] }) io

/-- `LAMMPSSimulator::fill_lammps_vectors()`. -/
def fill_lammps_vectors (O : Lammps K) (s : LAMMPSSimulator K) : LAMMPSSimulator K :=
  let new_natoms := O.natoms s.session.log
  let io := { s.session with log := s.session.log ++ [EngineCall.extract_global "natoms"] }
  let io :=
    if 0 < s.sim.natoms ∧ new_natoms ≠ s.sim.natoms ∧ s.sim.local_rank = 0 then
      { io with cout := io.cout ++ ["LAMMPSSimulator(): Atom count changed on reload!!"] }
    else io
  let io := gather_int O s.sim.local_rank "id" 1 io
  let io := getCellData io
  let io := gather_int O s.sim.local_rank "type" 1 io
  let io := gather_int O s.sim.local_rank "image" 1 io
  let g := gather O s.sim.local_rank "x" 3 s.sim.x io
  let io :=
    if s.has_pafi = false ∧ s.sim.local_rank = 0 then
      { g.2 with cout := g.2.cout
          ++ ["PAFI Error: missing " ++ s.pafi_package ++ " package in LAMMPS"]
          ++ (if 0 < g.2.error_count then [last_error s.tag g.2] else []) }
    else g.2
  { s with session := io, sim := { s.sim with natoms := new_natoms, x := g.1 } }

/-- The constructor `LAMMPSSimulator::LAMMPSSimulator(instance_comm, p, h, t)`, base class
constructor included, for a worker of rank `local_rank`. The argument `raw` gives the
indeterminate contents of the members that the constructor never assigns on the path
taken (`made_fix`, `made_compute`, `has_pafi`, `lt`, `MinEnergy`, `refP`, the array behind
`x`, and `spline_path` of the parser); the engine is new, so no call has reached it. -/
def LAMMPSSimulator.create (O : Lammps K) (P : Parser K) (local_rank : Nat) (t : Int)
    (raw : LAMMPSSimulator K) : LAMMPSSimulator K :=
  let s : LAMMPSSimulator K :=
    { raw with
      tag := t
      parser := P
      session := { log := [], error_count := 0, last_error_message := "", last_command := "",
                   cout := [] }
      scale := ⟨fun _ => 1⟩
      results := fun _ => none
      pafi_package := ""
      sim := { raw.sim with natoms := 0, local_rank := local_rank, pathway := [],
                            pathway_r := [], cout := [] } }
  let c := check_lammps_compatibility O s
  if c.1 = false then c.2
  else
    let s := c.2.reset O
    let s := { s with session := run_script O s.parser s.sim.local_rank "Input" s.session }
    let s := { s with sim := { s.sim with natoms := 0 } }
    fill_lammps_vectors O s

end Lammps

/-- Example conversions: three coefficient texts are read as numbers, every other text
as 0. -/
def textEx (K : Type) [LinearOrderedField K] : Text K :=
  { stod := fun s =>
      if s = "1e-5" then 1 / 100000 else if s = "2e-5" then 2 / 100000
      else if s = "3e-9" then 3 / 1000000000 else 0
    stoi := fun s => if s = "1" then 1 else 0
    to_string := fun _ => "1.000000" }

/-- Example parser: axis X has its own linear coefficient, the base pair is set, the
other axes have none; no scripts. -/
def parserEx (K : Type) [LinearOrderedField K] : Parser K :=
  { configuration := fun key =>
      if key = "LinearThermalExpansion" then some "1e-5"
      else if key = "QuadraticThermalExpansion" then some "3e-9"
      else if key = "LinearThermalExpansionX" then some "2e-5"
      else if key = "OverDamped" then some "1"
      else some "0"
    preMin := false
    postDump := false
    maxjump_thresh := 1 / 2
    Script := fun _ => []
    seed_str := "123"
    insert_params := fun s => s }

/-- Example engine build: a release of 2021 with the package `EXTRA-FIX`, no errors, two
atoms at (0,0,0) and (5,0,0), and a fix `af` whose outputs 0 and 1 are 2 and 5. -/
def lammpsEx (K : Type) [LinearOrderedField K] : Lammps K :=
  { version := 20210929
    has_package := fun p => p == "EXTRA-FIX"
    has_error := fun _ => false
    error_message := fun _ => ""
    natoms := fun _ => 2
    gather := fun _ _ _ => [0, 0, 0, 5, 0, 0]
    extract_fix := fun _ _ _ index => if index = 0 then 2 else if index = 1 then 5 else 0
    compute_defined := fun _ _ => true
    extract_compute := fun _ _ => 0 }

/-- Example engine build that is too old: a release of March 2020. -/
def lammpsOld (K : Type) [LinearOrderedField K] : Lammps K :=
  { lammpsEx K with version := 20200303 }

/-- Example evaluator: a channel fitted to two knots is the straight line through them. -/
def derivLine (K : Type) [LinearOrderedField K] : spline K → Int → K → K :=
  fun p d r =>
    match p.fit with
    | none => 0
    | some (_, ys, _) =>
      if d = 0 then ys.getD 0 0 + r * (ys.getD 1 0 - ys.getD 0 0)
      else if d = 1 then ys.getD 1 0 - ys.getD 0 0
      else 0

/-- Example path of two atoms: atom 0 moves from (0,0,0) to (2,0,2), atom 1 rests at
(5,0,0). -/
def pathwayEx (K : Type) [LinearOrderedField K] : List (spline K) :=
  [⟨some ([0, 1], [0, 2], true)⟩, ⟨some ([0, 1], [0, 0], true)⟩, ⟨some ([0, 1], [0, 2], true)⟩,
   ⟨some ([0, 1], [5, 5], true)⟩, ⟨some ([0, 1], [0, 0], true)⟩, ⟨some ([0, 1], [0, 0], true)⟩]

/-- Example simulator after an engine reset: two atoms on `pathwayEx`, unit scale, no
declaration made, no call recorded. -/
def lsimEx (K : Type) [LinearOrderedField K] : LAMMPSSimulator K :=
  { sim := { natoms := 2, local_rank := 0, x := ⟨fun _ => 0⟩, pathway := pathwayEx K,
             pathway_r := [0, 1], spline_path := true, cout := [] }
    tag := 0
    parser := parserEx K
    session := { log := [], error_count := 0, last_error_message := "", last_command := "",
                 cout := [] }
    scale := ⟨fun _ => 1⟩
    results := fun _ => none
    lt := ⟨fun _ => 0⟩
    made_fix := false
    made_compute := false
    has_pafi := true
    pafi_package := "EXTRA-FIX"
    MinEnergy := 0
    refP := 0 }

/-- Example sampling parameters: `ReactionCoordinate = 0` and `Temperature = 0`. -/
def paramsEx (K : Type) [LinearOrderedField K] : String → Option K :=
  fun key => if key = "ReactionCoordinate" ∨ key = "Temperature" then some 0 else none

/-- Example sampling parameters at a finite temperature: `ReactionCoordinate = 0` and
`Temperature = 300`. -/
def paramsHot (K : Type) [LinearOrderedField K] : String → Option K :=
  fun key =>
    if key = "ReactionCoordinate" then some 0 else if key = "Temperature" then some 300
    else none

/-- Example sampling parameters without `Temperature`. -/
def paramsNoTemperature (K : Type) [LinearOrderedField K] : String → Option K :=
  fun key => if key = "ReactionCoordinate" then some 0 else none

/-- Example deviation buffer: every entry is 7. -/
def devEx (K : Type) [LinearOrderedField K] : Buf K := ⟨fun _ => 7⟩

/-- Example square root on ℚ: exact on the squares of rationals. -/
def sqrtEx : ℚ → ℚ := Rat.sqrt
/-! ### Loop and buffer lemmas -/

section Lemmas

variable {K : Type}

theorem forLoop_succ {σ : Type} (n : Nat) (body : Nat → σ → σ) (s : σ) :
    forLoop (n + 1) body s = body n (forLoop n body s) := rfl

theorem Buf.get_set (a : Buf K) (k j : Nat) (v : K) :
    (a.set k v).get j = if j = k then v else a.get j := by
  simp [Buf.set, Function.update_apply]

theorem Buf.ext_get {a b : Buf K} (h : ∀ k, a.get k = b.get k) : a = b := by
  cases a; cases b; congr; funext k; exact h k

/-- Loop invariant rule: `P j s` holds of the state `s` after `j` iterations. -/
theorem forLoop_inv {σ : Type} (P : Nat → σ → Prop) (n : Nat) (body : Nat → σ → σ) (s0 : σ)
    (h0 : P 0 s0) (hstep : ∀ j, j < n → ∀ s, P j s → P (j + 1) (body j s)) :
    P n (forLoop n body s0) := by
  induction n with
  | zero => exact h0
  | succ n ih =>
    rw [forLoop_succ]
    exact hstep n (Nat.lt_succ_self n) _ (ih (fun j hj => hstep j (Nat.lt_succ_of_lt hj)))

/-- Loop invariant rule for a loop over a buffer: `V j k` is the entry at index `k`
after `j` iterations. -/
theorem forLoop_get (n : Nat) (body : Nat → Buf K → Buf K) (e0 : Buf K) (V : Nat → Nat → K)
    (h0 : ∀ k, e0.get k = V 0 k)
    (hstep : ∀ j, j < n → ∀ e : Buf K, (∀ k, e.get k = V j k) →
      ∀ k, (body j e).get k = V (j + 1) k) (k : Nat) :
    (forLoop n body e0).get k = V n k := by
  induction n generalizing k with
  | zero => exact h0 k
  | succ n ih =>
    rw [forLoop_succ]
    exact hstep n (Nat.lt_succ_self n) _
      (fun k => ih (fun j hj => hstep j (Nat.lt_succ_of_lt hj)) k) k

end Lemmas


/-! ### Engine-call lemmas -/

section LammpsLemmas

variable {K : Type}

theorem forLoop_three {σ : Type} (body : Nat → σ → σ) (s : σ) :
    forLoop 3 body s = body 2 (body 1 (body 0 s)) := rfl

theorem log_error_log (O : Lammps K) (rank : Nat) (lc : String) (io : Session K) :
    (log_error O rank lc io).log = io.log := by
  unfold log_error
  split_ifs <;> rfl

theorem log_error_lines_log (O : Lammps K) (rank : Nat) (lc : List String) (io : Session K) :
    (log_error_lines O rank lc io).log = io.log := by
  unfold log_error_lines
  split_ifs <;> rfl

theorem run_commands_foldl_log (O : Lammps K) (P : Parser K) (rank : Nat) (strv : List String)
    (acc : List String) (io : Session K) :
    (strv.foldl (fun (st : List String × Session K) s =>
      let strv_parsed := st.1 ++ [P.insert_params s]
      let io := { st.2 with log := st.2.log ++ [EngineCall.command s (P.insert_params s)] }
      (strv_parsed, log_error_lines O rank strv_parsed io)) (acc, io)).2.log
      = io.log ++ strv.map (fun s => EngineCall.command s (P.insert_params s)) := by
  induction strv generalizing acc io with
  | nil => simp
  | cons a l ih =>
    rw [List.foldl_cons, ih]
    simp [log_error_lines_log]

/-- The calls that `run_commands` makes: one `lammps_command` per line, in order. -/
theorem run_commands_log (O : Lammps K) (P : Parser K) (rank : Nat) (strv : List String)
    (io : Session K) :
    (run_commands O P rank strv io).log
      = io.log ++ strv.map (fun s => EngineCall.command s (P.insert_params s)) := by
  unfold run_commands
  exact run_commands_foldl_log O P rank strv [] io

theorem run_script_log (O : Lammps K) (P : Parser K) (rank : Nat) (sn : String)
    (io : Session K) :
    ∃ l, (run_script O P rank sn io).log = io.log ++ l := by
  unfold run_script
  dsimp only
  split_ifs
  · exact ⟨_, run_commands_log O P rank _ io⟩
  · exact ⟨[], by simp⟩

theorem scatter_log (O : Lammps K) (rank natoms : Nat) (name : String) (c : Nat) (v : Buf K)
    (io : Session K) :
    (scatter O rank natoms name c v io).log
      = io.log ++ [EngineCall.scatter name c (v.toList (natoms * c))] := by
  unfold scatter
  simp [log_error_log]

theorem gather_log (O : Lammps K) (rank : Nat) (name : String) (c : Nat) (v : Buf K)
    (io : Session K) :
    (gather O rank name c v io).2.log = io.log ++ [EngineCall.gather name c] := by
  unfold gather
  simp [log_error_log]

theorem issued_append (line : String) (l1 l2 : List (EngineCall K)) :
    issued line (l1 ++ l2) = issued line l1 + issued line l2 := by
  simp [issued, List.countP_append]

end LammpsLemmas

section GathererProofs

variable {K : Type} [LinearOrderedField K]

theorem unnormalize_get (d : Nat) (e : Buf K) (k : Nat) :
    (unnormalize d e).get k =
      if k < d then e.get k * e.get (2 * d)
      else if k < 2 * d then
        (e.get k * e.get (2 * d) + e.get (k - d) * e.get (k - d)) * e.get (2 * d)
      else e.get k := by
  unfold unnormalize
  simp only
  rw [forLoop_get (2 * d) _ _ (fun j k =>
      if k < j then
        (if d ≤ k then e.get k * e.get (2 * d) + e.get (k - d) * e.get (k - d) else e.get k)
          * e.get (2 * d)
      else if d ≤ k ∧ k < 2 * d then e.get k * e.get (2 * d) + e.get (k - d) * e.get (k - d)
      else e.get k)]
  · split_ifs <;> first | rfl | omega
  · intro k
    rw [forLoop_get d _ _ (fun j k =>
      if d ≤ k ∧ k < d + j then e.get k * e.get (2 * d) + e.get (k - d) * e.get (k - d)
      else e.get k)]
    · split_ifs <;> first | rfl | omega
    · intro k; rw [if_neg (by omega)]
    · intro j hj b hb k
      simp only [Buf.get_set, hb]
      have e1 : j + d - d = j := by omega
      split_ifs <;> first | rfl | omega | (subst_vars; simp only [e1])
  · intro j hj b hb k
    simp only [Buf.get_set, hb]
    split_ifs <;> first | rfl | omega | (subst_vars; rfl)


theorem add_row_get (d : Nat) (a : Nat → K) (i : Nat) (e : Buf K) (k : Nat) :
    (add_row d a i e).get k =
      if k < d then e.get k + a (i * d + k)
      else if k < 2 * d then e.get k + a (i * d + (k - d)) * a (i * d + (k - d))
      else if k = 2 * d then e.get k + 1
      else e.get k := by
  unfold add_row
  simp only
  rw [forLoop_get d _ _ (fun j k =>
      if k < j then e.get k + a (i * d + k)
      else if d ≤ k ∧ k < d + j then e.get k + a (i * d + (k - d)) * a (i * d + (k - d))
      else if k = 2 * d then e.get k + 1
      else e.get k)]
  · split_ifs <;> first | rfl | omega
  · intro k
    rw [Buf.get_set]
    split_ifs <;> first | rfl | omega | (subst_vars; rfl)
  · intro j hj b hb k
    simp only [Buf.get_set, hb]
    have e1 : j + d - d = j := by omega
    split_ifs <;> first | rfl | omega | (subst_vars; simp only [e1])

theorem validCount_succ (n : Nat) (valid : Nat → Int) :
    validCount (n + 1) valid = if valid n = 1 then validCount n valid + 1 else validCount n valid := by
  unfold validCount
  rw [Finset.range_succ, Finset.filter_insert]
  split_ifs with h
  · rw [Finset.card_insert_of_not_mem (by simp)]
  · rfl

theorem validSum_succ (n : Nat) (valid : Nat → Int) (f : Nat → K) :
    validSum n.succ valid f = if valid n = 1 then validSum n valid f + f n else validSum n valid f := by
  unfold validSum
  rw [Finset.range_succ, Finset.filter_insert]
  split_ifs with h
  · rw [Finset.sum_insert (by simp), add_comm]
  · rfl

theorem add_data_fst (d n : Nat) (valid : Nat → Int) (a : Nat → K) (e : Buf K) :
    (add_data d n valid a e).1 = validCount n valid := by
  induction n with
  | zero => rfl
  | succ n ih =>
    unfold add_data at ih ⊢
    rw [forLoop_succ, validCount_succ]
    split_ifs with h
    · simp only [ih]
    · exact ih

theorem add_data_get (d n : Nat) (valid : Nat → Int) (a : Nat → K) (e : Buf K) (k : Nat) :
    (add_data d n valid a e).2.get k =
      if k < d then e.get k + validSum n valid (fun i => a (i * d + k))
      else if k < 2 * d then
        e.get k + validSum n valid (fun i => a (i * d + (k - d)) * a (i * d + (k - d)))
      else if k = 2 * d then e.get k + (validCount n valid : K)
      else e.get k := by
  induction n generalizing k with
  | zero => simp [add_data, forLoop, validSum, validCount]
  | succ n ih =>
    unfold add_data at ih ⊢
    rw [forLoop_succ, validCount_succ, validSum_succ, validSum_succ]
    by_cases h : valid n = 1
    · simp only [if_pos h, add_row_get, ih]
      split_ifs <;> first | rfl | omega | (push_cast; ring)
    · simp only [if_neg h, ih]

theorem renormalize_get (d : Nat) (e : Buf K) (k : Nat) :
    (renormalize d e).get k =
      if 1 / 2 < e.get (2 * d) then
        if k < d then e.get k / e.get (2 * d)
        else if k < 2 * d then
          (e.get k / e.get (2 * d)
            - e.get (k - d) / e.get (2 * d) * (e.get (k - d) / e.get (2 * d))) / e.get (2 * d)
        else e.get k
      else e.get k := by
  unfold renormalize
  by_cases hc : 1 / 2 < e.get (2 * d)
  · simp only [if_pos hc]
    rw [forLoop_get d _ _ (fun j k =>
      if d ≤ k ∧ k < d + j then
        (e.get k / e.get (2 * d)
            - e.get (k - d) / e.get (2 * d) * (e.get (k - d) / e.get (2 * d))) / e.get (2 * d)
      else if k < 2 * d then e.get k / e.get (2 * d) else e.get k)]
    · split_ifs <;> first | rfl | omega
    · intro k
      rw [forLoop_get (2 * d) _ _ (fun j k => if k < j then e.get k / e.get (2 * d) else e.get k)]
      · split_ifs <;> first | rfl | omega
      · intro k; rw [if_neg (by omega)]
      · intro j hj b hb k
        simp only [Buf.get_set, hb]
        split_ifs <;> first | rfl | omega | (subst_vars; rfl)
    · intro j hj b hb k
      simp only [Buf.get_set, hb]
      have e1 : j + d - d = j := by omega
      split_ifs <;> first | rfl | omega | (subst_vars; simp only [e1])
  · simp only [if_neg hc]

theorem next_get (g : DataGatherer K) (k : Nat) :
    (next g).ens_data.get k = if k < 2 * g.dsize + 1 then 0 else g.ens_data.get k := by
  unfold next
  simp only
  rw [forLoop_get (2 * g.dsize + 1) _ _ (fun j k => if k < j then 0 else g.ens_data.get k)]
  · intro k; rw [if_neg (by omega)]
  · intro j hj b hb k
    simp only [Buf.get_set, hb]
    split_ifs <;> first | rfl | omega


theorem validSum_eq_zero (n : Nat) (valid : Nat → Int) (f : Nat → K)
    (h : validCount n valid = 0) : validSum n valid f = 0 := by
  unfold validCount at h
  unfold validSum
  rw [Finset.card_eq_zero.mp h, Finset.sum_empty]

/-- One fold, on a buffer that holds the normalised form of the running sums `S`, `Q`
over `c` samples: the buffer then holds the normalised form of the enlarged sums. -/
theorem fold_get (d n : Nat) (valid : Nat → Int) (a : Nat → K) (e : Buf K) (c : Nat)
    (S Q : Nat → K) (hc : e.get (2 * d) = (c : K))
    (hS : ∀ j, j < d → e.get j = S j / c)
    (hQ : ∀ j, j < d → e.get (j + d) = (Q j / c - S j / c * (S j / c)) / c)
    (h0 : c = 0 → ∀ j, j < d → S j = 0 ∧ Q j = 0) :
    (renormalize d (add_data d n valid a (unnormalize d e)).2).get (2 * d)
        = ((c + validCount n valid : Nat) : K) ∧
    (∀ j, j < d →
      (renormalize d (add_data d n valid a (unnormalize d e)).2).get j
        = (S j + validSum n valid (fun i => a (i * d + j))) / (c + validCount n valid : Nat) ∧
      (renormalize d (add_data d n valid a (unnormalize d e)).2).get (j + d)
        = ((Q j + validSum n valid (fun i => a (i * d + j) * a (i * d + j)))
              / (c + validCount n valid : Nat)
            - (S j + validSum n valid (fun i => a (i * d + j))) / (c + validCount n valid : Nat)
              * ((S j + validSum n valid (fun i => a (i * d + j)))
                  / (c + validCount n valid : Nat)))
          / (c + validCount n valid : Nat)) ∧
    (∀ k, 2 * d < k →
      (renormalize d (add_data d n valid a (unnormalize d e)).2).get k = e.get k) := by
  have hcnt : (add_data d n valid a (unnormalize d e)).2.get (2 * d)
      = ((c + validCount n valid : Nat) : K) := by
    rw [add_data_get, if_neg (by omega), if_neg (by omega), if_pos rfl, unnormalize_get,
      if_neg (by omega), if_neg (by omega), hc]
    push_cast; ring
  refine ⟨?_, ?_, ?_⟩
  · rw [renormalize_get, hcnt]
    split_ifs <;> first | rfl | omega
  · intro j hj
    have hj1 : (add_data d n valid a (unnormalize d e)).2.get j
        = S j / c * c + validSum n valid (fun i => a (i * d + j)) := by
      rw [add_data_get, if_pos hj, unnormalize_get, if_pos hj, hc, hS j hj]
    have hj2 : (add_data d n valid a (unnormalize d e)).2.get (j + d)
        = ((Q j / c - S j / c * (S j / c)) / c * c + S j / c * (S j / c)) * c
          + validSum n valid (fun i => a (i * d + j) * a (i * d + j)) := by
      rw [add_data_get, if_neg (by omega), if_pos (by omega), unnormalize_get,
        if_neg (by omega), if_pos (by omega), hc, hQ j hj]
      have e1 : j + d - d = j := by omega
      rw [e1, hS j hj]
    have e1 : j + d - d = j := by omega
    rw [renormalize_get, renormalize_get, hcnt, e1, hj1, hj2]
    by_cases hz : c = 0
    · have hSz := (h0 hz j hj).1
      have hQz := (h0 hz j hj).2
      subst hz
      by_cases hM : validCount n valid = 0
      · have hgt : ¬ ((1 : K) / 2 < ((0 + validCount n valid : Nat) : K)) := by
          rw [hM]; norm_num
        rw [if_neg hgt, if_neg hgt, validSum_eq_zero n valid _ hM,
          validSum_eq_zero n valid _ hM, hSz, hQz, hM]
        simp
      · have hgt : (1 : K) / 2 < ((0 + validCount n valid : Nat) : K) := by
          have : (1 : K) ≤ ((0 + validCount n valid : Nat) : K) := by
            exact_mod_cast Nat.one_le_iff_ne_zero.mpr (by omega)
          linarith
        rw [if_pos hgt, if_pos hgt, if_pos hj, if_neg (by omega), if_pos (by omega), hSz, hQz]
        simp
    · have hcK : (c : K) ≠ 0 := by exact_mod_cast hz
      have hgt : (1 : K) / 2 < ((c + validCount n valid : Nat) : K) := by
        have : (1 : K) ≤ ((c + validCount n valid : Nat) : K) := by
          exact_mod_cast Nat.one_le_iff_ne_zero.mpr (by omega)
        linarith
      rw [if_pos hgt, if_pos hgt, if_pos hj, if_neg (by omega), if_pos (by omega)]
      have q1 : S j / c * c = S j := by field_simp
      have q2 : ((Q j / c - S j / c * (S j / c)) / c * c + S j / c * (S j / c)) * c = Q j := by
        field_simp
        ring
      rw [q1, q2]
      exact ⟨rfl, rfl⟩
  · intro k hk
    have hk1 : (add_data d n valid a (unnormalize d e)).2.get k = e.get k := by
      rw [add_data_get, unnormalize_get]
      split_ifs <;> first | rfl | omega
    rw [renormalize_get]
    split_ifs <;> first | exact hk1 | omega


theorem validCount_congr (n : Nat) (v w : Nat → Int) (h : ∀ i, i < n → v i = w i) :
    validCount n v = validCount n w := by
  induction n with
  | zero => rfl
  | succ n ih =>
    rw [validCount_succ, validCount_succ, ih (fun i hi => h i (Nat.lt_succ_of_lt hi)),
      h n (Nat.lt_succ_self n)]

theorem validSum_congr (n : Nat) (v w : Nat → Int) (f f2 : Nat → K)
    (h : ∀ i, i < n → v i = w i) (hf : ∀ i, i < n → f i = f2 i) :
    validSum n v f = validSum n w f2 := by
  induction n with
  | zero => rfl
  | succ n ih =>
    rw [validSum_succ, validSum_succ, ih (fun i hi => h i (Nat.lt_succ_of_lt hi))
      (fun i hi => hf i (Nat.lt_succ_of_lt hi)), h n (Nat.lt_succ_self n),
      hf n (Nat.lt_succ_self n)]

theorem validCount_append (nA nB : Nat) (vA vB : Nat → Int) :
    validCount (nA + nB) (appendBuf nA vA vB) = validCount nA vA + validCount nB vB := by
  induction nB with
  | zero =>
    exact validCount_congr nA _ _ (fun i hi => by simp [appendBuf, hi])
  | succ n ih =>
    rw [← Nat.add_assoc, validCount_succ, validCount_succ, ih]
    have : appendBuf nA vA vB (nA + n) = vB n := by simp [appendBuf]
    rw [this]
    split_ifs <;> omega

theorem validSum_append (nA nB : Nat) (vA vB : Nat → Int) (fA fB f : Nat → K)
    (hA : ∀ i, i < nA → f i = fA i) (hB : ∀ i, f (nA + i) = fB i) :
    validSum (nA + nB) (appendBuf nA vA vB) f = validSum nA vA fA + validSum nB vB fB := by
  induction nB with
  | zero =>
    rw [Nat.add_zero,
      validSum_congr nA (appendBuf nA vA vB) vA f fA (fun i hi => by simp [appendBuf, hi]) hA]
    simp [validSum]
  | succ n ih =>
    rw [← Nat.add_assoc, validSum_succ, validSum_succ, ih]
    have : appendBuf nA vA vB (nA + n) = vB n := by simp [appendBuf]
    rw [this, hB n]
    split_ifs
    · ring
    · rfl

theorem appendBuf_row_left {α : Type} (nA d : Nat) (dA dB : Nat → α) (i j : Nat) (hi : i < nA)
    (hj : j < d) : appendBuf (nA * d) dA dB (i * d + j) = dA (i * d + j) := by
  have h1 : (i + 1) * d ≤ nA * d := Nat.mul_le_mul_right d hi
  rw [Nat.add_mul] at h1
  simp only [appendBuf]
  rw [if_pos (by omega)]

theorem appendBuf_row_right {α : Type} (nA d : Nat) (dA dB : Nat → α) (i j : Nat) :
    appendBuf (nA * d) dA dB ((nA + i) * d + j) = dB (i * d + j) := by
  simp only [appendBuf, Nat.add_mul]
  rw [if_neg (by omega)]
  congr 1
  omega


/-- C3: with the output stream open, `ensemble_average` returns the number of workers
`i < nWorkers` with `valid[i] == 1`, the counter `ens_data[2*dsize]` after the call is its
value before the call plus the returned number, and so the counter does not decrease. -/
theorem ensemble_average_counter (g : DataGatherer K) (r : K) (valid : Nat → Int)
    (all_data : Nat → K) (hopen : g.raw_is_open = true) :
    (ensemble_average g r valid all_data).1 = validCount g.nWorkers valid ∧
    (ensemble_average g r valid all_data).2.ens_data.get (2 * g.dsize)
      = g.ens_data.get (2 * g.dsize) + ((ensemble_average g r valid all_data).1 : K) ∧
    g.ens_data.get (2 * g.dsize)
      ≤ (ensemble_average g r valid all_data).2.ens_data.get (2 * g.dsize) := by
  have h1 : (ensemble_average g r valid all_data).1 = validCount g.nWorkers valid := by
    simp only [ensemble_average, hopen, Bool.true_eq_false, if_false, add_data_fst]
  have h2 : (ensemble_average g r valid all_data).2.ens_data.get (2 * g.dsize)
      = g.ens_data.get (2 * g.dsize) + (validCount g.nWorkers valid : K) := by
    simp only [ensemble_average, hopen, Bool.true_eq_false, if_false]
    rw [renormalize_get, add_data_get, unnormalize_get]
    split_ifs <;> first | rfl | omega
  refine ⟨h1, ?_, ?_⟩
  · rw [h2, h1]
  · rw [h2]
    exact le_add_of_nonneg_right (Nat.cast_nonneg _)

/-- Witness for C3 on the example gatherer. -/
theorem ensemble_average_counter_witness :
    gathererEx.raw_is_open = true ∧
    ((ensemble_average gathererEx 0 validEx dataEx).1 = validCount gathererEx.nWorkers validEx ∧
    (ensemble_average gathererEx 0 validEx dataEx).2.ens_data.get (2 * gathererEx.dsize)
      = gathererEx.ens_data.get (2 * gathererEx.dsize)
        + ((ensemble_average gathererEx 0 validEx dataEx).1 : ℚ) ∧
    gathererEx.ens_data.get (2 * gathererEx.dsize)
      ≤ (ensemble_average gathererEx 0 validEx dataEx).2.ens_data.get (2 * gathererEx.dsize)) :=
  ⟨rfl, ensemble_average_counter gathererEx 0 validEx dataEx rfl⟩

/-- C1: with the stream open and `M ≥ 1` valid workers, `next()` followed by one
`ensemble_average` leaves in `ens_data[j]` the mean of field `j` over the valid rows, in
`ens_data[dsize+j]` the value (mean of squares - mean^2)/M, and in `ens_data[2*dsize]` the
count `M`, whatever the accumulator held before. -/
theorem next_ensemble_average_mean (g : DataGatherer K) (r : K) (valid : Nat → Int)
    (all_data : Nat → K) (hopen : g.raw_is_open = true)
    (_hM : 1 ≤ validCount g.nWorkers valid) :
    (∀ j, j < g.dsize →
      (ensemble_average (next g) r valid all_data).2.ens_data.get j
        = validSum g.nWorkers valid (fun i => all_data (i * g.dsize + j))
            / (validCount g.nWorkers valid : K) ∧
      (ensemble_average (next g) r valid all_data).2.ens_data.get (g.dsize + j)
        = (validSum g.nWorkers valid
              (fun i => all_data (i * g.dsize + j) * all_data (i * g.dsize + j))
              / (validCount g.nWorkers valid : K)
            - (validSum g.nWorkers valid (fun i => all_data (i * g.dsize + j))
                / (validCount g.nWorkers valid : K)) ^ 2)
          / (validCount g.nWorkers valid : K)) ∧
    (ensemble_average (next g) r valid all_data).2.ens_data.get (2 * g.dsize)
      = (validCount g.nWorkers valid : K) := by
  have hop : (next g).raw_is_open = true := hopen
  have hf := fold_get g.dsize g.nWorkers valid all_data (next g).ens_data 0 (fun _ => 0)
    (fun _ => 0) (by rw [next_get, if_pos (by omega)]; simp)
    (fun j hj => by rw [next_get, if_pos (by omega)]; simp)
    (fun j hj => by rw [next_get, if_pos (by omega)]; simp)
    (fun _ j _ => ⟨rfl, rfl⟩)
  have hens : (ensemble_average (next g) r valid all_data).2.ens_data
      = renormalize g.dsize (add_data g.dsize g.nWorkers valid all_data
          (unnormalize g.dsize (next g).ens_data)).2 := by
    simp only [ensemble_average, hop, Bool.true_eq_false, if_false]
    rfl
  rw [hens]
  simp only [Nat.zero_add, zero_add] at hf
  refine ⟨fun j hj => ⟨(hf.2.1 j hj).1, ?_⟩, hf.1⟩
  rw [Nat.add_comm, (hf.2.1 j hj).2, pow_two]

/-- Witness for C1 on the example gatherer: two of three workers valid. -/
theorem next_ensemble_average_mean_witness :
    gathererEx.raw_is_open = true ∧ 1 ≤ validCount gathererEx.nWorkers validEx ∧
    ((∀ j, j < gathererEx.dsize →
      (ensemble_average (next gathererEx) 0 validEx dataEx).2.ens_data.get j
        = validSum gathererEx.nWorkers validEx (fun i => dataEx (i * gathererEx.dsize + j))
            / (validCount gathererEx.nWorkers validEx : ℚ) ∧
      (ensemble_average (next gathererEx) 0 validEx dataEx).2.ens_data.get (gathererEx.dsize + j)
        = (validSum gathererEx.nWorkers validEx
              (fun i => dataEx (i * gathererEx.dsize + j) * dataEx (i * gathererEx.dsize + j))
              / (validCount gathererEx.nWorkers validEx : ℚ)
            - (validSum gathererEx.nWorkers validEx (fun i => dataEx (i * gathererEx.dsize + j))
                / (validCount gathererEx.nWorkers validEx : ℚ)) ^ 2)
          / (validCount gathererEx.nWorkers validEx : ℚ)) ∧
    (ensemble_average (next gathererEx) 0 validEx dataEx).2.ens_data.get (2 * gathererEx.dsize)
      = (validCount gathererEx.nWorkers validEx : ℚ)) :=
  ⟨rfl, by decide, next_ensemble_average_mean gathererEx 0 validEx dataEx rfl (by decide)⟩


theorem ensemble_average_closed (g : DataGatherer K) (r : K) (valid : Nat → Int)
    (all_data : Nat → K) (hclosed : g.raw_is_open = false) :
    ensemble_average g r valid all_data = (0, g) := by
  simp only [ensemble_average, hclosed, if_true]

theorem ensemble_average_ens_data (g : DataGatherer K) (r : K) (valid : Nat → Int)
    (all_data : Nat → K) (hopen : g.raw_is_open = true) :
    (ensemble_average g r valid all_data).2.ens_data
      = renormalize g.dsize (add_data g.dsize g.nWorkers valid all_data
          (unnormalize g.dsize g.ens_data)).2 := by
  simp only [ensemble_average, hopen, Bool.true_eq_false, if_false]

theorem ensemble_average_raw_is_open (g : DataGatherer K) (r : K) (valid : Nat → Int)
    (all_data : Nat → K) :
    (ensemble_average g r valid all_data).2.raw_is_open = g.raw_is_open := by
  cases h : g.raw_is_open with
  | false => rw [ensemble_average_closed g r valid all_data h, h]
  | true => simp only [ensemble_average, h, Bool.true_eq_false, if_false]

theorem ensemble_average_dsize (g : DataGatherer K) (r : K) (valid : Nat → Int)
    (all_data : Nat → K) :
    (ensemble_average g r valid all_data).2.dsize = g.dsize := by
  cases h : g.raw_is_open with
  | false => rw [ensemble_average_closed g r valid all_data h]
  | true => simp only [ensemble_average, h, Bool.true_eq_false, if_false]

/-- C2: from a reset accumulator, folding batch A (`nA` rows) and then batch B (`nB` rows)
without `next()` in between leaves the same `ens_data` (means, variances, counter) as one
fold of the concatenated batch with the concatenated mask. -/
theorem ensemble_average_incremental (g : DataGatherer K) (nA nB : Nat) (rA rB rAB : K)
    (validA validB : Nat → Int) (dataA dataB : Nat → K) :
    (ensemble_average
        (setWorkers (ensemble_average (setWorkers (next g) nA) rA validA dataA).2 nB)
        rB validB dataB).2.ens_data
      = (ensemble_average (setWorkers (next g) (nA + nB)) rAB
          (appendBuf nA validA validB) (appendBuf (nA * g.dsize) dataA dataB)).2.ens_data := by
  cases hopen : g.raw_is_open with
  | false =>
    have h1 : (setWorkers (next g) nA).raw_is_open = false := hopen
    have h2 : (setWorkers (next g) (nA + nB)).raw_is_open = false := hopen
    have h3 : (setWorkers (0, setWorkers (next g) nA).2 nB).raw_is_open = false := hopen
    rw [ensemble_average_closed _ _ _ _ h2, ensemble_average_closed _ _ _ _ h1,
      ensemble_average_closed _ _ _ _ h3]
    rfl
  | true =>
    have hA := fold_get g.dsize nA validA dataA (next g).ens_data 0 (fun _ => 0)
      (fun _ => 0) (by rw [next_get, if_pos (by omega)]; simp)
      (fun j hj => by rw [next_get, if_pos (by omega)]; simp)
      (fun j hj => by rw [next_get, if_pos (by omega)]; simp)
      (fun _ j _ => ⟨rfl, rfl⟩)
    have hAB := fold_get g.dsize (nA + nB) (appendBuf nA validA validB)
      (appendBuf (nA * g.dsize) dataA dataB) (next g).ens_data 0 (fun _ => 0)
      (fun _ => 0) (by rw [next_get, if_pos (by omega)]; simp)
      (fun j hj => by rw [next_get, if_pos (by omega)]; simp)
      (fun j hj => by rw [next_get, if_pos (by omega)]; simp)
      (fun _ j _ => ⟨rfl, rfl⟩)
    have hB := fold_get g.dsize nB validB dataB
      (renormalize g.dsize (add_data g.dsize nA validA dataA
        (unnormalize g.dsize (next g).ens_data)).2) (0 + validCount nA validA)
      (fun j => 0 + validSum nA validA (fun i => dataA (i * g.dsize + j)))
      (fun j => 0 + validSum nA validA (fun i => dataA (i * g.dsize + j) * dataA (i * g.dsize + j)))
      hA.1 (fun j hj => (hA.2.1 j hj).1) (fun j hj => (hA.2.1 j hj).2)
      (fun hz j _ => by
        have hz2 : validCount nA validA = 0 := by omega
        refine ⟨?_, ?_⟩ <;> simp [validSum_eq_zero nA validA _ hz2])
    have hcnt := validCount_append nA nB validA validB
    have hsum : ∀ j, j < g.dsize →
        validSum (nA + nB) (appendBuf nA validA validB)
            (fun i => appendBuf (nA * g.dsize) dataA dataB (i * g.dsize + j))
          = validSum nA validA (fun i => dataA (i * g.dsize + j))
            + validSum nB validB (fun i => dataB (i * g.dsize + j)) := fun j hj =>
      validSum_append nA nB validA validB _ _ _
        (fun i hi => appendBuf_row_left nA g.dsize dataA dataB i j hi hj)
        (fun i => appendBuf_row_right nA g.dsize dataA dataB i j)
    have hsq : ∀ j, j < g.dsize →
        validSum (nA + nB) (appendBuf nA validA validB)
            (fun i => appendBuf (nA * g.dsize) dataA dataB (i * g.dsize + j)
              * appendBuf (nA * g.dsize) dataA dataB (i * g.dsize + j))
          = validSum nA validA (fun i => dataA (i * g.dsize + j) * dataA (i * g.dsize + j))
            + validSum nB validB (fun i => dataB (i * g.dsize + j) * dataB (i * g.dsize + j)) :=
      fun j hj =>
      validSum_append nA nB validA validB _ _ _
        (fun i hi => by
          rw [appendBuf_row_left nA g.dsize dataA dataB i j hi hj])
        (fun i => by
          rw [appendBuf_row_right nA g.dsize dataA dataB i j])
    have o1 : (setWorkers (next g) nA).raw_is_open = true := hopen
    have o2 : (setWorkers (next g) (nA + nB)).raw_is_open = true := hopen
    have o3 : (setWorkers (ensemble_average (setWorkers (next g) nA) rA validA dataA).2
        nB).raw_is_open = true :=
      (ensemble_average_raw_is_open (setWorkers (next g) nA) rA validA dataA).trans o1
    have d3 : (setWorkers (ensemble_average (setWorkers (next g) nA) rA validA dataA).2
        nB).dsize = g.dsize :=
      ensemble_average_dsize (setWorkers (next g) nA) rA validA dataA
    have e3 : (setWorkers (ensemble_average (setWorkers (next g) nA) rA validA dataA).2
        nB).ens_data
        = renormalize g.dsize (add_data g.dsize nA validA dataA
            (unnormalize g.dsize (next g).ens_data)).2 :=
      ensemble_average_ens_data _ _ _ _ o1
    rw [ensemble_average_ens_data _ _ _ _ o3, ensemble_average_ens_data _ _ _ _ o2, d3, e3]
    show renormalize g.dsize (add_data g.dsize nB validB dataB _).2
      = renormalize g.dsize (add_data g.dsize (nA + nB) _ _ (unnormalize g.dsize (next g).ens_data)).2
    apply Buf.ext_get
    intro k
    by_cases h1 : k < g.dsize
    · rw [(hB.2.1 k h1).1, (hAB.2.1 k h1).1, hsum k h1, hcnt]
      simp only [Nat.zero_add, zero_add]
    · by_cases h2 : k < 2 * g.dsize
      · have hk : k = (k - g.dsize) + g.dsize := by omega
        have hj : k - g.dsize < g.dsize := by omega
        rw [hk, (hB.2.1 _ hj).2, (hAB.2.1 _ hj).2, hsum _ hj, hsq _ hj, hcnt]
        simp only [Nat.zero_add, zero_add]
      · by_cases h3 : k = 2 * g.dsize
        · rw [h3, hB.1, hAB.1, hcnt, Nat.add_assoc]
        · rw [hB.2.2 k (by omega), hA.2.2 k (by omega), hAB.2.2 k (by omega)]

end GathererProofs

section PathProofs

variable {K : Type} [LinearOrderedField K]

theorem uniform_params_fst (n : Nat) (pr : List K) (r : Buf K) :
    (uniform_params n pr r).1
      = pr ++ (List.range n).map (fun k : Nat => (k : K) / (((n : Int) - 1 : Int) : K)) := by
  unfold uniform_params
  refine forLoop_inv (fun j (st : List K × Buf K) =>
    st.1 = pr ++ (List.range j).map (fun k : Nat => (k : K) / (((n : Int) - 1 : Int) : K)))
    n _ (pr, r) (by simp) ?_
  intro j _ st hst
  simp only [Buf.get_set, if_true, hst, List.range_succ, List.map_append, List.map_cons,
    List.map_nil, List.append_assoc, one_mul]

omit [LinearOrderedField K] in
theorem nlocal_ne_zero (s : GenericSimulator K) (hn : s.natoms ≠ 0) :
    ({ s with pathway_r := [], pathway := [] } : GenericSimulator K).nlocal ≠ 0 := by
  show 3 * s.natoms ≠ 0
  omega

/-- The result of `make_path` on an initialised simulator and a non-empty knot list. -/
theorem make_path_eq (E : Engine K) (sqrt : K → K) (s : GenericSimulator K)
    (knot_list : List String) (real_coord : Bool) (hn : s.natoms ≠ 0)
    (hK : knot_list ≠ []) :
    make_path E sqrt s knot_list real_coord =
      some { s with
        x := (unwrap_knots E s knot_list).1
        pathway_r := (if real_coord then
            real_coord_params sqrt s.natoms knot_list.length (unwrap_knots E s knot_list).2
              [] ⟨fun _ => 0⟩ ⟨fun _ => 0⟩
          else uniform_params knot_list.length [] ⟨fun _ => 0⟩).1
        pathway := (fit_channels s.nlocal knot_list.length (unwrap_knots E s knot_list).2
          (if real_coord then
            real_coord_params sqrt s.natoms knot_list.length (unwrap_knots E s knot_list).2
              [] ⟨fun _ => 0⟩ ⟨fun _ => 0⟩
          else uniform_params knot_list.length [] ⟨fun _ => 0⟩).2 s.spline_path ⟨fun _ => 0⟩
          (List.replicate s.nlocal ⟨none⟩)).2 } := by
  unfold make_path
  simp only
  rw [if_neg (nlocal_ne_zero s hn), if_neg hK]
  rfl

/-- The result of `make_path` when `nlocal == 0`. -/
theorem make_path_uninitialised (E : Engine K) (sqrt : K → K) (s : GenericSimulator K)
    (knot_list : List String) (real_coord : Bool) (hn : s.natoms = 0) :
    ∃ s2, make_path E sqrt s knot_list real_coord = some s2 ∧ s2.pathway_r = [] ∧
      s2.pathway = [] := by
  have h0 : ({ s with pathway_r := [], pathway := [] } : GenericSimulator K).nlocal = 0 := by
    show 3 * s.natoms = 0
    omega
  unfold make_path
  simp only
  rw [if_pos h0]
  split_ifs
  · exact ⟨_, rfl, rfl, rfl⟩
  · exact ⟨_, rfl, rfl, rfl⟩

/-- The knot parameters of uniform-spacing mode. -/
theorem make_path_uniform_pathway_r (E : Engine K) (sqrt : K → K) (s : GenericSimulator K)
    (knot_list : List String) (hn : s.natoms ≠ 0) (hK : knot_list ≠ []) :
    ∃ s2, make_path E sqrt s knot_list false = some s2 ∧
      s2.pathway_r = (List.range knot_list.length).map
        (fun k : Nat => (k : K) / (((knot_list.length : Int) - 1 : Int) : K)) := by
  refine ⟨_, make_path_eq E sqrt s knot_list false hn hK, ?_⟩
  simp only [Bool.false_eq_true, if_false]
  rw [uniform_params_fst]
  rfl

omit [LinearOrderedField K] in
theorem xs_loop_toList (nlocal n i : Nat) (knots xs : Buf K) :
    (forLoop n (fun knot (xs : Buf K) => xs.set knot (knots.get (nlocal * knot + i))) xs).toList n
      = (List.range n).map (fun k => knots.get (nlocal * k + i)) := by
  unfold Buf.toList
  apply List.map_congr_left
  intro k hk
  rw [List.mem_range] at hk
  rw [forLoop_get n _ xs (fun j k => if k < j then knots.get (nlocal * k + i) else xs.get k)]
  · rw [if_pos hk]
  · intro k; rw [if_neg (by omega)]
  · intro j _ b hb k
    simp only [Buf.get_set, hb]
    split_ifs <;> first | rfl | omega | (subst_vars; rfl)

omit [LinearOrderedField K] in
theorem fit_channels_snd (nlocal n : Nat) (knots r : Buf K) (flag : Bool) (xs : Buf K) :
    (fit_channels nlocal n knots r flag xs (List.replicate nlocal ⟨none⟩)).2
      = (List.range nlocal).map (fitted_channel nlocal n knots r flag) := by
  unfold fit_channels
  have h := forLoop_inv (fun j (st : Buf K × List (spline K)) =>
      ∀ m, st.2[m]? = if m < j then some (fitted_channel nlocal n knots r flag m)
        else if m < nlocal then some ⟨none⟩ else none)
    nlocal (fun i (st : Buf K × List (spline K)) =>
      let xs := forLoop n (fun knot xs => xs.set knot (knots.get (nlocal * knot + i))) st.1
      (xs, st.2.modify
        (fun p => p.set_points (r.toList n) (xs.toList n) flag) i))
    (xs, List.replicate nlocal ⟨none⟩)
    (by
      intro m
      rw [List.getElem?_replicate, if_neg (Nat.not_lt_zero m)])
    (by
      intro j hj st hst m
      simp only [List.getElem?_modify, hst, xs_loop_toList]
      by_cases h1 : m < j
      · have h2 : m < j + 1 := by omega
        have h3 : ¬ j = m := by omega
        simp only [h1, h2, h3, if_true, if_false, Option.map_eq_map, Option.map_some']
      · by_cases h2 : m = j
        · subst h2
          have h3 : m < m + 1 := by omega
          simp only [h1, hj, h3, if_true, if_false, Option.map_eq_map, Option.map_some']
          rfl
        · have h3 : ¬ m < j + 1 := by omega
          have h4 : ¬ j = m := by omega
          simp only [h1, h3, h4, if_false]
          by_cases h5 : m < nlocal
          · simp only [h5, if_true, Option.map_eq_map, Option.map_some']
          · simp only [h5, if_false, Option.map_eq_map, Option.map_none'])
  apply List.ext_getElem?
  intro m
  rw [h m, List.getElem?_map]
  by_cases h1 : m < nlocal
  · simp only [h1, if_true, List.getElem?_range h1, Option.map_some']
  · have h2 : (List.range nlocal)[m]? = none :=
      List.getElem?_eq_none (by rw [List.length_range]; omega)
    simp only [h1, if_false, h2, Option.map_none']

/-- The accumulation loop of the real-coordinate branch: entry `k < nknots` of `r` becomes
the squared distance of knot `k` from knot 0, that of `rr` from the last knot. -/
theorem real_coord_acc (natoms n : Nat) (knots r rr : Buf K) :
    ∀ k,
      ((forLoop n (fun knot (st : Buf K × Buf K) =>
        let r := st.1.set knot 0
        let rr := st.2.set knot 0
        forLoop (3 * natoms) (fun i (st : Buf K × Buf K) =>
          let dx := knots.get (i + knot * 3 * natoms) - knots.get i
          let r := st.1.set knot (st.1.get knot + dx * dx)
          let dx := knots.get (i + knot * 3 * natoms) - knots.get (i + (n - 1) * 3 * natoms)
          let rr := st.2.set knot (st.2.get knot + dx * dx)
          (r, rr)) (r, rr)) (r, rr)).1.get k
        = if k < n then sqdist natoms knots k 0 else r.get k) ∧
      ((forLoop n (fun knot (st : Buf K × Buf K) =>
        let r := st.1.set knot 0
        let rr := st.2.set knot 0
        forLoop (3 * natoms) (fun i (st : Buf K × Buf K) =>
          let dx := knots.get (i + knot * 3 * natoms) - knots.get i
          let r := st.1.set knot (st.1.get knot + dx * dx)
          let dx := knots.get (i + knot * 3 * natoms) - knots.get (i + (n - 1) * 3 * natoms)
          let rr := st.2.set knot (st.2.get knot + dx * dx)
          (r, rr)) (r, rr)) (r, rr)).2.get k
        = if k < n then sqdist natoms knots k (n - 1) else rr.get k) := by
  refine forLoop_inv (fun j (st : Buf K × Buf K) => ∀ k,
      (st.1.get k = if k < j then sqdist natoms knots k 0 else r.get k) ∧
      (st.2.get k = if k < j then sqdist natoms knots k (n - 1) else rr.get k)) n _ (r, rr)
    (fun k => by simp) ?_
  intro j _ st hst
  have hin := forLoop_inv (fun m (t : Buf K × Buf K) => ∀ k,
      (t.1.get k = if k = j then
          ∑ i in Finset.range m, (knots.get (i + j * 3 * natoms) - knots.get (i + 0 * 3 * natoms))
            * (knots.get (i + j * 3 * natoms) - knots.get (i + 0 * 3 * natoms))
        else st.1.get k) ∧
      (t.2.get k = if k = j then
          ∑ i in Finset.range m,
            (knots.get (i + j * 3 * natoms) - knots.get (i + (n - 1) * 3 * natoms))
            * (knots.get (i + j * 3 * natoms) - knots.get (i + (n - 1) * 3 * natoms))
        else st.2.get k)) (3 * natoms)
    (fun i (st : Buf K × Buf K) =>
          let dx := knots.get (i + j * 3 * natoms) - knots.get i
          let r := st.1.set j (st.1.get j + dx * dx)
          let dx := knots.get (i + j * 3 * natoms) - knots.get (i + (n - 1) * 3 * natoms)
          let rr := st.2.set j (st.2.get j + dx * dx)
          (r, rr)) (st.1.set j 0, st.2.set j 0)
    (fun k => by simp [Buf.get_set])
    (fun m _ t ht k => by
      simp only [Buf.get_set, (ht j).1, (ht j).2, (ht k).1, (ht k).2, if_true,
        Finset.sum_range_succ, Nat.zero_mul, Nat.add_zero]
      split_ifs <;> exact ⟨rfl, rfl⟩)
  intro k
  have h1 := (hin k).1
  have h2 := (hin k).2
  simp only at h1 h2 ⊢
  rw [h1, h2, (hst k).1, (hst k).2]
  unfold sqdist
  by_cases hk : k = j
  · subst hk
    simp only [if_true, Nat.lt_succ_self, and_self]
  · have e1 : (k < j + 1) = (k < j) := by
      apply propext
      omega
    simp only [if_neg hk, e1, and_self]

/-- The knot parameters of the real-coordinate branch. -/
theorem real_coord_params_fst (sqrt : K → K) (natoms n : Nat) (knots : Buf K)
    (pr : List K) (r rr : Buf K) :
    (real_coord_params sqrt natoms n knots pr r rr).1
      = pr ++ (List.range n).map (fun k =>
          (1 / 2) * (fwd_estimate sqrt natoms n knots k + 1
            - bwd_estimate sqrt natoms n knots k)) := by
  unfold real_coord_params
  have hacc := real_coord_acc natoms n knots r rr
  generalize (forLoop n (fun knot (st : Buf K × Buf K) =>
        let r := st.1.set knot 0
        let rr := st.2.set knot 0
        forLoop (3 * natoms) (fun i (st : Buf K × Buf K) =>
          let dx := knots.get (i + knot * 3 * natoms) - knots.get i
          let r := st.1.set knot (st.1.get knot + dx * dx)
          let dx := knots.get (i + knot * 3 * natoms) - knots.get (i + (n - 1) * 3 * natoms)
          let rr := st.2.set knot (st.2.get knot + dx * dx)
          (r, rr)) (r, rr)) (r, rr)) = acc at hacc ⊢
  simp only
  have hr : ∀ k, k < n →
      ((forLoop (n - 1) (fun knot (r : Buf K) =>
        r.set knot (sqrt (r.get knot / r.get (n - 1)))) acc.1).set (n - 1) 1).get k
        = fwd_estimate sqrt natoms n knots k := by
    intro k hk
    rw [Buf.get_set, forLoop_get (n - 1) _ acc.1
      (fun j k => if k < j then sqrt (acc.1.get k / acc.1.get (n - 1)) else acc.1.get k)]
    · unfold fwd_estimate
      by_cases h1 : k = n - 1
      · rw [if_pos h1, if_pos h1]
      · rw [if_neg h1, if_neg h1, if_pos (by omega), (hacc k).1, (hacc (n - 1)).1,
          if_pos hk, if_pos (by omega)]
    · intro k; rw [if_neg (by omega)]
    · intro j hj b hb k
      simp only [Buf.get_set, hb]
      split_ifs <;> first | rfl | omega | (subst_vars; rfl)
  have hrr : ∀ k, k < n →
      ((forFrom 1 n (fun knot (rr : Buf K) =>
        rr.set knot (sqrt (rr.get knot / rr.get 0))) acc.2).set 0 1).get k
        = bwd_estimate sqrt natoms n knots k := by
    intro k hk
    unfold forFrom
    rw [Buf.get_set, forLoop_get (n - 1) _ acc.2
      (fun j k => if 1 ≤ k ∧ k < 1 + j then sqrt (acc.2.get k / acc.2.get 0)
        else acc.2.get k)]
    · unfold bwd_estimate
      by_cases h1 : k = 0
      · rw [if_pos h1, if_pos h1]
      · rw [if_neg h1, if_neg h1, if_pos (by omega), (hacc k).2, (hacc 0).2,
          if_pos hk, if_pos (by omega)]
    · intro k; rw [if_neg (by omega)]
    · intro j hj b hb k
      simp only [Buf.get_set, hb]
      split_ifs <;> first | rfl | omega | (subst_vars; rfl)
  generalize ((forLoop (n - 1) (fun knot (r : Buf K) =>
        r.set knot (sqrt (r.get knot / r.get (n - 1)))) acc.1).set (n - 1) 1) = rfin at hr ⊢
  generalize ((forFrom 1 n (fun knot (rr : Buf K) =>
        rr.set knot (sqrt (rr.get knot / rr.get 0))) acc.2).set 0 1) = rrfin at hrr ⊢
  have hfin := forLoop_inv (fun j (st : List K × Buf K) =>
      st.1 = pr ++ (List.range j).map (fun k =>
          (1 / 2) * (fwd_estimate sqrt natoms n knots k + 1
            - bwd_estimate sqrt natoms n knots k)) ∧
      ∀ k, j ≤ k → st.2.get k = rfin.get k) n
    (fun knot (st : List K × Buf K) =>
      (st.1 ++ [(1 / 2) * (st.2.get knot + 1 - rrfin.get knot)],
       st.2.set knot ((1 / 2) * (st.2.get knot + 1 - rrfin.get knot)))) (pr, rfin)
    ⟨by simp, fun _ _ => rfl⟩
    (by
      intro j hj st hst
      refine ⟨?_, ?_⟩
      · simp only [hst.1, hst.2 j (le_refl j), hr j hj, hrr j hj, List.range_succ,
          List.map_append, List.map_cons, List.map_nil, List.append_assoc]
      · intro k hk
        simp only [Buf.get_set]
        rw [if_neg (by omega), hst.2 k (by omega)])
  exact hfin.1

omit [LinearOrderedField K] in
theorem Buf.get_write (a : Buf K) (l : List K) (i : Nat) :
    (a.write l).get i = l.getD i (a.get i) := rfl

theorem load_config_get (E : Engine K) (knot_list : List String) (k i : Nat) (x : Buf K)
    (hi : i < (E.read_data (knot_list.getD k "")).length) :
    (load_config E (knot_list.getD k "") x).get i = knot_coord E knot_list k i := by
  unfold load_config knot_coord
  rw [Buf.get_write, List.getD_eq_getElem _ _ hi, List.getD_eq_getElem _ _ hi]

/-- The array `knots` built by `make_path`, in terms of the contents `X k` of `x` right
after the `load_config` call for knot `k`: row 0 is `X 0`, and row `k >= 1` is `X 0` plus
the wrapped difference `X k - X 0`. -/
theorem unwrap_knots_trace (E : Engine K) (s : GenericSimulator K) (knot_list : List String)
    (hK : knot_list ≠ []) :
    ∃ X : Nat → Buf K,
      X 0 = load_config E (knot_list.getD 0 "") s.x ∧
      (∀ k, 1 ≤ k → k < knot_list.length →
        ∃ xprev, X k = load_config E (knot_list.getD k "") xprev) ∧
      (∀ i, i < s.nlocal → (unwrap_knots E s knot_list).2.get i = (X 0).get i) ∧
      (∀ k, 1 ≤ k → k < knot_list.length → ∀ i, i < s.nlocal →
        (unwrap_knots E s knot_list).2.get (i + k * s.nlocal)
          = (X 0).get i + (wrapped_diff E s.nlocal (X k) (X 0)).getD i 0) := by
  have hlen : 0 < knot_list.length := List.length_pos.mpr hK
  unfold unwrap_knots
  simp only [GenericSimulator.offset, Nat.add_zero]
  generalize s.nlocal = n
  generalize hX0 : load_config E (knot_list.getD 0 "") s.x = X0
  have hrow0 : ∀ i, (forLoop n (fun i (knots : Buf K) =>
      knots.set i (X0.get i)) ⟨fun _ => 0⟩).get i
      = if i < n then X0.get i else 0 := by
    intro i
    rw [forLoop_get n _ _ (fun j i => if i < j then X0.get i else 0)]
    · intro k; rw [if_neg (by omega)]
    · intro j hj b hb k
      simp only [Buf.get_set, hb]
      split_ifs <;> first | rfl | omega | (subst_vars; rfl)
  have hinv := forLoop_inv (fun j (st : Buf K × Buf K) =>
      ∃ X : Nat → Buf K, X 0 = X0 ∧
        (∀ k, 1 ≤ k → k < 1 + j → ∃ xprev, X k = load_config E (knot_list.getD k "") xprev) ∧
        (∀ i, i < n → st.2.get i = X0.get i) ∧
        (∀ k, 1 ≤ k → k < 1 + j → ∀ i, i < n →
          st.2.get (i + k * n) = X0.get i + (wrapped_diff E n (X k) X0).getD i 0))
    (knot_list.length - 1)
    (fun m (st : Buf K × Buf K) =>
      let x := load_config E (knot_list.getD (1 + m) "") st.1
      let x := forLoop n (fun i x => x.set i (x.get i - st.2.get i)) x
      let x := pbc_wrap E x 0 n
      let knots := forLoop n (fun i knots =>
        knots.set (i + (1 + m) * n) (x.get i + knots.get i)) st.2
      (x, knots))
    (X0, forLoop n (fun i (knots : Buf K) => knots.set i (X0.get i)) ⟨fun _ => 0⟩)
    ⟨fun _ => X0, rfl, fun k h1 h2 => by omega, fun i hi => by rw [hrow0, if_pos hi],
      fun k h1 h2 => by omega⟩
    (by
      intro j hj st hst
      obtain ⟨X, hX0', hXk, hst0, hstk⟩ := hst
      generalize hXj : load_config E (knot_list.getD (1 + j) "") st.1 = Xj
      have hx2 : ∀ i, (forLoop n (fun i (x : Buf K) => x.set i (x.get i - st.2.get i))
          Xj).get i = if i < n then Xj.get i - X0.get i else Xj.get i := by
        intro i
        rw [forLoop_get n _ _ (fun m i => if i < m then Xj.get i - X0.get i else Xj.get i)]
        · intro k; rw [if_neg (by omega)]
        · intro m hm b hb k
          simp only [Buf.get_set, hb]
          split_ifs <;> first | rfl | omega | (subst_vars; rw [hst0 _ hm])
      have hx3 : ∀ i, i < n → (pbc_wrap E (forLoop n (fun i (x : Buf K) =>
          x.set i (x.get i - st.2.get i)) Xj) 0 n).get i
          = (wrapped_diff E n Xj X0).getD i 0 := by
        intro i hi
        unfold pbc_wrap wrapped_diff
        simp only [Nat.add_zero, Nat.zero_add, Nat.sub_zero, Nat.zero_le, true_and]
        rw [if_pos hi]
        have hl : (List.range n).map (fun i => (forLoop n (fun i (x : Buf K) =>
            x.set i (x.get i - st.2.get i)) Xj).get i)
            = (List.range n).map (fun i => Xj.get i - X0.get i) := by
          apply List.map_congr_left
          intro a ha
          rw [List.mem_range] at ha
          rw [hx2, if_pos ha]
        rw [hl]
        have hwl : i < (E.wrap ((List.range n).map (fun i => Xj.get i - X0.get i))).length := by
          rw [E.wrap_length, List.length_map, List.length_range]
          exact hi
        rw [List.getD_eq_getElem _ _ hwl, List.getD_eq_getElem _ _ hwl]
      dsimp only
      rw [hXj]
      generalize (pbc_wrap E (forLoop n (fun i (x : Buf K) =>
          x.set i (x.get i - st.2.get i)) Xj) 0 n) = x3 at hx3 ⊢
      have hmul : n ≤ (1 + j) * n := Nat.le_mul_of_pos_left n (by omega)
      have hkn : ∀ m, (forLoop n (fun i (knots : Buf K) =>
          knots.set (i + (1 + j) * n) (x3.get i + knots.get i)) st.2).get m
          = if (1 + j) * n ≤ m ∧ m < (1 + j) * n + n then
              x3.get (m - (1 + j) * n) + st.2.get (m - (1 + j) * n)
            else st.2.get m := by
        intro m
        rw [forLoop_get n _ _ (fun c m =>
          if (1 + j) * n ≤ m ∧ m < (1 + j) * n + c then
              x3.get (m - (1 + j) * n) + st.2.get (m - (1 + j) * n)
            else st.2.get m)]
        · intro k; rw [if_neg (by omega)]
        · intro c hc b hb k
          simp only [Buf.get_set, hb]
          have e1 : c + (1 + j) * n - (1 + j) * n = c := by omega
          split_ifs <;> first | rfl | omega | (subst_vars; simp only [e1])
      refine ⟨Function.update X (1 + j) Xj, ?_, ?_, ?_, ?_⟩
      · rw [Function.update_noteq (by omega)]
        exact hX0'
      · intro k h1 h2
        by_cases hkj : k = 1 + j
        · subst hkj
          rw [Function.update_same]
          exact ⟨st.1, hXj.symm⟩
        · rw [Function.update_noteq hkj]
          exact hXk k h1 (by omega)
      · intro i hi
        rw [hkn, if_neg (by omega), hst0 i hi]
      · intro k h1 h2 i hi
        rw [hkn]
        by_cases hkj : k = 1 + j
        · subst hkj
          rw [if_pos (by omega), Function.update_same]
          have e1 : i + (1 + j) * n - (1 + j) * n = i := by omega
          rw [e1, hx3 i hi, hst0 i hi, add_comm]
        · have h3 : (k + 1) * n ≤ (1 + j) * n := Nat.mul_le_mul_right n (by omega)
          rw [Nat.add_mul, Nat.one_mul] at h3
          rw [if_neg (by omega), Function.update_noteq hkj]
          exact hstk k h1 (by omega) i hi)
  unfold forFrom
  obtain ⟨X, hX0', hXk, hst0, hstk⟩ := hinv
  refine ⟨X, hX0', fun k h1 h2 => hXk k h1 (by omega), ?_, ?_⟩
  · intro i hi
    rw [hX0']
    exact hst0 i hi
  · intro k h1 h2 i hi
    rw [hX0']
    exact hstk k h1 (by omega) i hi

/-- The array `knots` built by `make_path`, when every knot file holds at least the
`nlocal` coordinates read: row 0 is the first loaded configuration, row `k >= 1` is row 0
plus the wrapped displacement of knot `k` from knot 0. -/
theorem unwrap_knots_get (E : Engine K) (s : GenericSimulator K) (knot_list : List String)
    (hatoms : ∀ k, k < knot_list.length →
      s.nlocal ≤ (E.read_data (knot_list.getD k "")).length)
    (hK : knot_list ≠ []) :
    (∀ i, i < s.nlocal → (unwrap_knots E s knot_list).2.get i = knot_coord E knot_list 0 i) ∧
    (∀ k, 1 ≤ k → k < knot_list.length → ∀ i, i < s.nlocal →
      (unwrap_knots E s knot_list).2.get (i + k * s.nlocal)
        = knot_coord E knot_list 0 i
          + (E.wrap ((List.range s.nlocal).map
              (fun j => knot_coord E knot_list k j - knot_coord E knot_list 0 j))).getD i 0) := by
  have hlen : 0 < knot_list.length := List.length_pos.mpr hK
  obtain ⟨X, hX0, hXk, h0, hk⟩ := unwrap_knots_trace E s knot_list hK
  have hc0 : ∀ i, i < s.nlocal → (X 0).get i = knot_coord E knot_list 0 i := by
    intro i hi
    rw [hX0]
    exact load_config_get E knot_list 0 i _ (by have := hatoms 0 hlen; omega)
  refine ⟨fun i hi => by rw [h0 i hi, hc0 i hi], ?_⟩
  intro k h1 h2 i hi
  obtain ⟨xp, hxp⟩ := hXk k h1 h2
  have hck : ∀ j, j < s.nlocal → (X k).get j = knot_coord E knot_list k j := by
    intro j hj
    rw [hxp]
    exact load_config_get E knot_list k j _ (by have := hatoms k h2; omega)
  rw [hk k h1 h2 i hi, hc0 i hi]
  unfold wrapped_diff
  congr 3
  apply List.map_congr_left
  intro j hj
  rw [List.mem_range] at hj
  rw [hck j hj, hc0 j hj]

/-- C4 (as amended): in uniform-spacing mode, on a simulator with `nlocal != 0`, for every
list of `K >= 2` knots `make_path` returns with `pathway_r` of length `K`, entry `k` equal
to `k/(K-1)`, strictly increasing, first entry 0 and last entry 1. -/
theorem make_path_uniform (E : Engine K) (sqrt : K → K) (s : GenericSimulator K)
    (knot_list : List String) (hn : s.natoms ≠ 0) (hK : 2 ≤ knot_list.length) :
    ∃ s2, make_path E sqrt s knot_list false = some s2 ∧
      s2.pathway_r.length = knot_list.length ∧
      (∀ k, k < knot_list.length →
        s2.pathway_r[k]? = some ((k : K) / ((knot_list.length : K) - 1))) ∧
      List.Pairwise (fun a b => a < b) s2.pathway_r ∧
      s2.pathway_r.head? = some 0 ∧ s2.pathway_r.getLast? = some 1 := by
  have hne : knot_list ≠ [] := by
    intro h
    rw [h] at hK
    simp at hK
  obtain ⟨s2, h1, h2⟩ := make_path_uniform_pathway_r E sqrt s knot_list hn hne
  have hcast : (((knot_list.length : Int) - 1 : Int) : K) = (knot_list.length : K) - 1 := by
    push_cast
    rfl
  have hpos : (0 : K) < (knot_list.length : K) - 1 := by
    have : (2 : K) ≤ (knot_list.length : K) := by exact_mod_cast hK
    linarith
  rw [hcast] at h2
  have hget : ∀ k, k < knot_list.length →
      s2.pathway_r[k]? = some ((k : K) / ((knot_list.length : K) - 1)) := by
    intro k hk
    rw [h2, List.getElem?_map, List.getElem?_range hk]
    rfl
  have hlen : s2.pathway_r.length = knot_list.length := by
    rw [h2, List.length_map, List.length_range]
  refine ⟨s2, h1, hlen, hget, ?_, ?_, ?_⟩
  · rw [h2, List.pairwise_map]
    refine (List.pairwise_lt_range knot_list.length).imp ?_
    intro a b hab
    exact div_lt_div_of_pos_right (by exact_mod_cast hab) hpos
  · rw [List.head?_eq_getElem?, hget 0 (by omega)]
    simp
  · rw [List.getLast?_eq_getElem?, hlen, hget _ (by omega)]
    congr 1
    have : ((knot_list.length - 1 : Nat) : K) = (knot_list.length : K) - 1 := by
      rw [Nat.cast_sub (by omega)]
      simp
    rw [this]
    exact div_self (ne_of_gt hpos)

/-- Witness for C4 (as amended): three knots on the one-atom simulator. -/
theorem make_path_uniform_witness :
    (simEx ℚ).natoms ≠ 0 ∧ 2 ≤ ["knot0", "knot1", "knot2"].length ∧
    ∃ s2, make_path (engineEx ℚ) Rat.sqrt (simEx ℚ) ["knot0", "knot1", "knot2"] false = some s2 ∧
      s2.pathway_r.length = ["knot0", "knot1", "knot2"].length ∧
      (∀ k, k < ["knot0", "knot1", "knot2"].length →
        s2.pathway_r[k]? = some ((k : ℚ) / ((["knot0", "knot1", "knot2"].length : ℚ) - 1))) ∧
      List.Pairwise (fun a b => a < b) s2.pathway_r ∧
      s2.pathway_r.head? = some 0 ∧ s2.pathway_r.getLast? = some 1 :=
  ⟨by decide, by decide,
    make_path_uniform (engineEx ℚ) Rat.sqrt (simEx ℚ) ["knot0", "knot1", "knot2"] (by decide)
      (by decide)⟩

/-- C4 (as stated) fails at `nlocal = 0`: on the simulator as the constructor leaves it,
`make_path` on three knots in uniform mode returns with `pathway_r` empty, not of
length 3. -/
theorem make_path_uniform_uninitialised :
    2 ≤ ["knot0", "knot1", "knot2"].length ∧
    ∃ s2, make_path (engineEx ℚ) Rat.sqrt (simUninit ℚ) ["knot0", "knot1", "knot2"] false = some s2 ∧
      s2.pathway_r = [] ∧ s2.pathway_r.length ≠ ["knot0", "knot1", "knot2"].length := by
  refine ⟨by decide, ?_⟩
  obtain ⟨s2, h1, h2, _⟩ := make_path_uninitialised (engineEx ℚ) Rat.sqrt (simUninit ℚ)
    ["knot0", "knot1", "knot2"] false rfl
  exact ⟨s2, h1, h2, by rw [h2]; decide⟩

/-- The channels `make_path` leaves on an initialised simulator and a non-empty knot list:
channel `i < nlocal` holds the `set_points` arguments `r`, `xs` (one entry per knot, entry
`k` being `knots[nlocal*k + i]`) and `parser->spline_path`. -/
theorem make_path_pathway (E : Engine K) (sqrt : K → K) (s : GenericSimulator K)
    (knot_list : List String) (real_coord : Bool) (hn : s.natoms ≠ 0)
    (hK : knot_list ≠ []) :
    ∃ s2, make_path E sqrt s knot_list real_coord = some s2 ∧
      s2.pathway.length = s.nlocal ∧
      ∀ i, i < s.nlocal → ∃ rs,
        rs.length = knot_list.length ∧
        s2.pathway[i]? = some ⟨some (rs,
          (List.range knot_list.length).map
            (fun k => (unwrap_knots E s knot_list).2.get (s.nlocal * k + i)),
          s.spline_path)⟩ := by
  refine ⟨_, make_path_eq E sqrt s knot_list real_coord hn hK, ?_, ?_⟩
  · simp only [fit_channels_snd, List.length_map, List.length_range]
  · intro i hi
    simp only [fit_channels_snd, List.getElem?_map, List.getElem?_range hi, Option.map_some']
    exact ⟨_, by simp [Buf.toList], rfl⟩

/-- C7: knot alignment in `make_path` is relative to the first knot. Write `X k` for the
contents of `x` right after `load_config` has loaded knot `k`. For a non-empty knot list
and any wrap function, the control points stored for coordinate `i` are `X 0 [i]` at knot 0
and `X 0 [i] + wrap(X k - X 0)[i]` at every knot `k >= 1`; when the wrap is the identity
every control point is the loaded coordinate `X k [i]`. -/
theorem make_path_control_points (E : Engine K) (sqrt : K → K) (s : GenericSimulator K)
    (knot_list : List String) (real_coord : Bool) (hK : knot_list ≠ []) :
    ∃ s2, make_path E sqrt s knot_list real_coord = some s2 ∧
      ∃ X : Nat → Buf K,
        X 0 = load_config E (knot_list.getD 0 "") s.x ∧
        (∀ k, 1 ≤ k → k < knot_list.length →
          ∃ xprev, X k = load_config E (knot_list.getD k "") xprev) ∧
        ∀ i, i < s.nlocal → ∃ rs ys,
          s2.pathway[i]? = some ⟨some (rs, ys, s.spline_path)⟩ ∧
          ys.length = knot_list.length ∧
          ys[0]? = some ((X 0).get i) ∧
          (∀ k, 1 ≤ k → k < knot_list.length →
            ys[k]? = some ((X 0).get i + (wrapped_diff E s.nlocal (X k) (X 0)).getD i 0)) ∧
          ((∀ l, E.wrap l = l) → ∀ k, k < knot_list.length →
            ys[k]? = some ((X k).get i)) := by
  have hlen : 0 < knot_list.length := List.length_pos.mpr hK
  obtain ⟨X, hX0, hXk, hrow0, hrows⟩ := unwrap_knots_trace E s knot_list hK
  by_cases hn : s.natoms = 0
  · obtain ⟨s2, h1, _, _⟩ := make_path_uninitialised E sqrt s knot_list real_coord hn
    refine ⟨s2, h1, X, hX0, hXk, fun i hi => ?_⟩
    have : s.nlocal = 0 := by
      show 3 * s.natoms = 0
      omega
    omega
  · obtain ⟨s2, h1, _, h3⟩ := make_path_pathway E sqrt s knot_list real_coord hn hK
    refine ⟨s2, h1, X, hX0, hXk, fun i hi => ?_⟩
    obtain ⟨rs, _, hp⟩ := h3 i hi
    have hy0 : ((List.range knot_list.length).map
        (fun k => (unwrap_knots E s knot_list).2.get (s.nlocal * k + i)))[0]?
        = some ((X 0).get i) := by
      rw [List.getElem?_map, List.getElem?_range hlen]
      simp only [Option.map_some', Nat.mul_zero, Nat.zero_add]
      rw [hrow0 i hi]
    have hyk : ∀ k, 1 ≤ k → k < knot_list.length →
        ((List.range knot_list.length).map
          (fun k => (unwrap_knots E s knot_list).2.get (s.nlocal * k + i)))[k]?
          = some ((X 0).get i + (wrapped_diff E s.nlocal (X k) (X 0)).getD i 0) := by
      intro k h1 h2
      rw [List.getElem?_map, List.getElem?_range h2]
      simp only [Option.map_some']
      rw [Nat.mul_comm, Nat.add_comm, hrows k h1 h2 i hi]
    refine ⟨rs, _, hp, by simp, hy0, hyk, ?_⟩
    intro hid k hk
    by_cases hk0 : k = 0
    · rw [hk0]
      exact hy0
    · rw [hyk k (by omega) hk]
      unfold wrapped_diff
      rw [hid, List.getD_eq_getElem?_getD, List.getElem?_map, List.getElem?_range hi]
      simp

/-- Witness for C7: two knots on the one-atom simulator. -/
theorem make_path_control_points_witness :
    ["knot0", "knot1"] ≠ [] ∧
    ∃ s2, make_path (engineEx ℚ) Rat.sqrt (simEx ℚ) ["knot0", "knot1"] true = some s2 ∧
      ∃ X : Nat → Buf ℚ,
        X 0 = load_config (engineEx ℚ) (["knot0", "knot1"].getD 0 "") (simEx ℚ).x ∧
        (∀ k, 1 ≤ k → k < ["knot0", "knot1"].length →
          ∃ xprev, X k = load_config (engineEx ℚ) (["knot0", "knot1"].getD k "") xprev) ∧
        ∀ i, i < (simEx ℚ).nlocal → ∃ rs ys,
          s2.pathway[i]? = some ⟨some (rs, ys, (simEx ℚ).spline_path)⟩ ∧
          ys.length = ["knot0", "knot1"].length ∧
          ys[0]? = some ((X 0).get i) ∧
          (∀ k, 1 ≤ k → k < ["knot0", "knot1"].length →
            ys[k]? = some ((X 0).get i
              + (wrapped_diff (engineEx ℚ) (simEx ℚ).nlocal (X k) (X 0)).getD i 0)) ∧
          ((∀ l, (engineEx ℚ).wrap l = l) → ∀ k, k < ["knot0", "knot1"].length →
            ys[k]? = some ((X k).get i)) :=
  ⟨by decide,
    make_path_control_points (engineEx ℚ) Rat.sqrt (simEx ℚ) ["knot0", "knot1"] true
      (by decide)⟩

/-- What `make_path` does with a one-knot list on an initialised simulator. -/
theorem make_path_single (E : Engine K) (sqrt : K → K) (s : GenericSimulator K)
    (f : String) (real_coord : Bool) (hn : s.natoms ≠ 0) :
    ∃ s2, make_path E sqrt s [f] real_coord = some s2 ∧
      s2.pathway_r.length = 1 ∧ (real_coord = true → s2.pathway_r = [1 / 2]) ∧
      s2.pathway.length = s.nlocal ∧
      ∀ i, i < s.nlocal → ∃ rs ys,
        s2.pathway[i]? = some ⟨some (rs, ys, s.spline_path)⟩ ∧
        rs.length = 1 ∧ ys.length = 1 := by
  have hK : [f] ≠ [] := by simp
  obtain ⟨s2, h1, h2, h3⟩ := make_path_pathway E sqrt s [f] real_coord hn hK
  have h4 := make_path_eq E sqrt s [f] real_coord hn hK
  rw [h1] at h4
  have h5 : s2.pathway_r = (if real_coord then
          real_coord_params sqrt s.natoms [f].length (unwrap_knots E s [f]).2
            [] ⟨fun _ => 0⟩ ⟨fun _ => 0⟩
        else uniform_params [f].length [] ⟨fun _ => 0⟩).1 := by
    rw [Option.some.injEq] at h4
    rw [h4]
  refine ⟨s2, h1, ?_, ?_, h2, ?_⟩
  · rw [h5]
    cases real_coord
    · simp only [Bool.false_eq_true, if_false, uniform_params_fst]
      simp
    · simp only [if_true, real_coord_params_fst]
      simp
  · intro hrc
    rw [h5, hrc]
    simp only [if_true, real_coord_params_fst]
    simp [fwd_estimate, bwd_estimate]
  · intro i hi
    obtain ⟨rs, hrs, hp⟩ := h3 i hi
    exact ⟨rs, _, hp, hrs, by simp⟩

/-- C8 (as amended): `make_path` has no check on the number of knots; it rejects only
through the guard `nlocal == 0`. For a one-knot list it returns normally: with
`nlocal = 0` `pathway` and `pathway_r` stay empty, and with `nlocal != 0` every one of the
`nlocal` channels gets `set_points` with one control point and `pathway_r` gets one entry
(0.5 in real-coordinate mode). With `nlocal = 0` the empty list is handled the same way. -/
theorem make_path_short_list (E : Engine K) (sqrt : K → K) (s : GenericSimulator K)
    (f : String) (real_coord : Bool) :
    (∃ s2, make_path E sqrt s [f] real_coord = some s2 ∧
      (s.natoms = 0 → s2.pathway_r = [] ∧ s2.pathway = []) ∧
      (s.natoms ≠ 0 →
        s2.pathway_r.length = 1 ∧ (real_coord = true → s2.pathway_r = [1 / 2]) ∧
        s2.pathway.length = s.nlocal ∧
        ∀ i, i < s.nlocal → ∃ rs ys,
          s2.pathway[i]? = some ⟨some (rs, ys, s.spline_path)⟩ ∧
          rs.length = 1 ∧ ys.length = 1)) ∧
    (s.natoms = 0 → ∃ s2, make_path E sqrt s [] real_coord = some s2 ∧
      s2.pathway_r = [] ∧ s2.pathway = []) := by
  refine ⟨?_, fun hn => make_path_uninitialised E sqrt s [] real_coord hn⟩
  by_cases hn : s.natoms = 0
  · obtain ⟨s2, h1, h2, h3⟩ := make_path_uninitialised E sqrt s [f] real_coord hn
    exact ⟨s2, h1, fun _ => ⟨h2, h3⟩, fun h => absurd hn h⟩
  · obtain ⟨s2, h1, h2⟩ := make_path_single E sqrt s f real_coord hn
    exact ⟨s2, h1, fun h => absurd h hn, fun _ => h2⟩

/-- C8 (as stated) fails: on a one-atom simulator a one-knot list is not rejected; in
real-coordinate mode `make_path` returns with `pathway_r = [1/2]` and three fitted
channels. -/
theorem make_path_single_knot_accepted :
    ["knot1"].length < 2 ∧
    ∃ s2, make_path (engineEx ℚ) Rat.sqrt (simEx ℚ) ["knot1"] true = some s2 ∧
      s2.pathway_r = [1 / 2] ∧ s2.pathway.length = 3 ∧
      ∀ i, i < 3 → ∃ rs ys, s2.pathway[i]? = some ⟨some (rs, ys, true)⟩ := by
  refine ⟨by decide, ?_⟩
  obtain ⟨s2, h1, _, h3, h4, h5⟩ := make_path_single (engineEx ℚ) Rat.sqrt (simEx ℚ) "knot1" true
    (by decide)
  refine ⟨s2, h1, h3 rfl, h4, fun i hi => ?_⟩
  obtain ⟨rs, ys, hp, _, _⟩ := h5 i hi
  exact ⟨rs, ys, hp⟩

/-- The padded read of the example: the gather buffer keeps the second atom of "knot0"
when the one-atom file "knot1" is loaded, so entry 3 of both rows of `knots` is 1. -/
theorem unwrap_knots_mismatch :
    (unwrap_knots engineMismatch simTwo ["knot0", "knot1"]).2.get (simTwo.nlocal * 0 + 3) = 1 ∧
    (unwrap_knots engineMismatch simTwo ["knot0", "knot1"]).2.get (simTwo.nlocal * 1 + 3) = 1 := by
  constructor <;>
  simp [unwrap_knots, forFrom, forLoop, load_config, pbc_wrap, Buf.write, Buf.set,
    engineMismatch, simTwo, GenericSimulator.nlocal, GenericSimulator.offset,
    Function.update_apply]

/-- C9 (as stated) fails: with a first knot of two atoms and a second knot of one atom,
`make_path` on the two-atom simulator returns normally, all six channels have had
`set_points` called, and channel 3 (x of the second atom) holds the control points 1, 1:
the missing atom of the second knot is read from what the first knot left in the
buffer. -/
theorem make_path_atom_mismatch_accepted :
    (engineMismatch.read_data "knot1").length / 3 ≠ (engineMismatch.read_data "knot0").length / 3 ∧
    ∃ s2, make_path engineMismatch Rat.sqrt simTwo ["knot0", "knot1"] false = some s2 ∧
      s2.pathway.length = 6 ∧
      (∀ i, i < 6 → ∃ rs ys, s2.pathway[i]? = some ⟨some (rs, ys, true)⟩) ∧
      ∃ rs, s2.pathway[3]? = some ⟨some (rs, [1, 1], true)⟩ := by
  refine ⟨by decide, ?_⟩
  obtain ⟨s2, h1, h2, h3⟩ := make_path_pathway engineMismatch Rat.sqrt simTwo
    ["knot0", "knot1"] false (by decide) (by decide)
  refine ⟨s2, h1, h2, fun i hi => ?_, ?_⟩
  · obtain ⟨rs, _, hp⟩ := h3 i hi
    exact ⟨rs, _, hp⟩
  · obtain ⟨rs, _, hp⟩ := h3 3 (by decide)
    refine ⟨rs, ?_⟩
    rw [hp]
    simp only [List.length_cons, List.length_nil, List.range_succ, List.range_zero,
      List.nil_append, List.cons_append, List.map_cons, List.map_nil, Nat.reduceAdd,
      unwrap_knots_mismatch.1, unwrap_knots_mismatch.2]
    rfl

end PathProofs

/-! ### make_path: knot files of different sizes -/

section MismatchProofs

variable {K : Type} [LinearOrderedField K]

/-- The loads of `make_path` and what the buffer holds between them. `B k` is the content
of `x` right before the load of knot `k` and `X k` its content right after: the first load
acts on the `x` of the simulator, the second on what the first left, and every later one on
the wrapped difference that the previous knot left in the leading `nlocal` entries. -/
theorem unwrap_knots_loads (E : Engine K) (s : GenericSimulator K) (knot_list : List String)
    (hK : knot_list ≠ []) :
    ∃ X B : Nat → Buf K,
      B 0 = s.x ∧ B 1 = X 0 ∧
      (∀ k, k < knot_list.length → X k = load_config E (knot_list.getD k "") (B k)) ∧
      (∀ k, 1 ≤ k → k < knot_list.length → ∀ i, i < s.nlocal →
        (B (k + 1)).get i = (wrapped_diff E s.nlocal (X k) (X 0)).getD i 0) ∧
      (∀ i, i < s.nlocal → (unwrap_knots E s knot_list).2.get i = (X 0).get i) ∧
      (∀ k, 1 ≤ k → k < knot_list.length → ∀ i, i < s.nlocal →
        (unwrap_knots E s knot_list).2.get (i + k * s.nlocal)
          = (X 0).get i + (wrapped_diff E s.nlocal (X k) (X 0)).getD i 0) := by
  have hlen : 0 < knot_list.length := List.length_pos.mpr hK
  unfold unwrap_knots
  simp only [GenericSimulator.offset, Nat.add_zero]
  generalize s.nlocal = n
  generalize hX0 : load_config E (knot_list.getD 0 "") s.x = X0
  have hrow0 : ∀ i, (forLoop n (fun i (knots : Buf K) =>
      knots.set i (X0.get i)) ⟨fun _ => 0⟩).get i
      = if i < n then X0.get i else 0 := by
    intro i
    rw [forLoop_get n _ _ (fun j i => if i < j then X0.get i else 0)]
    · intro k; rw [if_neg (by omega)]
    · intro j hj b hb k
      simp only [Buf.get_set, hb]
      split_ifs <;> first | rfl | omega | (subst_vars; rfl)
  have hinv := forLoop_inv (fun j (st : Buf K × Buf K) =>
      ∃ X B : Nat → Buf K, X 0 = X0 ∧ B 0 = s.x ∧ B 1 = X0 ∧ st.1 = B (1 + j) ∧
        (∀ k, 1 ≤ k → k < 1 + j → X k = load_config E (knot_list.getD k "") (B k)) ∧
        (∀ k, 1 ≤ k → k < 1 + j → ∀ i, i < n →
          (B (k + 1)).get i = (wrapped_diff E n (X k) X0).getD i 0) ∧
        (∀ i, i < n → st.2.get i = X0.get i) ∧
        (∀ k, 1 ≤ k → k < 1 + j → ∀ i, i < n →
          st.2.get (i + k * n) = X0.get i + (wrapped_diff E n (X k) X0).getD i 0))
    (knot_list.length - 1)
    (fun m (st : Buf K × Buf K) =>
      let x := load_config E (knot_list.getD (1 + m) "") st.1
      let x := forLoop n (fun i x => x.set i (x.get i - st.2.get i)) x
      let x := pbc_wrap E x 0 n
      let knots := forLoop n (fun i knots =>
        knots.set (i + (1 + m) * n) (x.get i + knots.get i)) st.2
      (x, knots))
    (X0, forLoop n (fun i (knots : Buf K) => knots.set i (X0.get i)) ⟨fun _ => 0⟩)
    ⟨fun _ => X0, fun k => if k = 0 then s.x else X0, rfl, by simp, by simp, by simp,
      fun k h1 h2 => by omega, fun k h1 h2 => by omega,
      fun i hi => by rw [hrow0, if_pos hi], fun k h1 h2 => by omega⟩
    (by
      intro j hj st hst
      obtain ⟨X, B, hX0', hB0, hB1, hst1, hXk, hBk, hst0, hstk⟩ := hst
      generalize hXj : load_config E (knot_list.getD (1 + j) "") st.1 = Xj
      have hx2 : ∀ i, (forLoop n (fun i (x : Buf K) => x.set i (x.get i - st.2.get i))
          Xj).get i = if i < n then Xj.get i - X0.get i else Xj.get i := by
        intro i
        rw [forLoop_get n _ _ (fun m i => if i < m then Xj.get i - X0.get i else Xj.get i)]
        · intro k; rw [if_neg (by omega)]
        · intro m hm b hb k
          simp only [Buf.get_set, hb]
          split_ifs <;> first | rfl | omega | (subst_vars; rw [hst0 _ hm])
      have hx3 : ∀ i, i < n → (pbc_wrap E (forLoop n (fun i (x : Buf K) =>
          x.set i (x.get i - st.2.get i)) Xj) 0 n).get i
          = (wrapped_diff E n Xj X0).getD i 0 := by
        intro i hi
        unfold pbc_wrap wrapped_diff
        simp only [Nat.add_zero, Nat.zero_add, Nat.sub_zero, Nat.zero_le, true_and]
        rw [if_pos hi]
        have hl : (List.range n).map (fun i => (forLoop n (fun i (x : Buf K) =>
            x.set i (x.get i - st.2.get i)) Xj).get i)
            = (List.range n).map (fun i => Xj.get i - X0.get i) := by
          apply List.map_congr_left
          intro a ha
          rw [List.mem_range] at ha
          rw [hx2, if_pos ha]
        rw [hl]
        have hwl : i < (E.wrap ((List.range n).map (fun i => Xj.get i - X0.get i))).length := by
          rw [E.wrap_length, List.length_map, List.length_range]
          exact hi
        rw [List.getD_eq_getElem _ _ hwl, List.getD_eq_getElem _ _ hwl]
      dsimp only
      rw [hXj]
      generalize (pbc_wrap E (forLoop n (fun i (x : Buf K) =>
          x.set i (x.get i - st.2.get i)) Xj) 0 n) = x3 at hx3 ⊢
      have hmul : n ≤ (1 + j) * n := Nat.le_mul_of_pos_left n (by omega)
      have hkn : ∀ m, (forLoop n (fun i (knots : Buf K) =>
          knots.set (i + (1 + j) * n) (x3.get i + knots.get i)) st.2).get m
          = if (1 + j) * n ≤ m ∧ m < (1 + j) * n + n then
              x3.get (m - (1 + j) * n) + st.2.get (m - (1 + j) * n)
            else st.2.get m := by
        intro m
        rw [forLoop_get n _ _ (fun c m =>
          if (1 + j) * n ≤ m ∧ m < (1 + j) * n + c then
              x3.get (m - (1 + j) * n) + st.2.get (m - (1 + j) * n)
            else st.2.get m)]
        · intro k; rw [if_neg (by omega)]
        · intro c hc b hb k
          simp only [Buf.get_set, hb]
          have e1 : c + (1 + j) * n - (1 + j) * n = c := by omega
          split_ifs <;> first | rfl | omega | (subst_vars; simp only [e1])
      refine ⟨Function.update X (1 + j) Xj, Function.update B (1 + (j + 1)) x3,
        ?_, ?_, ?_, ?_, ?_, ?_, ?_, ?_⟩
      · rw [Function.update_noteq (by omega)]
        exact hX0'
      · rw [Function.update_noteq (by omega)]
        exact hB0
      · rw [Function.update_noteq (by omega)]
        exact hB1
      · rw [Function.update_same]
      · intro k h1 h2
        rw [Function.update_noteq (show k ≠ 1 + (j + 1) by omega)]
        by_cases hkj : k = 1 + j
        · subst hkj
          rw [Function.update_same, ← hst1]
          exact hXj.symm
        · rw [Function.update_noteq hkj]
          exact hXk k h1 (by omega)
      · intro k h1 h2 i hi
        by_cases hkj : k = 1 + j
        · subst hkj
          rw [Function.update_same, show 1 + j + 1 = 1 + (j + 1) by omega,
            Function.update_same]
          exact hx3 i hi
        · rw [Function.update_noteq (show k + 1 ≠ 1 + (j + 1) by omega),
            Function.update_noteq hkj]
          exact hBk k h1 (by omega) i hi
      · intro i hi
        rw [hkn, if_neg (by omega), hst0 i hi]
      · intro k h1 h2 i hi
        rw [hkn]
        by_cases hkj : k = 1 + j
        · subst hkj
          rw [if_pos (by omega), Function.update_same]
          have e1 : i + (1 + j) * n - (1 + j) * n = i := by omega
          rw [e1, hx3 i hi, hst0 i hi, add_comm]
        · have h3 : (k + 1) * n ≤ (1 + j) * n := Nat.mul_le_mul_right n (by omega)
          rw [Nat.add_mul, Nat.one_mul] at h3
          rw [if_neg (by omega), Function.update_noteq hkj]
          exact hstk k h1 (by omega) i hi)
  unfold forFrom
  obtain ⟨X, B, hX0', hB0, hB1, _, hXk, hBk, hst0, hstk⟩ := hinv
  refine ⟨X, B, hB0, by rw [hB1, hX0'], ?_, ?_, ?_, ?_⟩
  · intro k hk
    by_cases hk0 : k = 0
    · subst hk0
      rw [hX0', hB0, hX0]
    · exact hXk k (by omega) (by omega)
  · intro k h1 h2 i hi
    rw [hX0']
    exact hBk k h1 (by omega) i hi
  · intro i hi
    rw [hX0']
    exact hst0 i hi
  · intro k h1 h2 i hi
    rw [hX0']
    exact hstk k h1 (by omega) i hi

/-- C9 (as amended): `make_path` makes no atom-count check. On a simulator with
`nlocal != 0` and a non-empty knot list none of whose files holds more coordinates than
`x` has room for (`3*natoms`), it returns with `set_points` called on every one of the
`nlocal` channels, each with one control point per knot. With `B k` the content of `x`
right before the load of knot `k` and `X k` its content right after: the entries of `X k`
inside the file are the file's, the entries beyond the end of a shorter file are those of
`B k` (what the first knot left, for the second knot; the wrapped difference of the
previous knot, for a later one), no load writes beyond the `3*natoms` entries of `x`, and
both kinds of entry enter the control points alike, `X 0 [i]`
at knot 0 and `X 0 [i] + wrap(X k - X 0)[i]` at knot `k >= 1`. -/
theorem make_path_no_atom_check (E : Engine K) (sqrt : K → K) (s : GenericSimulator K)
    (knot_list : List String) (real_coord : Bool) (hn : s.natoms ≠ 0)
    (hK : knot_list ≠ [])
    (hfit : ∀ k, k < knot_list.length →
      (E.read_data (knot_list.getD k "")).length ≤ 3 * s.natoms) :
    ∃ s2, make_path E sqrt s knot_list real_coord = some s2 ∧
      s2.pathway.length = s.nlocal ∧
      ∃ X B : Nat → Buf K,
        B 0 = s.x ∧ B 1 = X 0 ∧
        (∀ k, 1 ≤ k → k < knot_list.length → ∀ i, i < s.nlocal →
          (B (k + 1)).get i = (wrapped_diff E s.nlocal (X k) (X 0)).getD i 0) ∧
        (∀ k, k < knot_list.length → ∀ i,
          i < (E.read_data (knot_list.getD k "")).length →
          (X k).get i = knot_coord E knot_list k i) ∧
        (∀ k, k < knot_list.length → ∀ i,
          (E.read_data (knot_list.getD k "")).length ≤ i → (X k).get i = (B k).get i) ∧
        (∀ k, k < knot_list.length → ∀ i, 3 * s.natoms ≤ i → (X k).get i = (B k).get i) ∧
        ∀ i, i < s.nlocal → ∃ rs ys,
          s2.pathway[i]? = some ⟨some (rs, ys, s.spline_path)⟩ ∧
          rs.length = knot_list.length ∧
          ys.length = knot_list.length ∧
          ys[0]? = some ((X 0).get i) ∧
          ∀ k, 1 ≤ k → k < knot_list.length →
            ys[k]? = some ((X 0).get i + (wrapped_diff E s.nlocal (X k) (X 0)).getD i 0) := by
  have hlen : 0 < knot_list.length := List.length_pos.mpr hK
  obtain ⟨X, B, hB0, hB1, hX, hB, hrow0, hrows⟩ := unwrap_knots_loads E s knot_list hK
  obtain ⟨s2, h1, h2, h3⟩ := make_path_pathway E sqrt s knot_list real_coord hn hK
  have hstale : ∀ k, k < knot_list.length → ∀ i,
      (E.read_data (knot_list.getD k "")).length ≤ i → (X k).get i = (B k).get i := by
    intro k hk i hi
    rw [hX k hk]
    unfold load_config
    rw [Buf.get_write, List.getD_eq_default _ _ hi]
  refine ⟨s2, h1, h2, X, B, hB0, hB1, hB, ?_, hstale,
    fun k hk i hi => hstale k hk i (le_trans (hfit k hk) hi), ?_⟩
  · intro k hk i hi
    rw [hX k hk]
    exact load_config_get E knot_list k i _ hi
  · intro i hi
    obtain ⟨rs, hrs, hp⟩ := h3 i hi
    refine ⟨rs, _, hp, hrs, by simp, ?_, ?_⟩
    · rw [List.getElem?_map, List.getElem?_range hlen]
      simp only [Option.map_some', Nat.mul_zero, Nat.zero_add]
      rw [hrow0 i hi]
    · intro k hk1 hk2
      rw [List.getElem?_map, List.getElem?_range hk2]
      simp only [Option.map_some']
      rw [Nat.mul_comm, Nat.add_comm, hrows k hk1 hk2 i hi]

/-- Witness for C9 (as amended): a two-atom knot followed by a one-atom knot, on the
two-atom simulator. -/
theorem make_path_no_atom_check_witness :
    simTwo.natoms ≠ 0 ∧ ["knot0", "knot1"] ≠ [] ∧
    (∀ k, k < ["knot0", "knot1"].length →
      (engineMismatch.read_data (["knot0", "knot1"].getD k "")).length ≤ 3 * simTwo.natoms) ∧
    ∃ s2, make_path engineMismatch Rat.sqrt simTwo ["knot0", "knot1"] false = some s2 ∧
      s2.pathway.length = simTwo.nlocal ∧
      ∃ X B : Nat → Buf ℚ,
        B 0 = simTwo.x ∧ B 1 = X 0 ∧
        (∀ k, 1 ≤ k → k < ["knot0", "knot1"].length → ∀ i, i < simTwo.nlocal →
          (B (k + 1)).get i = (wrapped_diff engineMismatch simTwo.nlocal (X k) (X 0)).getD i 0) ∧
        (∀ k, k < ["knot0", "knot1"].length → ∀ i,
          i < (engineMismatch.read_data (["knot0", "knot1"].getD k "")).length →
          (X k).get i = knot_coord engineMismatch ["knot0", "knot1"] k i) ∧
        (∀ k, k < ["knot0", "knot1"].length → ∀ i,
          (engineMismatch.read_data (["knot0", "knot1"].getD k "")).length ≤ i →
          (X k).get i = (B k).get i) ∧
        (∀ k, k < ["knot0", "knot1"].length → ∀ i, 3 * simTwo.natoms ≤ i →
          (X k).get i = (B k).get i) ∧
        ∀ i, i < simTwo.nlocal → ∃ rs ys,
          s2.pathway[i]? = some ⟨some (rs, ys, simTwo.spline_path)⟩ ∧
          rs.length = ["knot0", "knot1"].length ∧
          ys.length = ["knot0", "knot1"].length ∧
          ys[0]? = some ((X 0).get i) ∧
          ∀ k, 1 ≤ k → k < ["knot0", "knot1"].length →
            ys[k]? = some ((X 0).get i
              + (wrapped_diff engineMismatch simTwo.nlocal (X k) (X 0)).getD i 0) :=
  have hfit : ∀ k, k < ["knot0", "knot1"].length →
      (engineMismatch.read_data (["knot0", "knot1"].getD k "")).length ≤ 3 * simTwo.natoms := by
    intro k hk
    have hk2 : k < 2 := hk
    interval_cases k <;> simp [engineMismatch, simTwo]
  ⟨by decide, by decide, hfit,
    make_path_no_atom_check engineMismatch Rat.sqrt simTwo ["knot0", "knot1"] false
      (by decide) (by decide) hfit⟩

end MismatchProofs

section RealCoord

theorem sqdist_nonneg {K : Type} [LinearOrderedField K] (natoms : Nat) (knots : Buf K)
    (a b : Nat) : 0 ≤ sqdist natoms knots a b :=
  Finset.sum_nonneg (fun _ _ => mul_self_nonneg _)

theorem sqdist_comm {K : Type} [LinearOrderedField K] (natoms : Nat) (knots : Buf K)
    (a b : Nat) : sqdist natoms knots a b = sqdist natoms knots b a := by
  unfold sqdist
  exact Finset.sum_congr rfl (fun _ _ => by ring)

theorem sqdist_self {K : Type} [LinearOrderedField K] (natoms : Nat) (knots : Buf K)
    (a : Nat) : sqdist natoms knots a a = 0 := by
  unfold sqdist
  simp

theorem sqdist_pos_of_ne {K : Type} [LinearOrderedField K] (natoms : Nat) (knots : Buf K)
    (a b : Nat)
    (h : ∃ i, i < 3 * natoms ∧
      knots.get (i + a * 3 * natoms) ≠ knots.get (i + b * 3 * natoms)) :
    0 < sqdist natoms knots a b := by
  obtain ⟨i, hi, hne⟩ := h
  unfold sqdist
  refine Finset.sum_pos' (fun _ _ => mul_self_nonneg _) ⟨i, Finset.mem_range.mpr hi, ?_⟩
  exact mul_self_pos.mpr (sub_ne_zero.mpr hne)

theorem knot_dist_self (natoms : Nat) (knots : Buf ℝ) (a : Nat) :
    knot_dist Real.sqrt natoms knots a a = 0 := by
  unfold knot_dist
  rw [sqdist_self, Real.sqrt_zero]

theorem knot_dist_comm (natoms : Nat) (knots : Buf ℝ) (a b : Nat) :
    knot_dist Real.sqrt natoms knots a b = knot_dist Real.sqrt natoms knots b a := by
  unfold knot_dist
  rw [sqdist_comm]

/-- With distinct end knots the forward estimate is the ratio of distances from knot 0. -/
theorem fwd_estimate_real (natoms n : Nat) (knots : Buf ℝ) (k : Nat)
    (hpos : 0 < knot_dist Real.sqrt natoms knots (n - 1) 0) :
    fwd_estimate Real.sqrt natoms n knots k
      = knot_dist Real.sqrt natoms knots k 0 / knot_dist Real.sqrt natoms knots (n - 1) 0 := by
  unfold fwd_estimate
  by_cases h : k = n - 1
  · rw [if_pos h, h, div_self (ne_of_gt hpos)]
  · rw [if_neg h]
    exact Real.sqrt_div (sqdist_nonneg natoms knots k 0) _

/-- With distinct end knots the backward estimate is the ratio of distances from the last
knot. -/
theorem bwd_estimate_real (natoms n : Nat) (knots : Buf ℝ) (k : Nat)
    (hpos : 0 < knot_dist Real.sqrt natoms knots 0 (n - 1)) :
    bwd_estimate Real.sqrt natoms n knots k
      = knot_dist Real.sqrt natoms knots k (n - 1)
        / knot_dist Real.sqrt natoms knots 0 (n - 1) := by
  unfold bwd_estimate
  by_cases h : k = 0
  · rw [if_pos h, h, div_self (ne_of_gt hpos)]
  · rw [if_neg h]
    exact Real.sqrt_div (sqdist_nonneg natoms knots k (n - 1)) _

/-- The knot parameters of real-coordinate mode on an initialised simulator. -/
theorem make_path_real_pathway_r {K : Type} [LinearOrderedField K] (E : Engine K)
    (sqrt : K → K) (s : GenericSimulator K) (knot_list : List String) (hn : s.natoms ≠ 0)
    (hK : knot_list ≠ []) :
    ∃ s2, make_path E sqrt s knot_list true = some s2 ∧
      s2.pathway_r = (List.range knot_list.length).map (fun k =>
        (1 / 2) * (fwd_estimate sqrt s.natoms knot_list.length (unwrap_knots E s knot_list).2 k
          + 1
          - bwd_estimate sqrt s.natoms knot_list.length (unwrap_knots E s knot_list).2 k)) := by
  refine ⟨_, make_path_eq E sqrt s knot_list true hn hK, ?_⟩
  simp only [if_true]
  rw [real_coord_params_fst]
  rfl

/-- C5: in real-coordinate mode, for `K >= 2` knots whose first and last unwrapped
configurations differ, `make_path` gives knot `k` the parameter
`0.5*(d(k,0)/d(K-1,0) + 1 - d(k,K-1)/d(0,K-1))`, `d` the Euclidean distance over the
`3*natoms` unwrapped coordinates; the first knot gets 0 and the last knot 1. -/
theorem make_path_real_coord (E : Engine ℝ) (s : GenericSimulator ℝ)
    (knot_list : List String) (hK : 2 ≤ knot_list.length)
    (hdiff : ∃ i, i < 3 * s.natoms ∧
      (unwrap_knots E s knot_list).2.get i
        ≠ (unwrap_knots E s knot_list).2.get (i + (knot_list.length - 1) * 3 * s.natoms)) :
    ∃ s2, make_path E Real.sqrt s knot_list true = some s2 ∧
      s2.pathway_r.length = knot_list.length ∧
      (∀ k, k < knot_list.length →
        s2.pathway_r[k]? = some ((1 / 2) *
          (knot_dist Real.sqrt s.natoms (unwrap_knots E s knot_list).2 k 0
              / knot_dist Real.sqrt s.natoms (unwrap_knots E s knot_list).2
                  (knot_list.length - 1) 0
            + 1
            - knot_dist Real.sqrt s.natoms (unwrap_knots E s knot_list).2 k
                  (knot_list.length - 1)
              / knot_dist Real.sqrt s.natoms (unwrap_knots E s knot_list).2 0
                  (knot_list.length - 1)))) ∧
      s2.pathway_r.head? = some 0 ∧ s2.pathway_r.getLast? = some 1 := by
  have hne : knot_list ≠ [] := by
    intro h
    rw [h] at hK
    simp at hK
  have hn : s.natoms ≠ 0 := by
    obtain ⟨i, hi, _⟩ := hdiff
    omega
  have hsq : 0 < sqdist s.natoms (unwrap_knots E s knot_list).2 0 (knot_list.length - 1) := by
    apply sqdist_pos_of_ne
    obtain ⟨i, hi, hd⟩ := hdiff
    exact ⟨i, hi, by simpa using hd⟩
  have hpos : 0 < knot_dist Real.sqrt s.natoms (unwrap_knots E s knot_list).2 0
      (knot_list.length - 1) := Real.sqrt_pos.mpr hsq
  have hpos2 : 0 < knot_dist Real.sqrt s.natoms (unwrap_knots E s knot_list).2
      (knot_list.length - 1) 0 := by
    rw [knot_dist_comm]
    exact hpos
  obtain ⟨s2, h1, h2⟩ := make_path_real_pathway_r E Real.sqrt s knot_list hn hne
  have hlen : s2.pathway_r.length = knot_list.length := by
    rw [h2, List.length_map, List.length_range]
  have hget : ∀ k, k < knot_list.length →
      s2.pathway_r[k]? = some ((1 / 2) *
          (knot_dist Real.sqrt s.natoms (unwrap_knots E s knot_list).2 k 0
              / knot_dist Real.sqrt s.natoms (unwrap_knots E s knot_list).2
                  (knot_list.length - 1) 0
            + 1
            - knot_dist Real.sqrt s.natoms (unwrap_knots E s knot_list).2 k
                  (knot_list.length - 1)
              / knot_dist Real.sqrt s.natoms (unwrap_knots E s knot_list).2 0
                  (knot_list.length - 1))) := by
    intro k hk
    rw [h2, List.getElem?_map, List.getElem?_range hk]
    simp only [Option.map_some']
    rw [fwd_estimate_real _ _ _ _ hpos2, bwd_estimate_real _ _ _ _ hpos]
  refine ⟨s2, h1, hlen, hget, ?_, ?_⟩
  · rw [List.head?_eq_getElem?, hget 0 (by omega), knot_dist_self, div_self (ne_of_gt hpos)]
    norm_num
  · rw [List.getLast?_eq_getElem?, hlen, hget _ (by omega), knot_dist_self,
      div_self (ne_of_gt hpos2)]
    norm_num

/-- In a non-periodic cell (identity wrap) row `k` of `knots` is the loaded configuration
of knot `k`. -/
theorem unwrap_knots_identity {K : Type} [LinearOrderedField K] (E : Engine K)
    (s : GenericSimulator K) (knot_list : List String)
    (hatoms : ∀ k, k < knot_list.length →
      s.nlocal ≤ (E.read_data (knot_list.getD k "")).length)
    (hid : ∀ l, E.wrap l = l) (k i : Nat) (hk : k < knot_list.length) (hi : i < s.nlocal) :
    (unwrap_knots E s knot_list).2.get (i + k * s.nlocal) = knot_coord E knot_list k i := by
  have hK : knot_list ≠ [] := by
    intro h
    rw [h] at hk
    simp at hk
  obtain ⟨h0, h1⟩ := unwrap_knots_get E s knot_list hatoms hK
  by_cases hk0 : k = 0
  · rw [hk0, Nat.zero_mul, Nat.add_zero]
    exact h0 i hi
  · rw [h1 k (by omega) hk i hi, hid, List.getD_eq_getElem?_getD, List.getElem?_map,
      List.getElem?_range hi]
    simp

/-- The squared distance between two knots in terms of the loaded coordinates, in a
non-periodic cell. -/
theorem sqdist_identity {K : Type} [LinearOrderedField K] (E : Engine K)
    (s : GenericSimulator K) (knot_list : List String)
    (hatoms : ∀ k, k < knot_list.length →
      s.nlocal ≤ (E.read_data (knot_list.getD k "")).length)
    (hid : ∀ l, E.wrap l = l) (a b : Nat) (ha : a < knot_list.length)
    (hb : b < knot_list.length) :
    sqdist s.natoms (unwrap_knots E s knot_list).2 a b
      = ∑ i in Finset.range (3 * s.natoms),
          (knot_coord E knot_list a i - knot_coord E knot_list b i)
            * (knot_coord E knot_list a i - knot_coord E knot_list b i) := by
  unfold sqdist
  apply Finset.sum_congr rfl
  intro i hi
  rw [Finset.mem_range] at hi
  have e1 : ∀ k, i + k * 3 * s.natoms = i + k * s.nlocal := fun k => by
    show i + k * 3 * s.natoms = i + k * (3 * s.natoms)
    rw [Nat.mul_assoc]
  rw [e1, e1, unwrap_knots_identity E s knot_list hatoms hid a i ha hi,
    unwrap_knots_identity E s knot_list hatoms hid b i hb hi]

theorem engineEx_atoms (kl : List String) (k : Nat) :
    (simEx ℝ).nlocal ≤ ((engineEx ℝ).read_data (kl.getD k "")).length := by
  show 3 ≤ _
  unfold engineEx
  simp only
  split_ifs <;> simp

theorem engineEx_yz (f : String) :
    ((engineEx ℝ).read_data f).getD 1 0 = 0 ∧ ((engineEx ℝ).read_data f).getD 2 0 = 0 := by
  unfold engineEx
  simp only
  split_ifs <;> simp

/-- The distance between two knots of the example engine (one atom, on the x axis, identity
wrap) is the absolute difference of their x coordinates. -/
theorem knot_dist_engineEx (kl : List String) (a b : Nat) (ha : a < kl.length)
    (hb : b < kl.length) :
    knot_dist Real.sqrt (simEx ℝ).natoms (unwrap_knots (engineEx ℝ) (simEx ℝ) kl).2 a b
      = |((engineEx ℝ).read_data (kl.getD a "")).getD 0 0
          - ((engineEx ℝ).read_data (kl.getD b "")).getD 0 0| := by
  unfold knot_dist
  rw [sqdist_identity (engineEx ℝ) (simEx ℝ) kl (fun k _ => engineEx_atoms _ k)
    (fun _ => rfl) a b ha hb, ← Real.sqrt_sq_eq_abs]
  congr 1
  show ∑ i in Finset.range 3, _ = _
  simp only [Finset.sum_range_succ, Finset.sum_range_zero, knot_coord,
    (engineEx_yz (kl.getD a "")).1, (engineEx_yz (kl.getD a "")).2,
    (engineEx_yz (kl.getD b "")).1, (engineEx_yz (kl.getD b "")).2]
  ring

theorem example_ends_differ :
    ∃ i, i < 3 * (simEx ℝ).natoms ∧
      (unwrap_knots (engineEx ℝ) (simEx ℝ) ["knot0", "knot1", "knot2", "knot3"]).2.get i
        ≠ (unwrap_knots (engineEx ℝ) (simEx ℝ) ["knot0", "knot1", "knot2", "knot3"]).2.get
            (i + (["knot0", "knot1", "knot2", "knot3"].length - 1) * 3 * (simEx ℝ).natoms) := by
  refine ⟨0, by decide, ?_⟩
  have h0 := unwrap_knots_identity (engineEx ℝ) (simEx ℝ)
    ["knot0", "knot1", "knot2", "knot3"] (fun k _ => engineEx_atoms _ k) (fun _ => rfl) 0 0
    (by decide) (by decide)
  have h3 := unwrap_knots_identity (engineEx ℝ) (simEx ℝ)
    ["knot0", "knot1", "knot2", "knot3"] (fun k _ => engineEx_atoms _ k) (fun _ => rfl) 3 0
    (by decide) (by decide)
  have e0 : knot_coord (engineEx ℝ) ["knot0", "knot1", "knot2", "knot3"] 0 0 = 0 := by
    simp [knot_coord, engineEx]
  have e3 : knot_coord (engineEx ℝ) ["knot0", "knot1", "knot2", "knot3"] 3 0 = 3 := by
    simp [knot_coord, engineEx]
  rw [e0] at h0
  rw [e3] at h3
  have h0b : (unwrap_knots (engineEx ℝ) (simEx ℝ)
      ["knot0", "knot1", "knot2", "knot3"]).2.get 0 = 0 := h0
  have h3b : (unwrap_knots (engineEx ℝ) (simEx ℝ) ["knot0", "knot1", "knot2", "knot3"]).2.get
      (0 + (["knot0", "knot1", "knot2", "knot3"].length - 1) * 3 * (simEx ℝ).natoms) = 3 := h3
  rw [h0b, h3b]
  norm_num

/-- Witness for C5: the four example knots, whose end knots differ. -/
theorem make_path_real_coord_witness :
    2 ≤ ["knot0", "knot1", "knot2", "knot3"].length ∧
    (∃ i, i < 3 * (simEx ℝ).natoms ∧
      (unwrap_knots (engineEx ℝ) (simEx ℝ) ["knot0", "knot1", "knot2", "knot3"]).2.get i
        ≠ (unwrap_knots (engineEx ℝ) (simEx ℝ) ["knot0", "knot1", "knot2", "knot3"]).2.get
            (i + (["knot0", "knot1", "knot2", "knot3"].length - 1) * 3 * (simEx ℝ).natoms)) ∧
    ∃ s2, make_path (engineEx ℝ) Real.sqrt (simEx ℝ) ["knot0", "knot1", "knot2", "knot3"] true
        = some s2 ∧
      s2.pathway_r.length = ["knot0", "knot1", "knot2", "knot3"].length ∧
      (∀ k, k < ["knot0", "knot1", "knot2", "knot3"].length →
        s2.pathway_r[k]? = some ((1 / 2) *
          (knot_dist Real.sqrt (simEx ℝ).natoms
                (unwrap_knots (engineEx ℝ) (simEx ℝ) ["knot0", "knot1", "knot2", "knot3"]).2 k 0
              / knot_dist Real.sqrt (simEx ℝ).natoms
                  (unwrap_knots (engineEx ℝ) (simEx ℝ) ["knot0", "knot1", "knot2", "knot3"]).2
                  (["knot0", "knot1", "knot2", "knot3"].length - 1) 0
            + 1
            - knot_dist Real.sqrt (simEx ℝ).natoms
                  (unwrap_knots (engineEx ℝ) (simEx ℝ) ["knot0", "knot1", "knot2", "knot3"]).2 k
                  (["knot0", "knot1", "knot2", "knot3"].length - 1)
              / knot_dist Real.sqrt (simEx ℝ).natoms
                  (unwrap_knots (engineEx ℝ) (simEx ℝ) ["knot0", "knot1", "knot2", "knot3"]).2 0
                  (["knot0", "knot1", "knot2", "knot3"].length - 1)))) ∧
      s2.pathway_r.head? = some 0 ∧ s2.pathway_r.getLast? = some 1 :=
  ⟨by decide, example_ends_differ,
    make_path_real_coord (engineEx ℝ) (simEx ℝ) ["knot0", "knot1", "knot2", "knot3"]
      (by decide) example_ends_differ⟩

theorem chain_lt (f : Nat → ℝ) (n : Nat) (h : ∀ k, k + 1 < n → f k < f (k + 1)) :
    ∀ a b, a < b → b < n → f a < f b := by
  intro a b hab
  induction b with
  | zero => omega
  | succ b ih =>
    intro hb
    by_cases hab2 : a = b
    · rw [hab2]
      exact h b hb
    · exact lt_trans (ih (by omega) (by omega)) (h b hb)

theorem chain_ge (f : Nat → ℝ) (n : Nat) (h : ∀ k, k + 1 < n → f (k + 1) ≤ f k) :
    ∀ a b, a < b → b < n → f b ≤ f a := by
  intro a b hab
  induction b with
  | zero => omega
  | succ b ih =>
    intro hb
    by_cases hab2 : a = b
    · rw [hab2]
      exact h b hb
    · exact le_trans (h b hb) (ih (by omega) (by omega))

/-- C6 (as amended): in real-coordinate mode, for every non-empty knot list whose distance
from the first knot strictly increases with `k` and whose distance from the last knot does
not increase with `k`, the knot parameters in `pathway_r` are non-decreasing. -/
theorem make_path_real_coord_monotone (E : Engine ℝ) (s : GenericSimulator ℝ)
    (knot_list : List String) (hK : knot_list ≠ [])
    (hinc : ∀ k, k + 1 < knot_list.length →
      knot_dist Real.sqrt s.natoms (unwrap_knots E s knot_list).2 k 0
        < knot_dist Real.sqrt s.natoms (unwrap_knots E s knot_list).2 (k + 1) 0)
    (hdec : ∀ k, k + 1 < knot_list.length →
      knot_dist Real.sqrt s.natoms (unwrap_knots E s knot_list).2 (k + 1)
          (knot_list.length - 1)
        ≤ knot_dist Real.sqrt s.natoms (unwrap_knots E s knot_list).2 k
          (knot_list.length - 1)) :
    ∃ s2, make_path E Real.sqrt s knot_list true = some s2 ∧
      List.Pairwise (fun a b => a ≤ b) s2.pathway_r := by
  by_cases hn : s.natoms = 0
  · obtain ⟨s2, h1, h2, _⟩ := make_path_uninitialised E Real.sqrt s knot_list true hn
    exact ⟨s2, h1, by rw [h2]; exact List.Pairwise.nil⟩
  · obtain ⟨s2, h1, h2⟩ := make_path_real_pathway_r E Real.sqrt s knot_list hn hK
    refine ⟨s2, h1, ?_⟩
    rw [h2, List.pairwise_map]
    refine (List.pairwise_lt_range knot_list.length).imp_of_mem ?_
    intro a b _ hb hab
    rw [List.mem_range] at hb
    have hpos2 : 0 < knot_dist Real.sqrt s.natoms (unwrap_knots E s knot_list).2
        (knot_list.length - 1) 0 := by
      have := chain_lt (fun k => knot_dist Real.sqrt s.natoms (unwrap_knots E s knot_list).2 k 0)
        knot_list.length hinc 0 (knot_list.length - 1) (by omega) (by omega)
      simp only [knot_dist_self] at this
      exact this
    have hpos : 0 < knot_dist Real.sqrt s.natoms (unwrap_knots E s knot_list).2 0
        (knot_list.length - 1) := by
      rw [knot_dist_comm]
      exact hpos2
    have hf := chain_lt (fun k => knot_dist Real.sqrt s.natoms (unwrap_knots E s knot_list).2 k 0)
      knot_list.length hinc a b hab hb
    have hg := chain_ge (fun k => knot_dist Real.sqrt s.natoms (unwrap_knots E s knot_list).2 k
      (knot_list.length - 1)) knot_list.length hdec a b hab hb
    simp only at hf hg
    rw [fwd_estimate_real _ _ _ _ hpos2, bwd_estimate_real _ _ _ _ hpos,
      fwd_estimate_real _ _ _ _ hpos2, bwd_estimate_real _ _ _ _ hpos]
    have q1 := div_le_div_of_nonneg_right (le_of_lt hf) (le_of_lt hpos2)
    have q2 := div_le_div_of_nonneg_right hg (le_of_lt hpos)
    linarith

/-- Witness for C6 (as amended): knots at x = 0, 1, 3. -/
theorem make_path_real_coord_monotone_witness :
    ["knot0", "knot1", "knot3"] ≠ [] ∧
    (∀ k, k + 1 < ["knot0", "knot1", "knot3"].length →
      knot_dist Real.sqrt (simEx ℝ).natoms
          (unwrap_knots (engineEx ℝ) (simEx ℝ) ["knot0", "knot1", "knot3"]).2 k 0
        < knot_dist Real.sqrt (simEx ℝ).natoms
          (unwrap_knots (engineEx ℝ) (simEx ℝ) ["knot0", "knot1", "knot3"]).2 (k + 1) 0) ∧
    (∀ k, k + 1 < ["knot0", "knot1", "knot3"].length →
      knot_dist Real.sqrt (simEx ℝ).natoms
          (unwrap_knots (engineEx ℝ) (simEx ℝ) ["knot0", "knot1", "knot3"]).2 (k + 1)
          (["knot0", "knot1", "knot3"].length - 1)
        ≤ knot_dist Real.sqrt (simEx ℝ).natoms
          (unwrap_knots (engineEx ℝ) (simEx ℝ) ["knot0", "knot1", "knot3"]).2 k
          (["knot0", "knot1", "knot3"].length - 1)) ∧
    ∃ s2, make_path (engineEx ℝ) Real.sqrt (simEx ℝ) ["knot0", "knot1", "knot3"] true
        = some s2 ∧
      List.Pairwise (fun a b => a ≤ b) s2.pathway_r := by
  have hinc : ∀ k, k + 1 < ["knot0", "knot1", "knot3"].length →
      knot_dist Real.sqrt (simEx ℝ).natoms
          (unwrap_knots (engineEx ℝ) (simEx ℝ) ["knot0", "knot1", "knot3"]).2 k 0
        < knot_dist Real.sqrt (simEx ℝ).natoms
          (unwrap_knots (engineEx ℝ) (simEx ℝ) ["knot0", "knot1", "knot3"]).2 (k + 1) 0 := by
    intro k hk
    have hk2 : k < 2 := by
      have hk3 : k + 1 < 3 := hk
      omega
    rw [knot_dist_engineEx _ _ _ (by show k < 3; omega) (by decide),
      knot_dist_engineEx _ _ _ hk (by decide)]
    interval_cases k <;> simp [engineEx]
  have hdec : ∀ k, k + 1 < ["knot0", "knot1", "knot3"].length →
      knot_dist Real.sqrt (simEx ℝ).natoms
          (unwrap_knots (engineEx ℝ) (simEx ℝ) ["knot0", "knot1", "knot3"]).2 (k + 1)
          (["knot0", "knot1", "knot3"].length - 1)
        ≤ knot_dist Real.sqrt (simEx ℝ).natoms
          (unwrap_knots (engineEx ℝ) (simEx ℝ) ["knot0", "knot1", "knot3"]).2 k
          (["knot0", "knot1", "knot3"].length - 1) := by
    intro k hk
    have hk2 : k < 2 := by
      have hk3 : k + 1 < 3 := hk
      omega
    rw [knot_dist_engineEx _ _ _ hk (by decide),
      knot_dist_engineEx _ _ _ (by show k < 3; omega) (by decide)]
    interval_cases k <;> (simp [engineEx]; try norm_num)
  exact ⟨by decide, hinc, hdec,
    make_path_real_coord_monotone (engineEx ℝ) (simEx ℝ) ["knot0", "knot1", "knot3"]
      (by decide) hinc hdec⟩

/-- C6 (as stated) fails: for knots at x = 0, 1, -2, 3 the distance from the first knot
strictly increases (0, 1, 2, 3), yet `pathway_r` is 0, 1/3, 0, 1, which decreases from
knot 1 to knot 2. -/
theorem make_path_real_coord_not_monotone :
    (∀ k, k + 1 < ["knot0", "knot1", "knot2", "knot3"].length →
      knot_dist Real.sqrt (simEx ℝ).natoms
          (unwrap_knots (engineEx ℝ) (simEx ℝ) ["knot0", "knot1", "knot2", "knot3"]).2 k 0
        < knot_dist Real.sqrt (simEx ℝ).natoms
          (unwrap_knots (engineEx ℝ) (simEx ℝ) ["knot0", "knot1", "knot2", "knot3"]).2
            (k + 1) 0) ∧
    ∃ s2, make_path (engineEx ℝ) Real.sqrt (simEx ℝ) ["knot0", "knot1", "knot2", "knot3"] true
        = some s2 ∧
      s2.pathway_r = [0, 1 / 3, 0, 1] ∧
      ¬ List.Pairwise (fun a b => a ≤ b) s2.pathway_r := by
  have hd : ∀ a b, a < 4 → b < 4 →
      knot_dist Real.sqrt (simEx ℝ).natoms
          (unwrap_knots (engineEx ℝ) (simEx ℝ) ["knot0", "knot1", "knot2", "knot3"]).2 a b
        = |((engineEx ℝ).read_data (["knot0", "knot1", "knot2", "knot3"].getD a "")).getD 0 0
          - ((engineEx ℝ).read_data (["knot0", "knot1", "knot2", "knot3"].getD b "")).getD 0 0| :=
    fun a b ha hb => knot_dist_engineEx _ a b ha hb
  refine ⟨?_, ?_⟩
  · intro k hk
    have hk3 : k < 3 := by
      have hk4 : k + 1 < 4 := hk
      omega
    rw [hd _ _ (by omega) (by decide), hd _ _ hk (by decide)]
    interval_cases k <;> (simp [engineEx]; try norm_num)
  · obtain ⟨s2, h1, h2⟩ := make_path_real_pathway_r (engineEx ℝ) Real.sqrt (simEx ℝ)
      ["knot0", "knot1", "knot2", "knot3"] (by decide) (by decide)
    have e4 : ["knot0", "knot1", "knot2", "knot3"].length = 4 := rfl
    rw [e4] at h2
    have hpos : 0 < knot_dist Real.sqrt (simEx ℝ).natoms
        (unwrap_knots (engineEx ℝ) (simEx ℝ) ["knot0", "knot1", "knot2", "knot3"]).2 0
        (4 - 1) := by
      show 0 < knot_dist Real.sqrt (simEx ℝ).natoms
        (unwrap_knots (engineEx ℝ) (simEx ℝ) ["knot0", "knot1", "knot2", "knot3"]).2 0 3
      rw [hd 0 3 (by decide) (by decide)]
      simp [engineEx]
    have hpos2 : 0 < knot_dist Real.sqrt (simEx ℝ).natoms
        (unwrap_knots (engineEx ℝ) (simEx ℝ) ["knot0", "knot1", "knot2", "knot3"]).2
        (4 - 1) 0 := by
      rw [knot_dist_comm]
      exact hpos
    have hpr : s2.pathway_r = [0, 1 / 3, 0, 1] := by
      rw [h2]
      simp only [List.range_succ, List.range_zero, List.nil_append, List.cons_append,
        List.map_cons, List.map_nil, fwd_estimate_real _ _ _ _ hpos2,
        bwd_estimate_real _ _ _ _ hpos]
      simp only [Nat.reduceSub,
        hd 0 0 (by decide) (by decide), hd 1 0 (by decide) (by decide),
        hd 2 0 (by decide) (by decide), hd 3 0 (by decide) (by decide),
        hd 0 3 (by decide) (by decide), hd 1 3 (by decide) (by decide),
        hd 2 3 (by decide) (by decide), hd 3 3 (by decide) (by decide)]
      simp [engineEx]
      norm_num
    refine ⟨s2, h1, hpr, ?_⟩
    rw [hpr]
    intro hp
    have := (List.pairwise_cons.mp (List.pairwise_cons.mp hp).2).1 0 (by simp)
    norm_num at this

end RealCoord

section PathEval

variable {K : Type} [LinearOrderedField K]

/-- C10 (as amended): in fallback (non-spline) mode, for every channel `i`, parameter `r`
and scale `s`, `path(i, r, 1, s)` is the forward finite difference of the 0th-order
evaluator `f` with step `dr = 1/pathway_r.size()`: `(f(r+dr) - f(r)) * s / dr`. -/
theorem path_first_derivative_fallback (deriv : spline K → Int → K → K)
    (sim : GenericSimulator K) (i : Nat) (p : spline K) (r s : K)
    (hmode : sim.spline_path = false) (hi : sim.pathway[i]? = some p) :
    path deriv sim i r 1 s
      = some ((deriv p 0 (r + 1 / (sim.pathway_r.length : K)) - deriv p 0 r) * s
          / (1 / (sim.pathway_r.length : K))) := by
  unfold path
  rw [hi]
  simp [hmode]

/-- Witness for C10 (as amended): the parabola example. -/
theorem path_first_derivative_fallback_witness :
    simFallback.spline_path = false ∧ simFallback.pathway[0]? = some ⟨none⟩ ∧
    path derivEx simFallback 0 0 1 1
      = some ((derivEx ⟨none⟩ 0 (0 + 1 / (simFallback.pathway_r.length : ℚ))
            - derivEx ⟨none⟩ 0 0) * 1
          / (1 / (simFallback.pathway_r.length : ℚ))) :=
  ⟨rfl, rfl, path_first_derivative_fallback derivEx simFallback 0 ⟨none⟩ 0 1 rfl rfl⟩

/-- C10 (as stated) fails: with `f(r) = r^2`, one knot (`dr = 1`), `r = 0` and `s = 1`
the code returns the forward difference `(f(1) - f(0)) / 1 = 1`, while the centered
difference `(f(1) - f(-1)) / 2` is 0. -/
theorem path_first_derivative_not_centered :
    simFallback.spline_path = false ∧
    path derivEx simFallback 0 0 1 1 = some 1 ∧
    (derivEx ⟨none⟩ 0 (0 + 1 / (simFallback.pathway_r.length : ℚ))
        - derivEx ⟨none⟩ 0 (0 - 1 / (simFallback.pathway_r.length : ℚ))) * 1
      / (2 * (1 / (simFallback.pathway_r.length : ℚ))) = 0 := by
  refine ⟨rfl, ?_, ?_⟩
  · simp [path, simFallback, derivEx]
  · simp [simFallback, derivEx]

end PathEval

section Expansion

variable {K : Type} [LinearOrderedField K]

omit [LinearOrderedField K] in
theorem Parser.get_put_ne (P : Parser K) (key key2 val : String) (h : key2 ≠ key) :
    (P.put key val).get key2 = P.get key2 := by
  simp [Parser.get, Parser.put, Function.update_noteq h]

/-- Entry `a` of the result of `expansion`, for each of the three axes. -/
theorem expansion_get (C : Text K) (P : Parser K) (T : K) (newscale : Buf K) (a : Nat)
    (ha : a < 3) :
    (expansion C P T newscale).get a =
      if C.stod (P.get (linear_key a)) ≠ 0 ∨ C.stod (P.get (quadratic_key a)) ≠ 0 then
        1 + C.stod (P.get (linear_key a)) * T + C.stod (P.get (quadratic_key a)) * T * T
      else if C.stod (P.get "LinearThermalExpansion") ≠ 0 then
        1 + C.stod (P.get "LinearThermalExpansion") * T
          + C.stod (P.get "QuadraticThermalExpansion") * T * T
      else 1 := by
  unfold expansion
  simp only [abs_ne_zero, abs_pos]
  interval_cases a <;>
    simp only [linear_key, quadratic_key, List.getD_cons_zero, List.getD_cons_succ] <;>
    split_ifs <;> simp [Buf.get_set]

/-- C11: axis-specific coefficients override the base ones. For every temperature `T` and
axis `a`, if the axis-specific linear or quadratic coefficient is non-zero, `expansion`
sets `newscale[a] = 1 + l_a*T + q_a*T^2`, and the texts stored under
`LinearThermalExpansion` and `QuadraticThermalExpansion` have no influence on that
entry. -/
theorem expansion_axis_overrides_base (C : Text K) (P : Parser K) (T : K) (newscale : Buf K)
    (a : Nat) (ha : a < 3)
    (hset : C.stod (P.get (linear_key a)) ≠ 0 ∨ C.stod (P.get (quadratic_key a)) ≠ 0) :
    (expansion C P T newscale).get a
      = 1 + C.stod (P.get (linear_key a)) * T + C.stod (P.get (quadratic_key a)) * T ^ 2 ∧
    ∀ lin quad : String,
      (expansion C ((P.put "LinearThermalExpansion" lin).put "QuadraticThermalExpansion" quad)
          T newscale).get a
        = (expansion C P T newscale).get a := by
  have hl : ∀ lin quad : String,
      ((P.put "LinearThermalExpansion" lin).put "QuadraticThermalExpansion" quad).get
        (linear_key a) = P.get (linear_key a) := by
    intro lin quad
    rw [Parser.get_put_ne _ _ _ _ (by interval_cases a <;> decide),
      Parser.get_put_ne _ _ _ _ (by interval_cases a <;> decide)]
  have hq : ∀ lin quad : String,
      ((P.put "LinearThermalExpansion" lin).put "QuadraticThermalExpansion" quad).get
        (quadratic_key a) = P.get (quadratic_key a) := by
    intro lin quad
    rw [Parser.get_put_ne _ _ _ _ (by interval_cases a <;> decide),
      Parser.get_put_ne _ _ _ _ (by interval_cases a <;> decide)]
  refine ⟨?_, fun lin quad => ?_⟩
  · rw [expansion_get C P T newscale a ha, if_pos hset]
    ring
  · rw [expansion_get C _ T newscale a ha, expansion_get C P T newscale a ha, hl, hq,
      if_pos hset, if_pos hset]

/-- Witness for C11: axis X of the example parser, at T = 300. -/
theorem expansion_axis_overrides_base_witness :
    (0 : Nat) < 3 ∧
    ((textEx ℚ).stod ((parserEx ℚ).get (linear_key 0)) ≠ 0
      ∨ (textEx ℚ).stod ((parserEx ℚ).get (quadratic_key 0)) ≠ 0) ∧
    ((expansion (textEx ℚ) (parserEx ℚ) 300 ⟨fun _ => 0⟩).get 0
      = 1 + (textEx ℚ).stod ((parserEx ℚ).get (linear_key 0)) * 300
          + (textEx ℚ).stod ((parserEx ℚ).get (quadratic_key 0)) * 300 ^ 2 ∧
    ∀ lin quad : String,
      (expansion (textEx ℚ)
          (((parserEx ℚ).put "LinearThermalExpansion" lin).put "QuadraticThermalExpansion" quad)
          300 ⟨fun _ => 0⟩).get 0
        = (expansion (textEx ℚ) (parserEx ℚ) 300 ⟨fun _ => 0⟩).get 0) :=
  ⟨by decide, Or.inl (by simp [textEx, parserEx, Parser.get, linear_key]),
    expansion_axis_overrides_base (textEx ℚ) (parserEx ℚ) 300 ⟨fun _ => 0⟩ 0 (by decide)
      (Or.inl (by simp [textEx, parserEx, Parser.get, linear_key]))⟩

/-- C20: when both axis-specific coefficients of axis `a` are zero, `expansion` uses the
base pair only if the base linear coefficient `L` is non-zero:
`newscale[a] = 1 + L*T + Q*T^2` when `L != 0`, and `newscale[a] = 1` for every `T` when
`L = 0`, whatever `Q` is. -/
theorem expansion_base_needs_linear (C : Text K) (P : Parser K) (T : K) (newscale : Buf K)
    (a : Nat) (ha : a < 3)
    (hl : C.stod (P.get (linear_key a)) = 0) (hq : C.stod (P.get (quadratic_key a)) = 0) :
    (C.stod (P.get "LinearThermalExpansion") ≠ 0 →
      (expansion C P T newscale).get a
        = 1 + C.stod (P.get "LinearThermalExpansion") * T
            + C.stod (P.get "QuadraticThermalExpansion") * T ^ 2) ∧
    (C.stod (P.get "LinearThermalExpansion") = 0 →
      (expansion C P T newscale).get a = 1) := by
  have hno : ¬ (C.stod (P.get (linear_key a)) ≠ 0 ∨ C.stod (P.get (quadratic_key a)) ≠ 0) := by
    rw [hl, hq]
    simp
  refine ⟨fun hL => ?_, fun hL => ?_⟩
  · rw [expansion_get C P T newscale a ha, if_neg hno, if_pos hL]
    ring
  · rw [expansion_get C P T newscale a ha, if_neg hno, if_neg (not_not.mpr hL)]

/-- Witness for C20: axis Y of the example parser, which has no coefficient of its own. -/
theorem expansion_base_needs_linear_witness :
    (1 : Nat) < 3 ∧
    (textEx ℚ).stod ((parserEx ℚ).get (linear_key 1)) = 0 ∧
    (textEx ℚ).stod ((parserEx ℚ).get (quadratic_key 1)) = 0 ∧
    (((textEx ℚ).stod ((parserEx ℚ).get "LinearThermalExpansion") ≠ 0 →
      (expansion (textEx ℚ) (parserEx ℚ) 300 ⟨fun _ => 0⟩).get 1
        = 1 + (textEx ℚ).stod ((parserEx ℚ).get "LinearThermalExpansion") * 300
            + (textEx ℚ).stod ((parserEx ℚ).get "QuadraticThermalExpansion") * 300 ^ 2) ∧
    ((textEx ℚ).stod ((parserEx ℚ).get "LinearThermalExpansion") = 0 →
      (expansion (textEx ℚ) (parserEx ℚ) 300 ⟨fun _ => 0⟩).get 1 = 1)) :=
  ⟨by decide, by simp [textEx, parserEx, Parser.get, linear_key],
    by simp [textEx, parserEx, Parser.get, quadratic_key],
    expansion_base_needs_linear (textEx ℚ) (parserEx ℚ) 300 ⟨fun _ => 0⟩ 1 (by decide)
      (by simp [textEx, parserEx, Parser.get, linear_key])
      (by simp [textEx, parserEx, Parser.get, quadratic_key])⟩

end Expansion

/-! ### populate: the declarations -/

section PopulateProofs

variable {K : Type} [LinearOrderedField K]

omit [LinearOrderedField K] in
theorem issued_commands (P : Parser K) (line : String) (strv : List String) :
    issued line (strv.map (fun s => (EngineCall.command s (P.insert_params s) : EngineCall K)))
      = strv.count line := by
  induction strv with
  | nil => simp [issued]
  | cons a l ih =>
    simp only [issued] at ih
    simp only [List.map_cons, issued, List.countP_cons, List.count_cons, ih, is_command]

omit [LinearOrderedField K] in
theorem issued_run_commands (O : Lammps K) (P : Parser K) (rank : Nat) (line : String)
    (strv : List String) (io : Session K) :
    issued line (run_commands O P rank strv io).log = issued line io.log + strv.count line := by
  rw [run_commands_log, issued_append, issued_commands]

omit [LinearOrderedField K] in
theorem issued_scatter (O : Lammps K) (rank natoms : Nat) (line name : String) (c : Nat)
    (v : Buf K) (io : Session K) :
    issued line (scatter O rank natoms name c v io).log = issued line io.log := by
  rw [scatter_log, issued_append]
  simp [issued, is_command]

theorem change_box_ne_fix (t : String) : "change_box all x scale " ++ t ≠ fix_line := by
  intro h
  have h2 := congrArg (fun s : String => s.data.head?) h
  simp [String.data_append, fix_line] at h2

theorem change_box_ne_compute (t : String) : "change_box all x scale " ++ t ≠ compute_line := by
  intro h
  have h2 := congrArg (fun s : String => (s.data.drop 1).head?) h
  simp [String.data_append, compute_line] at h2

theorem issued_rescale_cell (C : Text K) (O : Lammps K) (T : K) (s : LAMMPSSimulator K)
    (line : String) (hcb : ∀ t, "change_box all x scale " ++ t ≠ line) (hrun : "run 0" ≠ line) :
    issued line (rescale_cell C O T s).session.log = issued line s.session.log := by
  unfold rescale_cell
  simp only [issued_run_commands, String.append_assoc]
  rw [List.count_cons_of_ne (Ne.symm (hcb _)), List.count_cons_of_ne (Ne.symm hrun)]
  simp

omit [LinearOrderedField K] in
theorem issued_declare_fix (O : Lammps K) (s : LAMMPSSimulator K) (line : String)
    (hrun : "run 0" ≠ line) :
    issued line (declare_fix O s).session.log
      = issued line s.session.log + (if s.made_fix = false then [fix_line].count line else 0) := by
  unfold declare_fix
  split_ifs with h
  · simp only [issued_run_commands]
    rw [List.count_cons, List.count_cons_of_ne (Ne.symm hrun)]
    simp [List.count_cons]
  · simp

omit [LinearOrderedField K] in
theorem issued_declare_compute (O : Lammps K) (s : LAMMPSSimulator K) (line : String)
    (hrun : "run 0" ≠ line) :
    issued line (declare_compute O s).session.log
      = issued line s.session.log
        + (if s.made_compute = false then [compute_line].count line else 0) := by
  unfold declare_compute
  split_ifs with h
  · simp only [issued_run_commands]
    rw [List.count_cons, List.count_cons_of_ne (Ne.symm hrun)]
    simp [List.count_cons]
  · simp

theorem issued_scatter_path (O : Lammps K) (deriv : spline K → Int → K → K) (r : K)
    (s : LAMMPSSimulator K) (line : String) :
    issued line (scatter_path O deriv r s).session.log = issued line s.session.log := by
  unfold scatter_path
  simp only [forLoop_three, issued_scatter]

theorem issued_scatter_tangent (O : Lammps K) (deriv : spline K → Int → K → K) (sqrt : K → K)
    (r : K) (s : LAMMPSSimulator K) (line : String) (hrun : "run 0" ≠ line) :
    issued line (scatter_tangent O deriv sqrt r s).1.session.log = issued line s.session.log := by
  unfold scatter_tangent
  simp only [forLoop_three, issued_scatter, issued_run_commands]
  rw [List.count_cons_of_ne (Ne.symm hrun)]
  simp

omit [LinearOrderedField K] in
theorem declare_fix_made_fix (O : Lammps K) (s : LAMMPSSimulator K) :
    (declare_fix O s).made_fix = true := by
  unfold declare_fix
  split_ifs with h
  · rfl
  · simpa using h

omit [LinearOrderedField K] in
theorem declare_fix_made_compute (O : Lammps K) (s : LAMMPSSimulator K) :
    (declare_fix O s).made_compute = s.made_compute := by
  unfold declare_fix
  split_ifs <;> rfl

omit [LinearOrderedField K] in
theorem declare_compute_made_compute (O : Lammps K) (s : LAMMPSSimulator K) :
    (declare_compute O s).made_compute = true := by
  unfold declare_compute
  split_ifs with h
  · rfl
  · simpa using h

omit [LinearOrderedField K] in
theorem declare_compute_made_fix (O : Lammps K) (s : LAMMPSSimulator K) :
    (declare_compute O s).made_fix = s.made_fix := by
  unfold declare_compute
  split_ifs <;> rfl

theorem populate_core_issued (C : Text K) (O : Lammps K) (deriv : spline K → Int → K → K)
    (sqrt : K → K) (r T : K) (s : LAMMPSSimulator K) (line : String)
    (hcb : ∀ t, "change_box all x scale " ++ t ≠ line) (hrun : "run 0" ≠ line) :
    issued line (populate_core C O deriv sqrt r T s).1.session.log
      = issued line s.session.log + (if s.made_fix = false then [fix_line].count line else 0)
        + (if s.made_compute = false then [compute_line].count line else 0) := by
  unfold populate_core
  simp only [issued_declare_compute _ _ _ hrun, issued_scatter_tangent _ _ _ _ _ _ hrun,
    issued_scatter_path, issued_declare_fix _ _ _ hrun, issued_rescale_cell _ _ _ _ _ hcb hrun]
  have h1 : (scatter_tangent O deriv sqrt r (scatter_path O deriv r
      (declare_fix O (rescale_cell C O T s)))).1.made_compute = s.made_compute := by
    show (declare_fix O (rescale_cell C O T s)).made_compute = s.made_compute
    rw [declare_fix_made_compute]; rfl
  have h2 : (rescale_cell C O T s).made_fix = s.made_fix := rfl
  rw [h1, h2]

theorem populate_core_flags (C : Text K) (O : Lammps K) (deriv : spline K → Int → K → K)
    (sqrt : K → K) (r T : K) (s : LAMMPSSimulator K) :
    (populate_core C O deriv sqrt r T s).1.made_fix = true
      ∧ (populate_core C O deriv sqrt r T s).1.made_compute = true := by
  unfold populate_core
  refine ⟨?_, declare_compute_made_compute _ _⟩
  rw [declare_compute_made_fix]
  show (declare_fix O (rescale_cell C O T s)).made_fix = true
  exact declare_fix_made_fix _ _

theorem populate_core_sim (C : Text K) (O : Lammps K) (deriv : spline K → Int → K → K)
    (sqrt : K → K) (r T : K) (s : LAMMPSSimulator K) :
    (populate_core C O deriv sqrt r T s).1.sim.natoms = s.sim.natoms
      ∧ (populate_core C O deriv sqrt r T s).1.sim.pathway = s.sim.pathway := by
  unfold populate_core declare_compute
  dsimp only
  split_ifs
  · constructor
    · show (declare_fix O (rescale_cell C O T s)).sim.natoms = s.sim.natoms
      unfold declare_fix; split_ifs <;> rfl
    · show (declare_fix O (rescale_cell C O T s)).sim.pathway = s.sim.pathway
      unfold declare_fix; split_ifs <;> rfl
  · constructor
    · show (declare_fix O (rescale_cell C O T s)).sim.natoms = s.sim.natoms
      unfold declare_fix; split_ifs <;> rfl
    · show (declare_fix O (rescale_cell C O T s)).sim.pathway = s.sim.pathway
      unfold declare_fix; split_ifs <;> rfl

theorem run_ne_fix : "run 0" ≠ fix_line := by decide

theorem run_ne_compute : "run 0" ≠ compute_line := by decide

theorem populate_eq_core (C : Text K) (O : Lammps K) (deriv : spline K → Int → K → K)
    (sqrt : K → K) (r T : K) (s : LAMMPSSimulator K)
    (hlen : 3 * s.sim.natoms ≤ s.sim.pathway.length) :
    populate C O deriv sqrt r T s = some (populate_core C O deriv sqrt r T s) := by
  unfold populate
  rw [if_neg (by omega)]

/-- A `populate` call from a state in which both declarations are made issues neither
declaration again, and so does every run of such calls. -/
theorem populate_all_declared (C : Text K) (O : Lammps K) (deriv : spline K → Int → K → K)
    (sqrt : K → K) (calls : List (K × K)) :
    ∀ s : LAMMPSSimulator K, 3 * s.sim.natoms ≤ s.sim.pathway.length →
      s.made_fix = true → s.made_compute = true →
      ∃ s2, populate_all C O deriv sqrt calls s = some s2
        ∧ issued fix_line s2.session.log = issued fix_line s.session.log
        ∧ issued compute_line s2.session.log = issued compute_line s.session.log
        ∧ s2.made_fix = true ∧ s2.made_compute = true := by
  induction calls with
  | nil => intro s _ hf hc; exact ⟨s, rfl, rfl, rfl, hf, hc⟩
  | cons c rest ih =>
    intro s hlen hf hc
    have hs := populate_core_sim C O deriv sqrt c.1 c.2 s
    have hfl := populate_core_flags C O deriv sqrt c.1 c.2 s
    have h1 := populate_core_issued C O deriv sqrt c.1 c.2 s fix_line change_box_ne_fix run_ne_fix
    have h2 := populate_core_issued C O deriv sqrt c.1 c.2 s compute_line change_box_ne_compute
      run_ne_compute
    rw [hf, hc] at h1 h2
    simp only [Bool.true_eq_false, if_false, Nat.add_zero] at h1 h2
    obtain ⟨s2, he, e1, e2, f1, f2⟩ := ih (populate_core C O deriv sqrt c.1 c.2 s).1
      (by rw [hs.1, hs.2]; exact hlen) hfl.1 hfl.2
    refine ⟨s2, ?_, by rw [e1, h1], by rw [e2, h2], f1, f2⟩
    simp only [populate_all, populate_eq_core C O deriv sqrt c.1 c.2 s hlen]
    exact he

/-- C19. From a state in which neither declaration is made (`made_fix` and `made_compute`
false, as `reset` and `load_config` leave them), the first `populate` call of a run issues
the `fix __pafipath` line and the `compute __pafipath` line once each and sets both flags;
whatever calls `rest` follow it with no reset or reload in between, they issue neither line
again and both flags stay set. -/
theorem populate_declares_once (C : Text K) (E : Engine K) (O : Lammps K)
    (deriv : spline K → Int → K → K) (sqrt : K → K) (s : LAMMPSSimulator K)
    (hlen : 3 * s.sim.natoms ≤ s.sim.pathway.length)
    (hfix : s.made_fix = false) (hcompute : s.made_compute = false)
    (c : K × K) (rest : List (K × K)) :
    (∀ (s0 : LAMMPSSimulator K) (file : String),
        (s0.reset O).made_fix = false ∧ (s0.reset O).made_compute = false
        ∧ (s0.load_config E O file).made_fix = false
        ∧ (s0.load_config E O file).made_compute = false)
    ∧ ∃ s1 s2 norm_mag,
        populate C O deriv sqrt c.1 c.2 s = some (s1, norm_mag)
        ∧ issued fix_line s1.session.log = issued fix_line s.session.log + 1
        ∧ issued compute_line s1.session.log = issued compute_line s.session.log + 1
        ∧ s1.made_fix = true ∧ s1.made_compute = true
        ∧ populate_all C O deriv sqrt rest s1 = some s2
        ∧ issued fix_line s2.session.log = issued fix_line s1.session.log
        ∧ issued compute_line s2.session.log = issued compute_line s1.session.log
        ∧ s2.made_fix = true ∧ s2.made_compute = true := by
  refine ⟨fun s0 file => ⟨rfl, rfl, rfl, rfl⟩, ?_⟩
  have hs := populate_core_sim C O deriv sqrt c.1 c.2 s
  have hfl := populate_core_flags C O deriv sqrt c.1 c.2 s
  have h1 := populate_core_issued C O deriv sqrt c.1 c.2 s fix_line change_box_ne_fix run_ne_fix
  have h2 := populate_core_issued C O deriv sqrt c.1 c.2 s compute_line change_box_ne_compute
    run_ne_compute
  rw [hfix, hcompute] at h1 h2
  have hfc : fix_line ≠ compute_line := by decide
  simp only [if_true, List.count_cons_self, List.count_nil, List.count_cons_of_ne hfc,
    List.count_cons_of_ne (Ne.symm hfc), Nat.add_zero, Nat.zero_add] at h1 h2
  obtain ⟨s2, he, e1, e2, f1, f2⟩ := populate_all_declared C O deriv sqrt rest
    (populate_core C O deriv sqrt c.1 c.2 s).1 (by rw [hs.1, hs.2]; exact hlen) hfl.1 hfl.2
  exact ⟨(populate_core C O deriv sqrt c.1 c.2 s).1, s2,
    (populate_core C O deriv sqrt c.1 c.2 s).2,
    populate_eq_core C O deriv sqrt c.1 c.2 s hlen, h1, h2, hfl.1, hfl.2, he, e1, e2, f1, f2⟩

theorem populate_declares_once_witness :
    3 * (lsimEx ℚ).sim.natoms ≤ (lsimEx ℚ).sim.pathway.length
    ∧ (lsimEx ℚ).made_fix = false ∧ (lsimEx ℚ).made_compute = false
    ∧ ∃ s1 s2 norm_mag,
        populate (textEx ℚ) (lammpsEx ℚ) (derivLine ℚ) sqrtEx (0, 0).1 (0, 0).2 (lsimEx ℚ)
          = some (s1, norm_mag)
        ∧ issued fix_line s1.session.log = issued fix_line (lsimEx ℚ).session.log + 1
        ∧ issued compute_line s1.session.log = issued compute_line (lsimEx ℚ).session.log + 1
        ∧ s1.made_fix = true ∧ s1.made_compute = true
        ∧ populate_all (textEx ℚ) (lammpsEx ℚ) (derivLine ℚ) sqrtEx [(1, 300), (1, 0)] s1
            = some s2
        ∧ issued fix_line s2.session.log = issued fix_line s1.session.log
        ∧ issued compute_line s2.session.log = issued compute_line s1.session.log
        ∧ s2.made_fix = true ∧ s2.made_compute = true :=
  ⟨by decide, rfl, rfl,
   (populate_declares_once (textEx ℚ) (engineEx ℚ) (lammpsEx ℚ) (derivLine ℚ) sqrtEx (lsimEx ℚ)
     (by decide) rfl rfl (0, 0) [(1, 300), (1, 0)]).2⟩

end PopulateProofs

/-! ### populate: the tangent -/

section TangentProofs

variable {K : Type} [LinearOrderedField K]

/-- A fill loop `for i < n: a[i] = f i` leaves `f k` at every index below `n`. -/
theorem fill_get (n : Nat) (f : Nat → K) (a : Buf K) (k : Nat) :
    (forLoop n (fun i (a : Buf K) => a.set i (f i)) a).get k = if k < n then f k else a.get k := by
  refine forLoop_get n _ a (fun m k => if k < m then f k else a.get k) (by simp) ?_ k
  intro j _ e he k
  rw [Buf.get_set, he k]
  dsimp only
  split_ifs <;> first | rfl | omega | (subst_vars; rfl)

theorem fill_toList (n : Nat) (f : Nat → K) (a : Buf K) :
    (forLoop n (fun i (a : Buf K) => a.set i (f i)) a).toList n = (List.range n).map f := by
  unfold Buf.toList
  apply List.map_congr_left
  intro k hk
  rw [fill_get, if_pos (List.mem_range.mp hk)]

theorem fill_x_get (deriv : spline K → Int → K → K) (sim : GenericSimulator K) (scale : Buf K)
    (r : K) (d : Int) (x : Buf K) (k : Nat) :
    (fill_x deriv sim scale r d x).get k
      = if k < 3 * sim.natoms then deriv (chan sim k) d r * scale.get (k % 3) else x.get k := by
  unfold fill_x
  refine forLoop_get sim.natoms _ x
    (fun m k => if k < 3 * m then deriv (chan sim k) d r * scale.get (k % 3) else x.get k)
    (by simp) ?_ k
  intro i _ e he k
  simp only [forLoop_three, Buf.get_set, he]
  have h0 : (3 * i + 0) % 3 = 0 := by omega
  have h1 : (3 * i + 1) % 3 = 1 := by omega
  have h2 : (3 * i + 2) % 3 = 2 := by omega
  split_ifs <;> first | rfl | omega | (subst_vars; simp only [h0, h1, h2])

/-- Regrouping of a sum over the `3*n` coordinates by dimension. -/
theorem sum_by_dimension (n j : Nat) (hj : j < 3) (f : Nat → K) :
    ∑ k in Finset.range (3 * n), (if k % 3 = j then f k else 0)
      = ∑ i in Finset.range n, f (3 * i + j) := by
  induction n with
  | zero => simp
  | succ n ih =>
    have e : 3 * (n + 1) = 3 * n + 1 + 1 + 1 := by ring
    rw [e, Finset.sum_range_succ, Finset.sum_range_succ, Finset.sum_range_succ, ih,
      Finset.sum_range_succ]
    have h0 : (3 * n) % 3 = 0 := by omega
    have h1 : (3 * n + 1) % 3 = 1 := by omega
    have h2 : (3 * n + 1 + 1) % 3 = 2 := by omega
    rw [h0, h1, h2]
    interval_cases j <;> simp

/-- An in-place loop `for i < n: a[i] = F i a[i]` maps every entry below `n` once. -/
theorem update_get (n : Nat) (F : Nat → K → K) (a : Buf K) (k : Nat) :
    (forLoop n (fun i (a : Buf K) => a.set i (F i (a.get i))) a).get k
      = if k < n then F k (a.get k) else a.get k := by
  refine forLoop_get n _ a (fun m k => if k < m then F k (a.get k) else a.get k) (by simp) ?_ k
  intro j _ e he k
  rw [Buf.get_set, he k, he j]
  dsimp only
  split_ifs <;> first | rfl | omega | (subst_vars; rfl)

theorem sum_loop (n : Nat) (y : Nat → K) :
    forLoop n (fun i (nm : K) => nm + y i) 0 = ∑ k in Finset.range n, y k := by
  induction n with
  | zero => simp [forLoop]
  | succ n ih => rw [forLoop_succ, ih, Finset.sum_range_succ]

theorem ncom_get (m : Nat) (natoms : Nat) (x : Buf K) (j : Nat) :
    (forLoop m (fun i (ncom : Buf K) =>
      ncom.set (i % 3) (ncom.get (i % 3) + x.get i / (natoms : K))) ⟨fun _ => 0⟩).get j
      = ∑ k in Finset.range m, (if k % 3 = j then x.get k / (natoms : K) else 0) := by
  refine forLoop_get m _ _
    (fun m j => ∑ k in Finset.range m, (if k % 3 = j then x.get k / (natoms : K) else 0))
    (by simp) ?_ j
  intro i _ e he j
  rw [Buf.get_set, he j, he (i % 3)]
  dsimp only
  rw [Finset.sum_range_succ]
  split_ifs with h1 h2 h2
  · subst h1; simp
  · exact absurd h1.symm h2
  · exact absurd h2.symm h1
  · simp

theorem ncom_centre (natoms : Nat) (x : Buf K) (j : Nat) (hj : j < 3) :
    (forLoop (3 * natoms) (fun i (ncom : Buf K) =>
      ncom.set (i % 3) (ncom.get (i % 3) + x.get i / (natoms : K))) ⟨fun _ => 0⟩).get j
      = centre natoms x.get j := by
  rw [ncom_get, sum_by_dimension natoms j hj (fun k => x.get k / (natoms : K)), centre,
    Finset.sum_div]

/-- The value of `norm_mag` that the tangent block computes: the square root of the sum of
the squares of the centred entries. -/
theorem tangent_norm (sqrt : K → K) (natoms : Nat) (x : Buf K) :
    (tangent sqrt natoms x).2
      = sqrt (∑ k in Finset.range (3 * natoms), com_removed natoms x.get k ^ 2) := by
  unfold tangent
  dsimp only
  rw [sum_loop (3 * natoms)]
  congr 1
  apply Finset.sum_congr rfl
  intro k hk
  have hk3 : k < 3 * natoms := Finset.mem_range.mp hk
  rw [update_get (3 * natoms) (fun i v => v - _) x k, if_pos hk3]
  rw [ncom_centre natoms x (k % 3) (Nat.mod_lt _ (by norm_num)), sq, com_removed]

/-- The entries of `x` that the tangent block leaves: the centred entries over
`norm_mag`. -/
theorem tangent_get (sqrt : K → K) (natoms : Nat) (x : Buf K) (k : Nat)
    (hk : k < 3 * natoms) :
    (tangent sqrt natoms x).1.get k
      = com_removed natoms x.get k / (tangent sqrt natoms x).2 := by
  unfold tangent
  dsimp only
  rw [update_get (3 * natoms) (fun _ v => v / _) _ k, if_pos hk]
  rw [update_get (3 * natoms) (fun i v => v - _) x k, if_pos hk]
  rw [ncom_centre natoms x (k % 3) (Nat.mod_lt _ (by norm_num)), com_removed]

theorem com_removed_congr (natoms : Nat) (g h : Nat → K)
    (hgh : ∀ k, k < 3 * natoms → g k = h k) (k : Nat) (hk : k < 3 * natoms) :
    com_removed natoms g k = com_removed natoms h k := by
  unfold com_removed centre
  rw [hgh k hk]
  congr 2
  apply Finset.sum_congr rfl
  intro i hi
  have hi2 : i < natoms := Finset.mem_range.mp hi
  have : k % 3 < 3 := Nat.mod_lt _ (by norm_num)
  exact hgh _ (by omega)

/-- The centred field sums to zero over the atoms in every dimension. -/
theorem com_removed_sum (natoms : Nat) (hn : 1 ≤ natoms) (g : Nat → K) (j : Nat) (hj : j < 3) :
    ∑ i in Finset.range natoms, com_removed natoms g (3 * i + j) = 0 := by
  unfold com_removed
  have hm : ∀ i, (3 * i + j) % 3 = j := fun i => by omega
  simp only [hm, Finset.sum_sub_distrib, Finset.sum_const, Finset.card_range, nsmul_eq_mul]
  unfold centre
  have hne : (natoms : K) ≠ 0 := by
    have : (0 : K) < (natoms : K) := by exact_mod_cast hn
    exact ne_of_gt this
  rw [mul_div_cancel₀ _ hne, sub_self]

theorem scatter_tangent_log (O : Lammps K) (deriv : spline K → Int → K → K) (sqrt : K → K)
    (r : K) (s : LAMMPSSimulator K) :
    ∃ l, (scatter_tangent O deriv sqrt r s).1.session.log = s.session.log ++ l
      ∧ ∀ j, j < 3 → EngineCall.scatter ("d_n" ++ xyz j) 1
          ((List.range s.sim.natoms).map (fun i =>
            (tangent sqrt s.sim.natoms (fill_x deriv s.sim s.scale r 1 s.sim.x)).1.get
              (3 * i + j))) ∈ l := by
  unfold scatter_tangent
  simp only [forLoop_three, scatter_log, run_commands_log, Nat.mul_one, fill_toList,
    List.append_assoc]
  refine ⟨_, rfl, ?_⟩
  intro j hj
  interval_cases j <;> simp

omit [LinearOrderedField K] in
theorem declare_fix_log (O : Lammps K) (s : LAMMPSSimulator K) :
    ∃ l, (declare_fix O s).session.log = s.session.log ++ l := by
  unfold declare_fix
  split_ifs
  · exact ⟨_, run_commands_log _ _ _ _ _⟩
  · exact ⟨[], by simp⟩

omit [LinearOrderedField K] in
theorem declare_compute_log (O : Lammps K) (s : LAMMPSSimulator K) :
    ∃ l, (declare_compute O s).session.log = s.session.log ++ l := by
  unfold declare_compute
  split_ifs
  · exact ⟨_, run_commands_log _ _ _ _ _⟩
  · exact ⟨[], by simp⟩

theorem scatter_path_log (O : Lammps K) (deriv : spline K → Int → K → K) (r : K)
    (s : LAMMPSSimulator K) :
    ∃ l, (scatter_path O deriv r s).session.log = s.session.log ++ l := by
  unfold scatter_path
  simp only [forLoop_three, scatter_log, List.append_assoc]
  exact ⟨_, rfl⟩

theorem rescale_cell_log (C : Text K) (O : Lammps K) (T : K) (s : LAMMPSSimulator K) :
    ∃ l, (rescale_cell C O T s).session.log = s.session.log ++ l :=
  ⟨_, run_commands_log _ _ _ _ _⟩

omit [LinearOrderedField K] in
theorem declare_fix_frame (O : Lammps K) (s : LAMMPSSimulator K) :
    (declare_fix O s).sim = s.sim ∧ (declare_fix O s).scale = s.scale
      ∧ (declare_fix O s).parser = s.parser ∧ (declare_fix O s).results = s.results := by
  unfold declare_fix
  split_ifs <;> exact ⟨rfl, rfl, rfl, rfl⟩

omit [LinearOrderedField K] in
theorem declare_compute_frame (O : Lammps K) (s : LAMMPSSimulator K) :
    (declare_compute O s).sim = s.sim ∧ (declare_compute O s).scale = s.scale
      ∧ (declare_compute O s).parser = s.parser ∧ (declare_compute O s).results = s.results := by
  unfold declare_compute
  split_ifs <;> exact ⟨rfl, rfl, rfl, rfl⟩

/-- What `populate` returns and scatters, in terms of the state after `rescale_cell`. -/
theorem populate_core_tangent (C : Text K) (O : Lammps K) (deriv : spline K → Int → K → K)
    (sqrt : K → K) (r T : K) (s : LAMMPSSimulator K) :
    ∃ (x : Buf K) (l : List (EngineCall K)),
      (∀ k, k < 3 * s.sim.natoms →
        x.get k = scaled_deriv deriv s.sim (rescale_cell C O T s).scale r k)
      ∧ (populate_core C O deriv sqrt r T s).2 = (tangent sqrt s.sim.natoms x).2
      ∧ (populate_core C O deriv sqrt r T s).1.sim.x = (tangent sqrt s.sim.natoms x).1
      ∧ (populate_core C O deriv sqrt r T s).1.session.log = s.session.log ++ l
      ∧ ∀ j, j < 3 → EngineCall.scatter ("d_n" ++ xyz j) 1
          ((List.range s.sim.natoms).map (fun i =>
            (tangent sqrt s.sim.natoms x).1.get (3 * i + j))) ∈ l := by
  obtain ⟨l1, h1⟩ := rescale_cell_log C O T s
  obtain ⟨l2, h2⟩ := declare_fix_log O (rescale_cell C O T s)
  obtain ⟨l3, h3⟩ := scatter_path_log O deriv r (declare_fix O (rescale_cell C O T s))
  obtain ⟨l4, h4, hev⟩ := scatter_tangent_log O deriv sqrt r
    (scatter_path O deriv r (declare_fix O (rescale_cell C O T s)))
  obtain ⟨l5, h5⟩ := declare_compute_log O (scatter_tangent O deriv sqrt r
    (scatter_path O deriv r (declare_fix O (rescale_cell C O T s)))).1
  have hf := declare_fix_frame O (rescale_cell C O T s)
  have hsim : (scatter_path O deriv r (declare_fix O (rescale_cell C O T s))).sim.natoms
      = s.sim.natoms := by
    show (declare_fix O (rescale_cell C O T s)).sim.natoms = s.sim.natoms
    rw [hf.1]; rfl
  have hpath : (scatter_path O deriv r (declare_fix O (rescale_cell C O T s))).sim.pathway
      = s.sim.pathway := by
    show (declare_fix O (rescale_cell C O T s)).sim.pathway = s.sim.pathway
    rw [hf.1]; rfl
  have hscale : (scatter_path O deriv r (declare_fix O (rescale_cell C O T s))).scale
      = (rescale_cell C O T s).scale := hf.2.1
  rw [hsim] at hev
  refine ⟨fill_x deriv (scatter_path O deriv r (declare_fix O (rescale_cell C O T s))).sim
      (scatter_path O deriv r (declare_fix O (rescale_cell C O T s))).scale r 1
      (scatter_path O deriv r (declare_fix O (rescale_cell C O T s))).sim.x,
    l1 ++ l2 ++ l3 ++ l4 ++ l5, ?_, ?_, ?_, ?_, ?_⟩
  · intro k hk
    rw [fill_x_get, hsim, if_pos hk, hscale]
    unfold scaled_deriv chan
    rw [hpath]
  · show (tangent sqrt (scatter_path O deriv r (declare_fix O (rescale_cell C O T s))).sim.natoms
      _).2 = _
    rw [hsim]
  · show (declare_compute O _).sim.x = _
    rw [(declare_compute_frame O _).1]
    show (tangent sqrt (scatter_path O deriv r (declare_fix O (rescale_cell C O T s))).sim.natoms
      _).1 = _
    rw [hsim]
  · show (declare_compute O _).session.log = _
    rw [h5, h4, h3, h2, h1]
    simp only [List.append_assoc]
  · intro j hj
    simp only [List.mem_append]
    exact Or.inl (Or.inr (hev j hj))

end TangentProofs

/-! ### populate: the tangent over the reals -/

section TangentReal

/-- C18. For at least one atom, when the centre-of-mass-removed scaled first derivative
`c` of the path at `r` is not the zero vector, `populate` returns `norm_mag` equal to the
Euclidean norm of `c`, scatters as `d_nx`, `d_ny`, `d_nz` the components `c / norm_mag`
(which it also leaves in `x`), and that field sums to zero over the atoms in each
dimension and has Euclidean norm 1 over its `3*natoms` components. -/
theorem populate_tangent_normalised (C : Text ℝ) (O : Lammps ℝ)
    (deriv : spline ℝ → Int → ℝ → ℝ) (r T : ℝ) (s : LAMMPSSimulator ℝ)
    (hn : 1 ≤ s.sim.natoms) (hlen : 3 * s.sim.natoms ≤ s.sim.pathway.length)
    (c : Nat → ℝ)
    (hc : c = com_removed s.sim.natoms
      (scaled_deriv deriv s.sim (rescale_cell C O T s).scale r))
    (hne : ∃ k, k < 3 * s.sim.natoms ∧ c k ≠ 0) :
    ∃ s1 norm_mag,
      populate C O deriv Real.sqrt r T s = some (s1, norm_mag)
      ∧ norm_mag = Real.sqrt (∑ k in Finset.range (3 * s.sim.natoms), c k ^ 2)
      ∧ (∀ j, j < 3 → EngineCall.scatter ("d_n" ++ xyz j) 1
            ((List.range s.sim.natoms).map (fun i => c (3 * i + j) / norm_mag))
          ∈ s1.session.log.drop s.session.log.length)
      ∧ (∀ k, k < 3 * s.sim.natoms → s1.sim.x.get k = c k / norm_mag)
      ∧ (∀ j, j < 3 → ∑ i in Finset.range s.sim.natoms, c (3 * i + j) / norm_mag = 0)
      ∧ ∑ k in Finset.range (3 * s.sim.natoms), (c k / norm_mag) ^ 2 = 1 := by
  obtain ⟨x, l, hx, hnm, hx1, hlog, hev⟩ := populate_core_tangent C O deriv Real.sqrt r T s
  have hcx : ∀ k, k < 3 * s.sim.natoms → com_removed s.sim.natoms x.get k = c k := by
    intro k hk
    rw [hc]
    exact com_removed_congr s.sim.natoms _ _ hx k hk
  have hnorm : (tangent Real.sqrt s.sim.natoms x).2
      = Real.sqrt (∑ k in Finset.range (3 * s.sim.natoms), c k ^ 2) := by
    rw [tangent_norm]
    congr 1
    exact Finset.sum_congr rfl (fun k hk => by rw [hcx k (Finset.mem_range.mp hk)])
  have hget : ∀ k, k < 3 * s.sim.natoms →
      (tangent Real.sqrt s.sim.natoms x).1.get k
        = c k / (populate_core C O deriv Real.sqrt r T s).2 := by
    intro k hk
    rw [tangent_get _ _ _ _ hk, hcx k hk, hnm]
  refine ⟨(populate_core C O deriv Real.sqrt r T s).1,
    (populate_core C O deriv Real.sqrt r T s).2,
    populate_eq_core C O deriv Real.sqrt r T s hlen, by rw [hnm, hnorm], ?_, ?_, ?_, ?_⟩
  · intro j hj
    rw [hlog, List.drop_left]
    have e : (List.range s.sim.natoms).map
        (fun i => c (3 * i + j) / (populate_core C O deriv Real.sqrt r T s).2)
        = (List.range s.sim.natoms).map
            (fun i => (tangent Real.sqrt s.sim.natoms x).1.get (3 * i + j)) := by
      apply List.map_congr_left
      intro i hi
      have hi2 : i < s.sim.natoms := List.mem_range.mp hi
      rw [hget _ (by omega)]
    rw [e]
    exact hev j hj
  · intro k hk
    rw [hx1, hget k hk]
  · intro j hj
    rw [← Finset.sum_div, hc, com_removed_sum s.sim.natoms hn _ j hj, zero_div]
  · have hS : 0 < ∑ k in Finset.range (3 * s.sim.natoms), c k ^ 2 := by
      obtain ⟨k, hk, hck⟩ := hne
      exact Finset.sum_pos' (fun _ _ => sq_nonneg _)
        ⟨k, Finset.mem_range.mpr hk, by positivity⟩
    simp only [div_pow]
    rw [← Finset.sum_div, hnm, hnorm, Real.sq_sqrt (le_of_lt hS), div_self (ne_of_gt hS)]

theorem populate_tangent_normalised_witness :
    1 ≤ (lsimEx ℝ).sim.natoms
    ∧ 3 * (lsimEx ℝ).sim.natoms ≤ (lsimEx ℝ).sim.pathway.length
    ∧ (∃ k, k < 3 * (lsimEx ℝ).sim.natoms
        ∧ com_removed (lsimEx ℝ).sim.natoms (scaled_deriv (derivLine ℝ) (lsimEx ℝ).sim
            (rescale_cell (textEx ℝ) (lammpsEx ℝ) 0 (lsimEx ℝ)).scale 0) k ≠ 0)
    ∧ ∃ s1 norm_mag,
      populate (textEx ℝ) (lammpsEx ℝ) (derivLine ℝ) Real.sqrt 0 0 (lsimEx ℝ)
        = some (s1, norm_mag)
      ∧ norm_mag = Real.sqrt (∑ k in Finset.range (3 * (lsimEx ℝ).sim.natoms),
          com_removed (lsimEx ℝ).sim.natoms (scaled_deriv (derivLine ℝ) (lsimEx ℝ).sim
            (rescale_cell (textEx ℝ) (lammpsEx ℝ) 0 (lsimEx ℝ)).scale 0) k ^ 2)
      ∧ (∀ j, j < 3 → EngineCall.scatter ("d_n" ++ xyz j) 1
            ((List.range (lsimEx ℝ).sim.natoms).map (fun i =>
              com_removed (lsimEx ℝ).sim.natoms (scaled_deriv (derivLine ℝ) (lsimEx ℝ).sim
                (rescale_cell (textEx ℝ) (lammpsEx ℝ) 0 (lsimEx ℝ)).scale 0) (3 * i + j)
              / norm_mag))
          ∈ s1.session.log.drop (lsimEx ℝ).session.log.length)
      ∧ (∀ k, k < 3 * (lsimEx ℝ).sim.natoms → s1.sim.x.get k
          = com_removed (lsimEx ℝ).sim.natoms (scaled_deriv (derivLine ℝ) (lsimEx ℝ).sim
              (rescale_cell (textEx ℝ) (lammpsEx ℝ) 0 (lsimEx ℝ)).scale 0) k / norm_mag)
      ∧ (∀ j, j < 3 → ∑ i in Finset.range (lsimEx ℝ).sim.natoms,
          com_removed (lsimEx ℝ).sim.natoms (scaled_deriv (derivLine ℝ) (lsimEx ℝ).sim
            (rescale_cell (textEx ℝ) (lammpsEx ℝ) 0 (lsimEx ℝ)).scale 0) (3 * i + j)
          / norm_mag = 0)
      ∧ ∑ k in Finset.range (3 * (lsimEx ℝ).sim.natoms),
          (com_removed (lsimEx ℝ).sim.natoms (scaled_deriv (derivLine ℝ) (lsimEx ℝ).sim
            (rescale_cell (textEx ℝ) (lammpsEx ℝ) 0 (lsimEx ℝ)).scale 0) k / norm_mag) ^ 2
          = 1 :=
  have h3 : ∃ k, k < 3 * (lsimEx ℝ).sim.natoms
      ∧ com_removed (lsimEx ℝ).sim.natoms (scaled_deriv (derivLine ℝ) (lsimEx ℝ).sim
          (rescale_cell (textEx ℝ) (lammpsEx ℝ) 0 (lsimEx ℝ)).scale 0) k ≠ 0 := by
    refine ⟨0, by simp [lsimEx], ?_⟩
    simp [com_removed, centre, scaled_deriv, chan, lsimEx, pathwayEx, derivLine, rescale_cell,
      expansion, textEx, parserEx, Parser.get, Buf.set, Finset.sum_range_succ]
    norm_num
  ⟨by simp [lsimEx], by simp [lsimEx, pathwayEx], h3,
   populate_tangent_normalised (textEx ℝ) (lammpsEx ℝ) (derivLine ℝ) 0 0 (lsimEx ℝ)
     (by simp [lsimEx]) (by simp [lsimEx, pathwayEx]) _ rfl h3⟩

end TangentReal

/-! ### sample -/

section SampleProofs

variable {K : Type} [LinearOrderedField K]

theorem expansion_zero (C : Text K) (P : Parser K) (newscale : Buf K) (a : Nat) (ha : a < 3) :
    (expansion C P 0 newscale).get a = 1 := by
  rw [expansion_get C P 0 newscale a ha]
  split_ifs <;> simp

theorem rescale_cell_scale (C : Text K) (O : Lammps K) (T : K) (s : LAMMPSSimulator K)
    (a : Nat) (ha : a < 3) :
    (rescale_cell C O T s).scale.get a = (expansion C s.parser T ⟨fun _ => 0⟩).get a := by
  unfold rescale_cell
  simp only [Buf.get_set]
  interval_cases a <;> simp

/-- What `populate` leaves untouched, and the scale it leaves. -/
theorem populate_core_frame (C : Text K) (O : Lammps K) (deriv : spline K → Int → K → K)
    (sqrt : K → K) (r T : K) (s : LAMMPSSimulator K) :
    (populate_core C O deriv sqrt r T s).1.parser = s.parser
      ∧ (populate_core C O deriv sqrt r T s).1.results = s.results
      ∧ (populate_core C O deriv sqrt r T s).1.sim.natoms = s.sim.natoms
      ∧ (populate_core C O deriv sqrt r T s).1.scale = (rescale_cell C O T s).scale := by
  have hc := declare_compute_frame O (scatter_tangent O deriv sqrt r
    (scatter_path O deriv r (declare_fix O (rescale_cell C O T s)))).1
  have hf := declare_fix_frame O (rescale_cell C O T s)
  unfold populate_core
  dsimp only
  refine ⟨?_, ?_, ?_, ?_⟩
  · rw [hc.2.2.1]
    show (declare_fix O (rescale_cell C O T s)).parser = s.parser
    rw [hf.2.2.1]; rfl
  · rw [hc.2.2.2]
    show (declare_fix O (rescale_cell C O T s)).results = s.results
    rw [hf.2.2.2]; rfl
  · rw [hc.1]
    show (declare_fix O (rescale_cell C O T s)).sim.natoms = s.sim.natoms
    rw [hf.1]; rfl
  · rw [hc.2.1]
    show (declare_fix O (rescale_cell C O T s)).scale = (rescale_cell C O T s).scale
    rw [hf.2.1]

theorem sample_finish_frame (C : Text K) (O : Lammps K) (deriv : spline K → Int → K → K)
    (sqrt : K → K) (r : K) (s : LAMMPSSimulator K) :
    (sample_finish C O deriv sqrt r s).results = s.results
      ∧ ∀ a, a < 3 → (sample_finish C O deriv sqrt r s).scale.get a = 1 := by
  unfold sample_finish
  dsimp only
  refine ⟨(populate_core_frame C O deriv sqrt r 0 _).2.1, fun a ha => ?_⟩
  rw [(populate_core_frame C O deriv sqrt r 0 _).2.2.2, rescale_cell_scale _ _ _ _ a ha,
    expansion_zero _ _ _ a ha]

theorem sample_deviation_results (E : Engine K) (O : Lammps K)
    (deriv : spline K → Int → K → K) (sqrt : K → K) (r max_disp : K)
    (s : LAMMPSSimulator K) (dev : Buf K) (key : String) (hkey : key ≠ "MaxDev") :
    (sample_deviation E O deriv sqrt r max_disp s dev).1.results key = s.results key := by
  unfold sample_deviation
  split_ifs <;> simp [set_result, Function.update_noteq hkey]

theorem sample_jump_results (sqrt : K → K) (s : LAMMPSSimulator K) (dev : Buf K) :
    (sample_jump sqrt s dev).1.results "MaxJump"
        = some (sqrt (max_jump s.parser.postDump s.sim.natoms dev).2)
      ∧ (sample_jump sqrt s dev).1.results "Valid"
        = some (if sqrt (max_jump s.parser.postDump s.sim.natoms dev).2
            < s.parser.maxjump_thresh then 1 else 0)
      ∧ ∀ key, key ≠ "MaxJump" → key ≠ "Valid" →
          (sample_jump sqrt s dev).1.results key = s.results key := by
  unfold sample_jump
  refine ⟨?_, ?_, ?_⟩
  · simp [set_result, Function.update_apply]
  · simp [set_result, Function.update_apply]
  · intro key h1 h2
    simp [set_result, Function.update_noteq h1, Function.update_noteq h2]

omit [LinearOrderedField K] in
theorem default_overdamped_frame (s : LAMMPSSimulator K) :
    (default_overdamped s).parser.postDump = s.parser.postDump
      ∧ (default_overdamped s).parser.maxjump_thresh = s.parser.maxjump_thresh
      ∧ (default_overdamped s).sim = s.sim
      ∧ (default_overdamped s).session.log = s.session.log := by
  unfold default_overdamped
  split_ifs <;> exact ⟨rfl, rfl, rfl, rfl⟩

theorem sample_prepare_frame (C : Text K) (O : Lammps K) (deriv : spline K → Int → K → K)
    (sqrt : K → K) (r : K) (s : LAMMPSSimulator K) :
    (sample_prepare C O deriv sqrt r s).1.parser.postDump = s.parser.postDump
      ∧ (sample_prepare C O deriv sqrt r s).1.parser.maxjump_thresh = s.parser.maxjump_thresh
      ∧ (sample_prepare C O deriv sqrt r s).1.sim.natoms = s.sim.natoms := by
  have hd := default_overdamped_frame s
  unfold sample_prepare
  dsimp only
  refine ⟨?_, ?_, ?_⟩
  · rw [(populate_core_frame C O deriv sqrt r 0 _).1, hd.1]
  · rw [(populate_core_frame C O deriv sqrt r 0 _).1, hd.2.1]
  · rw [(populate_core_frame C O deriv sqrt r 0 _).2.2.1, hd.2.2.1]

omit [LinearOrderedField K] in
theorem sample_fix_frame (C : Text K) (O : Lammps K) (T : K) (s : LAMMPSSimulator K) :
    (sample_fix C O T s).parser.postDump = s.parser.postDump
      ∧ (sample_fix C O T s).parser.maxjump_thresh = s.parser.maxjump_thresh
      ∧ (sample_fix C O T s).sim.natoms = s.sim.natoms := by
  unfold sample_fix
  dsimp only
  split_ifs <;> exact ⟨rfl, rfl, rfl⟩

theorem sample_thermalize_frame (O : Lammps K) (BOLTZ : K) (overdamped : Int)
    (s : LAMMPSSimulator K) :
    (sample_thermalize O BOLTZ overdamped s).parser = s.parser
      ∧ (sample_thermalize O BOLTZ overdamped s).sim.natoms = s.sim.natoms :=
  ⟨rfl, rfl⟩

theorem sample_average_frame (O : Lammps K) (BOLTZ : K) (overdamped : Int)
    (s : LAMMPSSimulator K) :
    (sample_average O BOLTZ overdamped s).parser = s.parser
      ∧ (sample_average O BOLTZ overdamped s).sim.natoms = s.sim.natoms :=
  ⟨rfl, rfl⟩

theorem sample_force_frame (O : Lammps K) (norm_mag : K) (s : LAMMPSSimulator K) :
    (sample_force O norm_mag s).parser = s.parser
      ∧ (sample_force O norm_mag s).sim.natoms = s.sim.natoms :=
  ⟨rfl, rfl⟩

theorem sample_gather_frame (E : Engine K) (O : Lammps K) (deriv : spline K → Int → K → K)
    (r : K) (s : LAMMPSSimulator K) (dev : Buf K) :
    (sample_gather E O deriv r s dev).1.parser = s.parser
      ∧ (sample_gather E O deriv r s dev).1.sim.natoms = s.sim.natoms
      ∧ (sample_gather E O deriv r s dev).1.results = s.results :=
  ⟨rfl, rfl, rfl⟩

theorem sample_before_jump_frame (C : Text K) (E : Engine K) (O : Lammps K)
    (deriv : spline K → Int → K → K) (sqrt : K → K) (BOLTZ : K) (r T : K)
    (s : LAMMPSSimulator K) (dev : Buf K) :
    (sample_before_jump C E O deriv sqrt BOLTZ r T s dev).1.parser.postDump = s.parser.postDump
      ∧ (sample_before_jump C E O deriv sqrt BOLTZ r T s dev).1.parser.maxjump_thresh
          = s.parser.maxjump_thresh
      ∧ (sample_before_jump C E O deriv sqrt BOLTZ r T s dev).1.sim.natoms = s.sim.natoms := by
  have hp := sample_prepare_frame C O deriv sqrt r s
  have hc := populate_core_frame C O deriv sqrt r T (sample_prepare C O deriv sqrt r s).1
  have hx := sample_fix_frame C O T
    (populate_core C O deriv sqrt r T (sample_prepare C O deriv sqrt r s).1).1
  unfold sample_before_jump sample_before_force
  dsimp only
  rw [(sample_gather_frame E O deriv r _ dev).1, (sample_gather_frame E O deriv r _ dev).2.1,
    (sample_force_frame O _ _).1, (sample_force_frame O _ _).2,
    (sample_average_frame O BOLTZ _ _).1, (sample_average_frame O BOLTZ _ _).2,
    (sample_thermalize_frame O BOLTZ _ _).1, (sample_thermalize_frame O BOLTZ _ _).2,
    hx.1, hx.2.1, hx.2.2, hc.1, hc.2.2.1]
  exact hp

theorem sample_eq_body (C : Text K) (E : Engine K) (O : Lammps K)
    (deriv : spline K → Int → K → K) (sqrt : K → K) (BOLTZ : K) (s : LAMMPSSimulator K)
    (params : String → Option K) (dev : Buf K) (r T : K)
    (hr : params "ReactionCoordinate" = some r) (hT : params "Temperature" = some T)
    (hlen : 3 * s.sim.natoms ≤ s.sim.pathway.length) :
    sample C E O deriv sqrt BOLTZ s params dev
      = some (sample_body C E O deriv sqrt BOLTZ r T (sample_clear s) dev) := by
  unfold sample
  simp only [hr, hT]
  rw [if_neg]
  show ¬ s.sim.pathway.length < 3 * s.sim.natoms
  omega

/-- The results that a completed call returns are those after the `MaxDev` block; the scale
it returns is the unit scale. -/
theorem sample_body_frame (C : Text K) (E : Engine K) (O : Lammps K)
    (deriv : spline K → Int → K → K) (sqrt : K → K) (BOLTZ : K) (r T : K)
    (s : LAMMPSSimulator K) (dev : Buf K) (key : String) (hkey : key ≠ "MaxDev") :
    (sample_body C E O deriv sqrt BOLTZ r T s dev).1.results key
      = (sample_jump sqrt (sample_before_jump C E O deriv sqrt BOLTZ r T s dev).1
          (sample_before_jump C E O deriv sqrt BOLTZ r T s dev).2).1.results key := by
  unfold sample_body
  dsimp only
  rw [(sample_finish_frame C O deriv sqrt r _).1, sample_deviation_results _ _ _ _ _ _ _ _ _ hkey]

/-- C12. If `ReactionCoordinate` or `Temperature` is missing from the parameters, `sample`
returns at once: no engine call is made (the list of calls is unchanged), the scale
vector, the deviation buffer, the path data and the declaration flags are unchanged, and
the results map is empty. -/
theorem sample_missing_parameter_aborts (C : Text K) (E : Engine K) (O : Lammps K)
    (deriv : spline K → Int → K → K) (sqrt : K → K) (BOLTZ : K) (s : LAMMPSSimulator K)
    (params : String → Option K) (dev : Buf K)
    (hmiss : params "ReactionCoordinate" = none ∨ params "Temperature" = none) :
    ∃ s1, sample C E O deriv sqrt BOLTZ s params dev = some (s1, dev)
      ∧ s1.session.log = s.session.log
      ∧ s1.scale = s.scale
      ∧ s1.results = (fun _ => none)
      ∧ s1.sim = s.sim ∧ s1.parser = s.parser
      ∧ s1.made_fix = s.made_fix ∧ s1.made_compute = s.made_compute := by
  unfold sample
  cases hR : params "ReactionCoordinate" with
  | none =>
    dsimp only
    split_ifs <;> exact ⟨_, rfl, rfl, rfl, rfl, rfl, rfl, rfl, rfl⟩
  | some r =>
    have hT : params "Temperature" = none := by
      rcases hmiss with h | h
      · rw [hR] at h; exact absurd h (by simp)
      · exact h
    simp only [hT]
    split_ifs <;> exact ⟨_, rfl, rfl, rfl, rfl, rfl, rfl, rfl, rfl⟩

theorem sample_missing_parameter_aborts_witness :
    ((paramsNoTemperature ℚ) "ReactionCoordinate" = none
      ∨ (paramsNoTemperature ℚ) "Temperature" = none)
    ∧ ∃ s1, sample (textEx ℚ) (engineEx ℚ) (lammpsEx ℚ) (derivLine ℚ) sqrtEx 1 (lsimEx ℚ)
          (paramsNoTemperature ℚ) (devEx ℚ) = some (s1, devEx ℚ)
      ∧ s1.session.log = (lsimEx ℚ).session.log
      ∧ s1.scale = (lsimEx ℚ).scale
      ∧ s1.results = (fun _ => none)
      ∧ s1.sim = (lsimEx ℚ).sim ∧ s1.parser = (lsimEx ℚ).parser
      ∧ s1.made_fix = (lsimEx ℚ).made_fix ∧ s1.made_compute = (lsimEx ℚ).made_compute :=
  ⟨Or.inr (by simp [paramsNoTemperature]),
   sample_missing_parameter_aborts (textEx ℚ) (engineEx ℚ) (lammpsEx ℚ) (derivLine ℚ) sqrtEx 1
     (lsimEx ℚ) (paramsNoTemperature ℚ) (devEx ℚ) (Or.inr (by simp [paramsNoTemperature]))⟩

/-- C13. A call of `sample` that runs to its end returns `Valid = 1` exactly when the
`MaxJump` it returns is strictly below `maxjump_thresh`, and `Valid = 0` otherwise; a
`MaxJump` equal to the threshold gives `Valid = 0`. -/
theorem sample_valid_iff_below_threshold (C : Text K) (E : Engine K) (O : Lammps K)
    (deriv : spline K → Int → K → K) (sqrt : K → K) (BOLTZ : K) (s : LAMMPSSimulator K)
    (params : String → Option K) (dev : Buf K) (r T : K)
    (hr : params "ReactionCoordinate" = some r) (hT : params "Temperature" = some T)
    (hlen : 3 * s.sim.natoms ≤ s.sim.pathway.length) :
    ∃ out MaxJump,
      sample C E O deriv sqrt BOLTZ s params dev = some out
      ∧ out.1.results "MaxJump" = some MaxJump
      ∧ (out.1.results "Valid" = some 1 ↔ MaxJump < s.parser.maxjump_thresh)
      ∧ (out.1.results "Valid" = some 0 ↔ ¬ MaxJump < s.parser.maxjump_thresh)
      ∧ (MaxJump = s.parser.maxjump_thresh → out.1.results "Valid" = some 0) := by
  have hj := sample_jump_results sqrt
    (sample_before_jump C E O deriv sqrt BOLTZ r T (sample_clear s) dev).1
    (sample_before_jump C E O deriv sqrt BOLTZ r T (sample_clear s) dev).2
  have hf := sample_before_jump_frame C E O deriv sqrt BOLTZ r T (sample_clear s) dev
  have hth : (sample_clear s).parser.maxjump_thresh = s.parser.maxjump_thresh := rfl
  rw [hf.2.1, hth] at hj
  have h1 := sample_body_frame C E O deriv sqrt BOLTZ r T (sample_clear s) dev "MaxJump"
    (by decide)
  have h2 := sample_body_frame C E O deriv sqrt BOLTZ r T (sample_clear s) dev "Valid"
    (by decide)
  rw [hj.1] at h1
  rw [hj.2.1] at h2
  refine ⟨_, _, sample_eq_body C E O deriv sqrt BOLTZ s params dev r T hr hT hlen, h1, ?_, ?_, ?_⟩
  · rw [h2]
    split_ifs with h <;> simp [h]
  · rw [h2]
    split_ifs with h <;> simp [h]
  · intro he
    rw [h2, if_neg (by rw [he]; exact lt_irrefl _)]

theorem sample_valid_iff_below_threshold_witness :
    (paramsEx ℚ) "ReactionCoordinate" = some 0 ∧ (paramsEx ℚ) "Temperature" = some 0
    ∧ 3 * (lsimEx ℚ).sim.natoms ≤ (lsimEx ℚ).sim.pathway.length
    ∧ ∃ out MaxJump,
      sample (textEx ℚ) (engineEx ℚ) (lammpsEx ℚ) (derivLine ℚ) sqrtEx 1 (lsimEx ℚ)
        (paramsEx ℚ) (devEx ℚ) = some out
      ∧ out.1.results "MaxJump" = some MaxJump
      ∧ (out.1.results "Valid" = some 1 ↔ MaxJump < (lsimEx ℚ).parser.maxjump_thresh)
      ∧ (out.1.results "Valid" = some 0 ↔ ¬ MaxJump < (lsimEx ℚ).parser.maxjump_thresh)
      ∧ (MaxJump = (lsimEx ℚ).parser.maxjump_thresh → out.1.results "Valid" = some 0) :=
  ⟨by simp [paramsEx], by simp [paramsEx], by decide,
   sample_valid_iff_below_threshold (textEx ℚ) (engineEx ℚ) (lammpsEx ℚ) (derivLine ℚ) sqrtEx 1
     (lsimEx ℚ) (paramsEx ℚ) (devEx ℚ) 0 0 (by simp [paramsEx]) (by simp [paramsEx])
     (by decide)⟩

/-- C16. A call of `sample` that runs to its end returns with the scale vector equal to
(1,1,1), whatever the temperature and the expansion coefficients; so a call entered with
unit scale returns with the scale it found. -/
theorem sample_restores_unit_scale (C : Text K) (E : Engine K) (O : Lammps K)
    (deriv : spline K → Int → K → K) (sqrt : K → K) (BOLTZ : K) (s : LAMMPSSimulator K)
    (params : String → Option K) (dev : Buf K) (r T : K)
    (hr : params "ReactionCoordinate" = some r) (hT : params "Temperature" = some T)
    (hlen : 3 * s.sim.natoms ≤ s.sim.pathway.length) :
    ∃ out,
      sample C E O deriv sqrt BOLTZ s params dev = some out
      ∧ (∀ a, a < 3 → out.1.scale.get a = 1)
      ∧ ((∀ a, a < 3 → s.scale.get a = 1) → ∀ a, a < 3 → out.1.scale.get a = s.scale.get a) := by
  have hs : ∀ a, a < 3 →
      (sample_body C E O deriv sqrt BOLTZ r T (sample_clear s) dev).1.scale.get a = 1 := by
    intro a ha
    unfold sample_body
    dsimp only
    exact (sample_finish_frame C O deriv sqrt r _).2 a ha
  exact ⟨_, sample_eq_body C E O deriv sqrt BOLTZ s params dev r T hr hT hlen, hs,
    fun h1 a ha => by rw [hs a ha, h1 a ha]⟩

theorem sample_restores_unit_scale_witness :
    (paramsHot ℚ) "ReactionCoordinate" = some 0 ∧ (paramsHot ℚ) "Temperature" = some 300
    ∧ 3 * (lsimEx ℚ).sim.natoms ≤ (lsimEx ℚ).sim.pathway.length
    ∧ ∃ out,
      sample (textEx ℚ) (engineEx ℚ) (lammpsEx ℚ) (derivLine ℚ) sqrtEx 1 (lsimEx ℚ)
        (paramsHot ℚ) (devEx ℚ) = some out
      ∧ (∀ a, a < 3 → out.1.scale.get a = 1)
      ∧ ((∀ a, a < 3 → (lsimEx ℚ).scale.get a = 1) →
          ∀ a, a < 3 → out.1.scale.get a = (lsimEx ℚ).scale.get a) :=
  ⟨by simp [paramsHot], by simp [paramsHot], by decide,
   sample_restores_unit_scale (textEx ℚ) (engineEx ℚ) (lammpsEx ℚ) (derivLine ℚ) sqrtEx 1
     (lsimEx ℚ) (paramsHot ℚ) (devEx ℚ) 0 300 (by simp [paramsHot]) (by simp [paramsHot])
     (by decide)⟩

theorem atom_disp_eq (d : Buf K) (i : Nat) :
    atom_disp d i = d.get (3 * i) ^ 2 + d.get (3 * i + 1) ^ 2 + d.get (3 * i + 2) ^ 2 := by
  unfold atom_disp
  rw [forLoop_three]
  simp only [Nat.add_zero]
  ring

/-- The loop over the atoms: `max_disp` is the running maximum, from 0, of the squared
lengths taken from the entries as they were before the loop; with `postDump` off the
loop leaves 0 in every entry below `3*natoms`. -/
theorem max_jump_spec (postDump : Bool) (natoms : Nat) (d : Buf K) :
    (max_jump postDump natoms d).2 = forLoop natoms (fun i (m : K) => max (atom_disp d i) m) 0
      ∧ ∀ k, (max_jump postDump natoms d).1.get k
          = if postDump = false ∧ k < 3 * natoms then 0 else d.get k := by
  unfold max_jump
  refine forLoop_inv (fun m (st : Buf K × K) =>
    st.2 = forLoop m (fun i (m : K) => max (atom_disp d i) m) 0
      ∧ ∀ k, st.1.get k = if postDump = false ∧ k < 3 * m then 0 else d.get k) natoms _ _
    ⟨rfl, fun k => by simp⟩ ?_
  intro i _ st hst
  obtain ⟨h2, h1⟩ := hst
  have hread : ∀ j, j < 3 → st.1.get (3 * i + j) = d.get (3 * i + j) := by
    intro j hj
    rw [h1, if_neg (by omega)]
  have ha : atom_disp st.1 i = atom_disp d i := by
    rw [atom_disp_eq, atom_disp_eq]
    have e0 := hread 0 (by norm_num)
    rw [Nat.add_zero] at e0
    rw [e0, hread 1 (by norm_num), hread 2 (by norm_num)]
  refine ⟨?_, ?_⟩
  · dsimp only
    rw [forLoop_succ, ha, h2]
  · intro k
    dsimp only
    cases postDump with
    | true => simp [h1]
    | false =>
      simp only [if_true, forLoop_three, Buf.get_set, h1, true_and]
      split_ifs <;> first | rfl | omega

theorem max_loop_spec (n : Nat) (a : Nat → K) (ha : ∀ i, 0 ≤ a i) :
    (∀ i, i < n → a i ≤ forLoop n (fun i (m : K) => max (a i) m) 0)
      ∧ ((∃ i, i < n ∧ forLoop n (fun i (m : K) => max (a i) m) 0 = a i)
          ∨ (n = 0 ∧ forLoop n (fun i (m : K) => max (a i) m) 0 = 0)) := by
  induction n with
  | zero => exact ⟨fun i hi => absurd hi (Nat.not_lt_zero i), Or.inr ⟨rfl, rfl⟩⟩
  | succ n ih =>
    obtain ⟨hle, hat⟩ := ih
    rw [forLoop_succ]
    refine ⟨fun i hi => ?_, Or.inl ?_⟩
    · rcases Nat.lt_succ_iff_lt_or_eq.mp hi with h | h
      · exact le_trans (hle i h) (le_max_right _ _)
      · rw [h]; exact le_max_left _ _
    · rcases le_total (forLoop n (fun i (m : K) => max (a i) m) 0) (a n) with h | h
      · exact ⟨n, Nat.lt_succ_self n, max_eq_left h⟩
      · rcases hat with ⟨i, hi, he⟩ | ⟨hn, he⟩
        · exact ⟨i, Nat.lt_succ_of_lt hi, by rw [max_eq_right h, he]⟩
        · refine ⟨n, Nat.lt_succ_self n, ?_⟩
          rw [he] at h ⊢
          rw [max_eq_left (ha n)]

theorem sample_force_results (O : Lammps K) (norm_mag : K) (s : LAMMPSSimulator K) :
    (sample_force O norm_mag s).results "aveF"
        = some (O.extract_fix s.session.log "af" 1 0 * norm_mag * (-1))
      ∧ (sample_force O norm_mag s).results "stdF"
        = some (O.extract_fix (s.session.log ++ [EngineCall.extract_fix "af" 1 0]) "af" 1 1
              * norm_mag * norm_mag
            - O.extract_fix s.session.log "af" 1 0 * norm_mag * (-1)
              * (O.extract_fix s.session.log "af" 1 0 * norm_mag * (-1))) := by
  unfold sample_force extract_fix
  constructor <;> simp [set_result, Function.update_apply]

/-- C15. A call of `sample` that runs to its end, with `n` the `norm_mag` that
`populate(r, norm_mag, T)` returned and `m1`, `m2` the values read from outputs 0 and 1 of
the fix `af`, returns `aveF = -(m1*n)` and `stdF = m2*n^2 - aveF^2`, which is
`n^2*(m2 - m1^2)` and so is non-negative whenever `m1^2 ≤ m2`. -/
theorem sample_force_moments (C : Text K) (E : Engine K) (O : Lammps K)
    (deriv : spline K → Int → K → K) (sqrt : K → K) (BOLTZ : K) (s : LAMMPSSimulator K)
    (params : String → Option K) (dev : Buf K) (r T : K)
    (hr : params "ReactionCoordinate" = some r) (hT : params "Temperature" = some T)
    (hlen : 3 * s.sim.natoms ≤ s.sim.pathway.length)
    (n m1 m2 : K)
    (hn : n = (populate_core C O deriv sqrt r T
      (sample_prepare C O deriv sqrt r (sample_clear s)).1).2)
    (hm1 : m1 = O.extract_fix
      (sample_before_force C O deriv sqrt BOLTZ r T (sample_clear s)).1.session.log "af" 1 0)
    (hm2 : m2 = O.extract_fix
      ((sample_before_force C O deriv sqrt BOLTZ r T (sample_clear s)).1.session.log
        ++ [EngineCall.extract_fix "af" 1 0]) "af" 1 1) :
    ∃ out aveF,
      sample C E O deriv sqrt BOLTZ s params dev = some out
      ∧ out.1.results "aveF" = some aveF
      ∧ aveF = -(m1 * n)
      ∧ out.1.results "stdF" = some (m2 * n ^ 2 - aveF ^ 2)
      ∧ m2 * n ^ 2 - aveF ^ 2 = n ^ 2 * (m2 - m1 ^ 2)
      ∧ (m1 ^ 2 ≤ m2 → 0 ≤ m2 * n ^ 2 - aveF ^ 2) := by
  have hres : ∀ key, key ≠ "MaxDev" → key ≠ "MaxJump" → key ≠ "Valid" →
      (sample_body C E O deriv sqrt BOLTZ r T (sample_clear s) dev).1.results key
        = (sample_force O (sample_before_force C O deriv sqrt BOLTZ r T (sample_clear s)).2
            (sample_before_force C O deriv sqrt BOLTZ r T (sample_clear s)).1).results key := by
    intro key h1 h2 h3
    rw [sample_body_frame C E O deriv sqrt BOLTZ r T (sample_clear s) dev key h1,
      (sample_jump_results sqrt _ _).2.2 key h2 h3]
    rfl
  have hnm : (sample_before_force C O deriv sqrt BOLTZ r T (sample_clear s)).2 = n := by
    rw [hn]; rfl
  have hf := sample_force_results O n
    (sample_before_force C O deriv sqrt BOLTZ r T (sample_clear s)).1
  rw [← hm1, ← hm2] at hf
  have ha := hres "aveF" (by decide) (by decide) (by decide)
  have hs := hres "stdF" (by decide) (by decide) (by decide)
  rw [hnm] at ha hs
  rw [hf.1] at ha
  rw [hf.2] at hs
  have e : m2 * n ^ 2 - (-(m1 * n)) ^ 2 = n ^ 2 * (m2 - m1 ^ 2) := by ring
  refine ⟨_, -(m1 * n), sample_eq_body C E O deriv sqrt BOLTZ s params dev r T hr hT hlen,
    ?_, rfl, ?_, e, ?_⟩
  · rw [ha]; congr 1; ring
  · rw [hs]; congr 1; ring
  · intro h
    rw [e]
    exact mul_nonneg (sq_nonneg n) (sub_nonneg.mpr h)

theorem sample_force_moments_witness :
    (paramsHot ℚ) "ReactionCoordinate" = some 0 ∧ (paramsHot ℚ) "Temperature" = some 300
    ∧ 3 * (lsimEx ℚ).sim.natoms ≤ (lsimEx ℚ).sim.pathway.length
    ∧ ∃ out aveF,
      sample (textEx ℚ) (engineEx ℚ) (lammpsEx ℚ) (derivLine ℚ) sqrtEx 1 (lsimEx ℚ)
        (paramsHot ℚ) (devEx ℚ) = some out
      ∧ out.1.results "aveF" = some aveF
      ∧ aveF = -(2 * (populate_core (textEx ℚ) (lammpsEx ℚ) (derivLine ℚ) sqrtEx 0 300
          (sample_prepare (textEx ℚ) (lammpsEx ℚ) (derivLine ℚ) sqrtEx 0
            (sample_clear (lsimEx ℚ))).1).2)
      ∧ out.1.results "stdF" = some (5 * (populate_core (textEx ℚ) (lammpsEx ℚ) (derivLine ℚ)
          sqrtEx 0 300 (sample_prepare (textEx ℚ) (lammpsEx ℚ) (derivLine ℚ) sqrtEx 0
            (sample_clear (lsimEx ℚ))).1).2 ^ 2 - aveF ^ 2)
      ∧ 5 * (populate_core (textEx ℚ) (lammpsEx ℚ) (derivLine ℚ) sqrtEx 0 300
          (sample_prepare (textEx ℚ) (lammpsEx ℚ) (derivLine ℚ) sqrtEx 0
            (sample_clear (lsimEx ℚ))).1).2 ^ 2 - aveF ^ 2
        = (populate_core (textEx ℚ) (lammpsEx ℚ) (derivLine ℚ) sqrtEx 0 300
          (sample_prepare (textEx ℚ) (lammpsEx ℚ) (derivLine ℚ) sqrtEx 0
            (sample_clear (lsimEx ℚ))).1).2 ^ 2 * (5 - 2 ^ 2)
      ∧ ((2 : ℚ) ^ 2 ≤ 5 → 0 ≤ 5 * (populate_core (textEx ℚ) (lammpsEx ℚ) (derivLine ℚ) sqrtEx
          0 300 (sample_prepare (textEx ℚ) (lammpsEx ℚ) (derivLine ℚ) sqrtEx 0
            (sample_clear (lsimEx ℚ))).1).2 ^ 2 - aveF ^ 2) :=
  ⟨by simp [paramsHot], by simp [paramsHot], by decide,
   sample_force_moments (textEx ℚ) (engineEx ℚ) (lammpsEx ℚ) (derivLine ℚ) sqrtEx 1
     (lsimEx ℚ) (paramsHot ℚ) (devEx ℚ) 0 300 (by simp [paramsHot]) (by simp [paramsHot])
     (by decide) _ 2 5 rfl rfl rfl⟩

end SampleProofs

/-! ### The compatibility check and the calls that follow it -/

section CreateProofs

variable {K : Type} [LinearOrderedField K]

theorem populate_core_log (C : Text K) (O : Lammps K) (deriv : spline K → Int → K → K)
    (sqrt : K → K) (r T : K) (s : LAMMPSSimulator K) :
    ∃ l, (populate_core C O deriv sqrt r T s).1.session.log
      = (rescale_cell C O T s).session.log ++ l := by
  obtain ⟨l2, h2⟩ := declare_fix_log O (rescale_cell C O T s)
  obtain ⟨l3, h3⟩ := scatter_path_log O deriv r (declare_fix O (rescale_cell C O T s))
  obtain ⟨l4, h4, _⟩ := scatter_tangent_log O deriv sqrt r
    (scatter_path O deriv r (declare_fix O (rescale_cell C O T s)))
  obtain ⟨l5, h5⟩ := declare_compute_log O (scatter_tangent O deriv sqrt r
    (scatter_path O deriv r (declare_fix O (rescale_cell C O T s)))).1
  refine ⟨l2 ++ l3 ++ l4 ++ l5, ?_⟩
  show (declare_compute O _).session.log = _
  rw [h5, h4, h3, h2]
  simp only [List.append_assoc]

omit [LinearOrderedField K] in
theorem getEnergy_log (O : Lammps K) (P : Parser K) (rank : Nat) (io : Session K) :
    ∃ l, (getEnergy O P rank io).2.log = io.log ++ l := by
  unfold getEnergy
  dsimp only
  split_ifs
  · exact ⟨_, by simp only [run_commands_log, List.append_assoc]; rfl⟩
  · exact ⟨_, by simp only [run_commands_log, List.append_assoc]; rfl⟩

theorem sample_prepare_log (C : Text K) (O : Lammps K) (deriv : spline K → Int → K → K)
    (sqrt : K → K) (r : K) (s : LAMMPSSimulator K) :
    ∃ l, (sample_prepare C O deriv sqrt r s).1.session.log
      = (rescale_cell C O 0 (default_overdamped s)).session.log ++ l := by
  unfold sample_prepare
  dsimp only
  obtain ⟨l2, h2⟩ := run_script_log O (populate_core C O deriv sqrt r 0
    (default_overdamped s)).1.parser (populate_core C O deriv sqrt r 0
    (default_overdamped s)).1.sim.local_rank "PreRun" (populate_core C O deriv sqrt r 0
    (default_overdamped s)).1.session
  obtain ⟨l1, h1⟩ := populate_core_log C O deriv sqrt r 0 (default_overdamped s)
  exact ⟨l1 ++ l2, by rw [h2, h1, List.append_assoc]⟩

theorem populate_core_ext (C : Text K) (O : Lammps K) (deriv : spline K → Int → K → K)
    (sqrt : K → K) (r T : K) (s : LAMMPSSimulator K) :
    ∃ l, (populate_core C O deriv sqrt r T s).1.session.log = s.session.log ++ l := by
  obtain ⟨l1, h1⟩ := populate_core_log C O deriv sqrt r T s
  obtain ⟨l0, h0⟩ := rescale_cell_log C O T s
  exact ⟨l0 ++ l1, by rw [h1, h0, List.append_assoc]⟩

omit [LinearOrderedField K] in
theorem sample_fix_ext (C : Text K) (O : Lammps K) (T : K) (s : LAMMPSSimulator K) :
    ∃ l, (sample_fix C O T s).session.log = s.session.log ++ l := by
  unfold sample_fix
  dsimp only
  split_ifs
  · obtain ⟨l, h⟩ := run_script_log O (s.parser.put "Temperature" (C.to_string T))
      s.sim.local_rank "PreTherm" (run_commands O (s.parser.put "Temperature" (C.to_string T))
        s.sim.local_rank _ (run_commands O (s.parser.put "Temperature" (C.to_string T))
        s.sim.local_rank _ s.session))
    exact ⟨_, by rw [h, run_commands_log, run_commands_log, List.append_assoc,
      List.append_assoc]⟩
  · obtain ⟨l, h⟩ := run_script_log O (s.parser.put "Temperature" (C.to_string T))
      s.sim.local_rank "PreTherm" (run_commands O (s.parser.put "Temperature" (C.to_string T))
        s.sim.local_rank _ s.session)
    exact ⟨_, by rw [h, run_commands_log, List.append_assoc]⟩

theorem sample_thermalize_ext (O : Lammps K) (BOLTZ : K) (overdamped : Int)
    (s : LAMMPSSimulator K) :
    ∃ l, (sample_thermalize O BOLTZ overdamped s).session.log = s.session.log ++ l := by
  obtain ⟨l, h⟩ := getEnergy_log O s.parser s.sim.local_rank s.session
  unfold sample_thermalize extract_fix
  simp only [run_commands_log, h, List.append_assoc]
  exact ⟨_, rfl⟩

theorem sample_average_ext (O : Lammps K) (BOLTZ : K) (overdamped : Int)
    (s : LAMMPSSimulator K) :
    ∃ l, (sample_average O BOLTZ overdamped s).session.log = s.session.log ++ l := by
  unfold sample_average constrained_average extract_fix
  simp only [run_commands_log, List.append_assoc]
  exact ⟨_, rfl⟩

theorem sample_force_ext (O : Lammps K) (norm_mag : K) (s : LAMMPSSimulator K) :
    ∃ l, (sample_force O norm_mag s).session.log = s.session.log ++ l := by
  unfold sample_force extract_fix
  simp only [List.append_assoc]
  exact ⟨_, rfl⟩

theorem sample_gather_ext (E : Engine K) (O : Lammps K) (deriv : spline K → Int → K → K)
    (r : K) (s : LAMMPSSimulator K) (dev : Buf K) :
    ∃ l, (sample_gather E O deriv r s dev).1.session.log = s.session.log ++ l := by
  unfold sample_gather
  simp only [gather_log, run_commands_log, List.append_assoc]
  exact ⟨_, rfl⟩

theorem sample_deviation_ext (E : Engine K) (O : Lammps K) (deriv : spline K → Int → K → K)
    (sqrt : K → K) (r max_disp : K) (s : LAMMPSSimulator K) (dev : Buf K) :
    ∃ l, (sample_deviation E O deriv sqrt r max_disp s dev).1.session.log
      = s.session.log ++ l := by
  unfold sample_deviation
  split_ifs
  · simp only [gather_log, run_commands_log, List.append_assoc]
    exact ⟨_, rfl⟩
  · exact ⟨[], by simp⟩

theorem sample_finish_ext (C : Text K) (O : Lammps K) (deriv : spline K → Int → K → K)
    (sqrt : K → K) (r : K) (s : LAMMPSSimulator K) :
    ∃ l, (sample_finish C O deriv sqrt r s).session.log = s.session.log ++ l := by
  have key : ∀ s2 : LAMMPSSimulator K, (∃ l0, s2.session.log = s.session.log ++ l0) →
      ∃ l, (populate_core C O deriv sqrt r 0 s2).1.session.log = s.session.log ++ l := by
    intro s2 h
    obtain ⟨l0, h0⟩ := h
    obtain ⟨l1, h1⟩ := populate_core_ext C O deriv sqrt r 0 s2
    exact ⟨l0 ++ l1, by rw [h1, h0, List.append_assoc]⟩
  unfold sample_finish
  dsimp only
  apply key
  dsimp only
  obtain ⟨l2, h2⟩ := run_script_log O s.parser s.sim.local_rank "PostRun"
    (run_commands O s.parser s.sim.local_rank ["unfix ae", "unfix af", "unfix hp"] s.session)
  exact ⟨_, by rw [h2, run_commands_log, List.append_assoc]⟩

/-- A call of `sample` that finds both parameters makes engine calls: the first are those
of the `rescale_cell(0.0)` of its first `populate`. -/
theorem sample_body_log (C : Text K) (E : Engine K) (O : Lammps K)
    (deriv : spline K → Int → K → K) (sqrt : K → K) (BOLTZ : K) (r T : K)
    (s : LAMMPSSimulator K) (dev : Buf K) :
    ∃ l, (sample_body C E O deriv sqrt BOLTZ r T s dev).1.session.log
      = (rescale_cell C O 0 (default_overdamped s)).session.log ++ l := by
  obtain ⟨l1, h1⟩ := sample_prepare_log C O deriv sqrt r s
  obtain ⟨l2, h2⟩ := populate_core_ext C O deriv sqrt r T (sample_prepare C O deriv sqrt r s).1
  obtain ⟨l3, h3⟩ := sample_fix_ext C O T
    (populate_core C O deriv sqrt r T (sample_prepare C O deriv sqrt r s).1).1
  obtain ⟨l4, h4⟩ := sample_thermalize_ext O BOLTZ (sample_prepare C O deriv sqrt r s).2
    (sample_fix C O T (populate_core C O deriv sqrt r T (sample_prepare C O deriv sqrt r s).1).1)
  obtain ⟨l5, h5⟩ := sample_average_ext O BOLTZ (sample_prepare C O deriv sqrt r s).2
    (sample_thermalize O BOLTZ (sample_prepare C O deriv sqrt r s).2
      (sample_fix C O T (populate_core C O deriv sqrt r T
        (sample_prepare C O deriv sqrt r s).1).1))
  have hbf : (sample_before_force C O deriv sqrt BOLTZ r T s).1.session.log
      = (rescale_cell C O 0 (default_overdamped s)).session.log
        ++ (l1 ++ l2 ++ l3 ++ l4 ++ l5) := by
    show (sample_average O BOLTZ _ _).session.log = _
    rw [h5, h4, h3, h2, h1]
    simp only [List.append_assoc]
  obtain ⟨l6, h6⟩ := sample_force_ext O (sample_before_force C O deriv sqrt BOLTZ r T s).2
    (sample_before_force C O deriv sqrt BOLTZ r T s).1
  obtain ⟨l7, h7⟩ := sample_gather_ext E O deriv r
    (sample_force O (sample_before_force C O deriv sqrt BOLTZ r T s).2
      (sample_before_force C O deriv sqrt BOLTZ r T s).1) dev
  have hbj : (sample_before_jump C E O deriv sqrt BOLTZ r T s dev).1.session.log
      = (rescale_cell C O 0 (default_overdamped s)).session.log
        ++ (l1 ++ l2 ++ l3 ++ l4 ++ l5 ++ l6 ++ l7) := by
    show (sample_gather E O deriv r _ dev).1.session.log = _
    rw [h7, h6, hbf]
    simp only [List.append_assoc]
  obtain ⟨l8, h8⟩ := sample_deviation_ext E O deriv sqrt r
    (sample_jump sqrt (sample_before_jump C E O deriv sqrt BOLTZ r T s dev).1
      (sample_before_jump C E O deriv sqrt BOLTZ r T s dev).2).2.2
    (sample_jump sqrt (sample_before_jump C E O deriv sqrt BOLTZ r T s dev).1
      (sample_before_jump C E O deriv sqrt BOLTZ r T s dev).2).1
    (sample_jump sqrt (sample_before_jump C E O deriv sqrt BOLTZ r T s dev).1
      (sample_before_jump C E O deriv sqrt BOLTZ r T s dev).2).2.1
  obtain ⟨l9, h9⟩ := sample_finish_ext C O deriv sqrt r
    (sample_deviation E O deriv sqrt r
      (sample_jump sqrt (sample_before_jump C E O deriv sqrt BOLTZ r T s dev).1
        (sample_before_jump C E O deriv sqrt BOLTZ r T s dev).2).2.2
      (sample_jump sqrt (sample_before_jump C E O deriv sqrt BOLTZ r T s dev).1
        (sample_before_jump C E O deriv sqrt BOLTZ r T s dev).2).1
      (sample_jump sqrt (sample_before_jump C E O deriv sqrt BOLTZ r T s dev).1
        (sample_before_jump C E O deriv sqrt BOLTZ r T s dev).2).2.1).1
  refine ⟨l1 ++ l2 ++ l3 ++ l4 ++ l5 ++ l6 ++ l7 ++ l8 ++ l9, ?_⟩
  show (sample_finish C O deriv sqrt r _).session.log = _
  rw [h9, h8]
  show (sample_before_jump C E O deriv sqrt BOLTZ r T s dev).1.session.log ++ l8 ++ l9 = _
  rw [hbj]
  simp only [List.append_assoc]

omit [LinearOrderedField K] in
/-- The check on a release older than 20201101 or without the package: the answer is
`false`, and the check makes no engine call and leaves the base-class members. -/
theorem check_incompatible (O : Lammps K) (s : LAMMPSSimulator K)
    (hbad : O.version < 20201101
      ∨ O.has_package (if O.version ≥ 20210728 then "EXTRA-FIX" else "USER-MISC") = false) :
    (check_lammps_compatibility O s).1 = false
      ∧ (check_lammps_compatibility O s).2.session.log = s.session.log
      ∧ (check_lammps_compatibility O s).2.sim = s.sim
      ∧ (check_lammps_compatibility O s).2.scale = s.scale
      ∧ (check_lammps_compatibility O s).2.parser = s.parser := by
  unfold check_lammps_compatibility
  dsimp only
  by_cases hv : O.version < 20201101
  · rw [if_pos hv]
    refine ⟨rfl, ?_, ?_, ?_, ?_⟩ <;> (dsimp only; split_ifs <;> rfl)
  · have hp := hbad.resolve_left hv
    rw [if_neg hv]
    by_cases h2 : O.version ≥ 20210728
    · rw [if_pos h2] at hp
      rw [if_pos h2]
      exact ⟨hp, rfl, rfl, rfl, rfl⟩
    · rw [if_neg h2] at hp
      rw [if_neg h2]
      exact ⟨hp, rfl, rfl, rfl, rfl⟩

/-- The constructor on an engine that fails the check: no engine call is made, and the
base-class values stay: `natoms = 0`, an empty `pathway`, the unit scale. -/
theorem create_incompatible (O : Lammps K) (P : Parser K) (rank : Nat) (t : Int)
    (raw : LAMMPSSimulator K)
    (hbad : O.version < 20201101
      ∨ O.has_package (if O.version ≥ 20210728 then "EXTRA-FIX" else "USER-MISC") = false) :
    (LAMMPSSimulator.create O P rank t raw).session.log = []
      ∧ (LAMMPSSimulator.create O P rank t raw).sim.natoms = 0
      ∧ (LAMMPSSimulator.create O P rank t raw).sim.pathway = []
      ∧ (∀ a, (LAMMPSSimulator.create O P rank t raw).scale.get a = 1)
      ∧ (LAMMPSSimulator.create O P rank t raw).parser = P := by
  unfold LAMMPSSimulator.create
  dsimp only
  rw [if_pos (check_incompatible O _ hbad).1, (check_incompatible O _ hbad).2.1,
    (check_incompatible O _ hbad).2.2.1, (check_incompatible O _ hbad).2.2.2.1,
    (check_incompatible O _ hbad).2.2.2.2]
  exact ⟨rfl, rfl, rfl, fun _ => rfl, rfl⟩

/-- The first engine calls of `sample` once both parameters are found, on a simulator with
the unit scale: the two commands of `rescale_cell(0.0)`, which `populate` runs before it
reads `made_fix`, the path or any engine pointer. -/
theorem first_rescale_log (C : Text K) (O : Lammps K) (s : LAMMPSSimulator K)
    (hscale : ∀ a, s.scale.get a = 1) :
    (rescale_cell C O 0 (default_overdamped (sample_clear s))).session.log
      = s.session.log
        ++ [EngineCall.command
            ("change_box all x scale " ++ C.to_string 1 ++ " y scale " ++ C.to_string 1
              ++ " z scale " ++ C.to_string 1)
            (s.parser.insert_params
              ("change_box all x scale " ++ C.to_string 1 ++ " y scale " ++ C.to_string 1
                ++ " z scale " ++ C.to_string 1)),
          EngineCall.command "run 0" (s.parser.insert_params "run 0")] := by
  have hd := default_overdamped_frame (sample_clear s)
  have hsc : (default_overdamped (sample_clear s)).scale = s.scale := by
    unfold default_overdamped
    split_ifs <;> rfl
  have hins : (default_overdamped (sample_clear s)).parser.insert_params
      = s.parser.insert_params := by
    unfold default_overdamped
    split_ifs <;> rfl
  unfold rescale_cell
  simp only [run_commands_log, List.map_cons, List.map_nil, hd.2.2.2, hsc, hscale, hins,
    expansion_zero C _ _ 0 (by norm_num), expansion_zero C _ _ 1 (by norm_num),
    expansion_zero C _ _ 2 (by norm_num), div_one]
  rfl

/-- C17. When the compatibility check fails (release older than 20201101, or the package
missing) the constructor stops there: it makes no engine call. The sampler is not stopped,
though: `sample` does not look at the outcome of the check. Called with both parameters
present, its first statement that reaches the engine is the `rescale_cell(0.0)` of its
first `populate`, which sends the commands `change_box ...` and `run 0`; so whatever
`sample` returns has these two commands first in its list of engine calls. Nothing is
said here on whether the call runs to its end: that rests on the engine answering the
unchecked reads of the fixes `hp`, `ae` and `af`. -/
theorem create_incompatible_sample_not_gated (C : Text K) (E : Engine K) (O : Lammps K)
    (deriv : spline K → Int → K → K) (sqrt : K → K) (BOLTZ : K) (P : Parser K) (rank : Nat)
    (t : Int) (raw : LAMMPSSimulator K)
    (hbad : O.version < 20201101
      ∨ O.has_package (if O.version ≥ 20210728 then "EXTRA-FIX" else "USER-MISC") = false) :
    (check_lammps_compatibility O raw).1 = false
    ∧ (LAMMPSSimulator.create O P rank t raw).session.log = []
    ∧ (rescale_cell C O 0 (default_overdamped
          (sample_clear (LAMMPSSimulator.create O P rank t raw)))).session.log
        = [EngineCall.command
            ("change_box all x scale " ++ C.to_string 1 ++ " y scale " ++ C.to_string 1
              ++ " z scale " ++ C.to_string 1)
            (P.insert_params
              ("change_box all x scale " ++ C.to_string 1 ++ " y scale " ++ C.to_string 1
                ++ " z scale " ++ C.to_string 1)),
          EngineCall.command "run 0" (P.insert_params "run 0")]
    ∧ ∀ (params : String → Option K) (dev : Buf K) (r T : K),
        params "ReactionCoordinate" = some r → params "Temperature" = some T →
        ∀ out, sample C E O deriv sqrt BOLTZ (LAMMPSSimulator.create O P rank t raw) params dev
            = some out →
          ∃ l, out.1.session.log
            = EngineCall.command
                ("change_box all x scale " ++ C.to_string 1 ++ " y scale " ++ C.to_string 1
                  ++ " z scale " ++ C.to_string 1)
                (P.insert_params
                  ("change_box all x scale " ++ C.to_string 1 ++ " y scale " ++ C.to_string 1
                    ++ " z scale " ++ C.to_string 1))
              :: EngineCall.command "run 0" (P.insert_params "run 0") :: l := by
  obtain ⟨hlog, hnat, hpath, hscale, hpar⟩ := create_incompatible O P rank t raw hbad
  have hfirst := first_rescale_log C O (LAMMPSSimulator.create O P rank t raw) hscale
  rw [hlog, hpar, List.nil_append] at hfirst
  refine ⟨(check_incompatible O raw hbad).1, hlog, hfirst, ?_⟩
  intro params dev r T hr hT out hout
  have hbody := sample_eq_body C E O deriv sqrt BOLTZ (LAMMPSSimulator.create O P rank t raw)
    params dev r T hr hT (by rw [hnat, hpath]; simp)
  have hout2 : out = sample_body C E O deriv sqrt BOLTZ r T
      (sample_clear (LAMMPSSimulator.create O P rank t raw)) dev :=
    Option.some.inj (hout.symm.trans hbody)
  obtain ⟨l, h⟩ := sample_body_log C E O deriv sqrt BOLTZ r T
    (sample_clear (LAMMPSSimulator.create O P rank t raw)) dev
  exact ⟨l, by rw [hout2, h, hfirst]; rfl⟩

theorem create_incompatible_sample_not_gated_witness :
    ((lammpsOld ℚ).version < 20201101
      ∨ (lammpsOld ℚ).has_package
          (if (lammpsOld ℚ).version ≥ 20210728 then "EXTRA-FIX" else "USER-MISC") = false)
    ∧ (check_lammps_compatibility (lammpsOld ℚ) (lsimEx ℚ)).1 = false
    ∧ (LAMMPSSimulator.create (lammpsOld ℚ) (parserEx ℚ) 0 0 (lsimEx ℚ)).session.log = []
    ∧ (rescale_cell (textEx ℚ) (lammpsOld ℚ) 0 (default_overdamped
          (sample_clear (LAMMPSSimulator.create (lammpsOld ℚ) (parserEx ℚ) 0 0
            (lsimEx ℚ))))).session.log
        = [EngineCall.command
            ("change_box all x scale " ++ (textEx ℚ).to_string 1 ++ " y scale "
              ++ (textEx ℚ).to_string 1 ++ " z scale " ++ (textEx ℚ).to_string 1)
            ((parserEx ℚ).insert_params
              ("change_box all x scale " ++ (textEx ℚ).to_string 1 ++ " y scale "
                ++ (textEx ℚ).to_string 1 ++ " z scale " ++ (textEx ℚ).to_string 1)),
          EngineCall.command "run 0" ((parserEx ℚ).insert_params "run 0")]
    ∧ ∀ (params : String → Option ℚ) (dev : Buf ℚ) (r T : ℚ),
        params "ReactionCoordinate" = some r → params "Temperature" = some T →
        ∀ out, sample (textEx ℚ) (engineEx ℚ) (lammpsOld ℚ) (derivLine ℚ) sqrtEx 1
            (LAMMPSSimulator.create (lammpsOld ℚ) (parserEx ℚ) 0 0 (lsimEx ℚ)) params dev
            = some out →
          ∃ l, out.1.session.log
            = EngineCall.command
                ("change_box all x scale " ++ (textEx ℚ).to_string 1 ++ " y scale "
                  ++ (textEx ℚ).to_string 1 ++ " z scale " ++ (textEx ℚ).to_string 1)
                ((parserEx ℚ).insert_params
                  ("change_box all x scale " ++ (textEx ℚ).to_string 1 ++ " y scale "
                    ++ (textEx ℚ).to_string 1 ++ " z scale " ++ (textEx ℚ).to_string 1))
              :: EngineCall.command "run 0" ((parserEx ℚ).insert_params "run 0") :: l :=
  ⟨Or.inl (by decide),
   create_incompatible_sample_not_gated (textEx ℚ) (engineEx ℚ) (lammpsOld ℚ) (derivLine ℚ)
     sqrtEx 1 (parserEx ℚ) 0 0 (lsimEx ℚ) (Or.inl (by decide))⟩

/-- C17, the case that fails: on a release of March 2020 the check fails, yet `sample`
called on the simulator the constructor returned, with `ReactionCoordinate` and
`Temperature` both present, hands the engine the commands `change_box ...` and `run 0` in
its first statement that reaches the engine, so the list of calls is not empty. -/
theorem sample_after_failed_check_issues_commands :
    (check_lammps_compatibility (lammpsOld ℚ) (lsimEx ℚ)).1 = false
    ∧ (paramsEx ℚ) "ReactionCoordinate" = some 0 ∧ (paramsEx ℚ) "Temperature" = some 0
    ∧ (rescale_cell (textEx ℚ) (lammpsOld ℚ) 0 (default_overdamped
          (sample_clear (LAMMPSSimulator.create (lammpsOld ℚ) (parserEx ℚ) 0 0
            (lsimEx ℚ))))).session.log
        = [EngineCall.command
            "change_box all x scale 1.000000 y scale 1.000000 z scale 1.000000"
            "change_box all x scale 1.000000 y scale 1.000000 z scale 1.000000",
          EngineCall.command "run 0" "run 0"]
    ∧ ∀ out, sample (textEx ℚ) (engineEx ℚ) (lammpsOld ℚ) (derivLine ℚ) sqrtEx 1
          (LAMMPSSimulator.create (lammpsOld ℚ) (parserEx ℚ) 0 0 (lsimEx ℚ)) (paramsEx ℚ)
          (devEx ℚ) = some out →
        ∃ l, out.1.session.log
          = EngineCall.command
              "change_box all x scale 1.000000 y scale 1.000000 z scale 1.000000"
              "change_box all x scale 1.000000 y scale 1.000000 z scale 1.000000"
            :: EngineCall.command "run 0" "run 0" :: l := by
  have hbad : (lammpsOld ℚ).version < 20201101
      ∨ (lammpsOld ℚ).has_package
          (if (lammpsOld ℚ).version ≥ 20210728 then "EXTRA-FIX" else "USER-MISC") = false :=
    Or.inl (by decide)
  obtain ⟨hlog, hnat, hpath, hscale, hpar⟩ :=
    create_incompatible (lammpsOld ℚ) (parserEx ℚ) 0 0 (lsimEx ℚ) hbad
  have hfirst := first_rescale_log (textEx ℚ) (lammpsOld ℚ)
    (LAMMPSSimulator.create (lammpsOld ℚ) (parserEx ℚ) 0 0 (lsimEx ℚ)) hscale
  rw [hlog, hpar, List.nil_append] at hfirst
  have hfirst2 : (rescale_cell (textEx ℚ) (lammpsOld ℚ) 0 (default_overdamped
          (sample_clear (LAMMPSSimulator.create (lammpsOld ℚ) (parserEx ℚ) 0 0
            (lsimEx ℚ))))).session.log
        = [EngineCall.command
            "change_box all x scale 1.000000 y scale 1.000000 z scale 1.000000"
            "change_box all x scale 1.000000 y scale 1.000000 z scale 1.000000",
          EngineCall.command "run 0" "run 0"] := by
    rw [hfirst]
    rfl
  refine ⟨by decide, by simp [paramsEx], by simp [paramsEx], hfirst2, ?_⟩
  intro out hout
  have hbody := sample_eq_body (textEx ℚ) (engineEx ℚ) (lammpsOld ℚ) (derivLine ℚ) sqrtEx 1
    (LAMMPSSimulator.create (lammpsOld ℚ) (parserEx ℚ) 0 0 (lsimEx ℚ)) (paramsEx ℚ) (devEx ℚ)
    0 0 (by simp [paramsEx]) (by simp [paramsEx]) (by rw [hnat, hpath]; simp)
  have hout2 := Option.some.inj (hout.symm.trans hbody)
  obtain ⟨l, h⟩ := sample_body_log (textEx ℚ) (engineEx ℚ) (lammpsOld ℚ) (derivLine ℚ) sqrtEx 1
    0 0 (sample_clear (LAMMPSSimulator.create (lammpsOld ℚ) (parserEx ℚ) 0 0 (lsimEx ℚ)))
    (devEx ℚ)
  exact ⟨l, by rw [hout2, h, hfirst2]; rfl⟩

end CreateProofs

/-! ### sample: the deviation from the path -/

section DeviationProofs

variable {K : Type} [LinearOrderedField K]

omit [LinearOrderedField K] in
theorem Buf.toList_getD (a : Buf K) (n k : Nat) (hk : k < n) (v : K) :
    (a.toList n).getD k v = a.get k := by
  unfold Buf.toList
  rw [List.getD_eq_getElem?_getD, List.getElem?_map, List.getElem?_range hk]
  rfl

omit [LinearOrderedField K] in
/-- The entries that `pbc.wrap(x, n)` leaves at the front of `x`: the wrap of the `n`
entries it found there. -/
theorem pbc_wrap_toList (E : Engine K) (x : Buf K) (n : Nat) :
    (pbc_wrap E x 0 n).toList n = E.wrap (x.toList n) := by
  apply List.ext_getElem
  · simp [Buf.toList, E.wrap_length]
  · intro k h1 h2
    have hk : k < n := by simpa [Buf.toList] using h1
    unfold Buf.toList pbc_wrap
    simp only [List.getElem_map, List.getElem_range, Nat.add_zero, Nat.zero_le, true_and,
      Nat.zero_add, Nat.sub_zero]
    rw [if_pos hk, List.getD_eq_getElem _ _ (by simpa [Buf.toList] using h2)]

/-- The content of `dev` after `dev[i] -= path(i,r,0,scale[i%3])` and `pbc.wrap`: the wrap
of the gathered entries minus the scaled path position. -/
theorem wrapped_deviation_toList (E : Engine K) (deriv : spline K → Int → K → K) (r : K)
    (s : LAMMPSSimulator K) (g : Buf K) (hlen : 3 * s.sim.natoms ≤ s.sim.pathway.length) :
    (wrapped_deviation E deriv r s g).toList (3 * s.sim.natoms)
      = E.wrap ((List.range (3 * s.sim.natoms)).map (fun k =>
          g.get k - deriv (chan s.sim k) 0 r * s.scale.get (k % 3))) := by
  unfold wrapped_deviation
  dsimp only
  rw [pbc_wrap_toList]
  congr 1
  unfold Buf.toList
  apply List.map_congr_left
  intro k hk
  have hk2 : k < 3 * s.sim.natoms := List.mem_range.mp hk
  have hk3 : k < s.sim.pathway.length := by omega
  rw [update_get (3 * s.sim.natoms) (fun i v => v - _) g k, if_pos hk2]
  unfold path chan
  simp [List.getElem?_eq_getElem hk3, List.getD_eq_getElem _ _ hk3]

theorem expansion_put_overdamped (C : Text K) (P : Parser K) (val : String) (T : K)
    (newscale : Buf K) :
    expansion C (P.put "OverDamped" val) T newscale = expansion C P T newscale := by
  unfold expansion
  simp only [Parser.get_put_ne P "OverDamped" "LinearThermalExpansion" val (by decide),
    Parser.get_put_ne P "OverDamped" "QuadraticThermalExpansion" val (by decide),
    Parser.get_put_ne P "OverDamped" "LinearThermalExpansionX" val (by decide),
    Parser.get_put_ne P "OverDamped" "QuadraticThermalExpansionX" val (by decide),
    Parser.get_put_ne P "OverDamped" "LinearThermalExpansionY" val (by decide),
    Parser.get_put_ne P "OverDamped" "QuadraticThermalExpansionY" val (by decide),
    Parser.get_put_ne P "OverDamped" "LinearThermalExpansionZ" val (by decide),
    Parser.get_put_ne P "OverDamped" "QuadraticThermalExpansionZ" val (by decide)]

theorem expansion_default_overdamped (C : Text K) (s : LAMMPSSimulator K) (T : K)
    (newscale : Buf K) :
    expansion C (default_overdamped s).parser T newscale = expansion C s.parser T newscale := by
  unfold default_overdamped
  split_ifs <;> rfl

/-- The path data and the scale in force when the sampling run starts: the path of the
simulator, and `expansion(T)` on the three axes. -/
theorem sample_before_force_state (C : Text K) (O : Lammps K) (deriv : spline K → Int → K → K)
    (sqrt : K → K) (BOLTZ : K) (r T : K) (s : LAMMPSSimulator K) :
    (sample_before_force C O deriv sqrt BOLTZ r T s).1.sim.natoms = s.sim.natoms
      ∧ (sample_before_force C O deriv sqrt BOLTZ r T s).1.sim.pathway = s.sim.pathway
      ∧ ∀ a, a < 3 → (sample_before_force C O deriv sqrt BOLTZ r T s).1.scale.get a
          = (expansion C s.parser T ⟨fun _ => 0⟩).get a := by
  have hd := default_overdamped_frame s
  have h0 := populate_core_sim C O deriv sqrt r 0 (default_overdamped s)
  have hp0 := populate_core_frame C O deriv sqrt r 0 (default_overdamped s)
  have hsim : (sample_prepare C O deriv sqrt r s).1.sim
      = (populate_core C O deriv sqrt r 0 (default_overdamped s)).1.sim := rfl
  have hpar : (sample_prepare C O deriv sqrt r s).1.parser
      = (populate_core C O deriv sqrt r 0 (default_overdamped s)).1.parser := rfl
  have h1 := populate_core_sim C O deriv sqrt r T (sample_prepare C O deriv sqrt r s).1
  have hp1 := populate_core_frame C O deriv sqrt r T (sample_prepare C O deriv sqrt r s).1
  have hfx := sample_fix_frame C O T
    (populate_core C O deriv sqrt r T (sample_prepare C O deriv sqrt r s).1).1
  have hfsim : (sample_fix C O T
      (populate_core C O deriv sqrt r T (sample_prepare C O deriv sqrt r s).1).1).sim
      = (populate_core C O deriv sqrt r T (sample_prepare C O deriv sqrt r s).1).1.sim := by
    unfold sample_fix
    dsimp only
    split_ifs <;> rfl
  have hfscale : (sample_fix C O T
      (populate_core C O deriv sqrt r T (sample_prepare C O deriv sqrt r s).1).1).scale
      = (populate_core C O deriv sqrt r T (sample_prepare C O deriv sqrt r s).1).1.scale := by
    unfold sample_fix
    dsimp only
    split_ifs <;> rfl
  have ha : ∀ (od : Int) (s2 : LAMMPSSimulator K),
      (sample_average O BOLTZ od s2).sim = s2.sim
        ∧ (sample_average O BOLTZ od s2).scale = s2.scale := fun _ _ => ⟨rfl, rfl⟩
  have ht : ∀ (od : Int) (s2 : LAMMPSSimulator K),
      (sample_thermalize O BOLTZ od s2).sim = s2.sim
        ∧ (sample_thermalize O BOLTZ od s2).scale = s2.scale := fun _ _ => ⟨rfl, rfl⟩
  unfold sample_before_force
  dsimp only
  rw [(ha _ _).1, (ha _ _).2, (ht _ _).1, (ht _ _).2, hfsim, hfscale]
  refine ⟨?_, ?_, ?_⟩
  · rw [h1.1, hsim, h0.1, hd.2.2.1]
  · rw [h1.2, hsim, h0.2, hd.2.2.1]
  · intro a ha
    rw [hp1.2.2.2, rescale_cell_scale _ _ _ _ a ha, hpar, hp0.1,
      expansion_default_overdamped]

/-- The block that gathers the positions: the calls it makes, and the content of `dev` it
leaves, which is the wrapped deviation of what the engine hands over. -/
theorem sample_gather_spec (E : Engine K) (O : Lammps K) (deriv : spline K → Int → K → K)
    (r : K) (s : LAMMPSSimulator K) (dev : Buf K) :
    ∃ h, (∃ l, h = s.session.log ++ l)
      ∧ (sample_gather E O deriv r s dev).1.session.log = h ++ [EngineCall.gather "x" 3]
      ∧ (sample_gather E O deriv r s dev).2
          = wrapped_deviation E deriv r s (dev.write (O.gather h "x" 3)) := by
  refine ⟨(run_commands O s.parser s.sim.local_rank
    ["min_style fire", " minimize 0 0.001 " ++ s.parser.get "MinSteps" ++ " "
      ++ s.parser.get "MinSteps"] s.session).log, ⟨_, run_commands_log _ _ _ _ _⟩, ?_, ?_⟩
  · unfold sample_gather
    simp only [gather_log]
  · unfold sample_gather gather
    rfl

/-- The loop over the atoms with `postDump` off, in terms of the content `d` of `dev` right
before it: the returned buffer is zero below `3*natoms`, `MaxDev` equals `MaxJump`, and
`MaxJump` is the square root of the maximum `M` over the atoms of the squared length of
`d`. -/
theorem sample_zero_fill_buffer (C : Text K) (E : Engine K) (O : Lammps K)
    (deriv : spline K → Int → K → K) (sqrt : K → K) (BOLTZ : K) (s : LAMMPSSimulator K)
    (params : String → Option K) (dev : Buf K) (r T : K)
    (hr : params "ReactionCoordinate" = some r) (hT : params "Temperature" = some T)
    (hlen : 3 * s.sim.natoms ≤ s.sim.pathway.length)
    (hpd : s.parser.postDump = false) (d : Buf K)
    (hd : d = (sample_before_jump C E O deriv sqrt BOLTZ r T (sample_clear s) dev).2) :
    ∃ out M,
      sample C E O deriv sqrt BOLTZ s params dev = some out
      ∧ (∀ k, k < 3 * s.sim.natoms → out.2.get k = 0)
      ∧ out.1.results "MaxJump" = some (sqrt M)
      ∧ out.1.results "MaxDev" = out.1.results "MaxJump"
      ∧ (∀ i, i < s.sim.natoms →
          d.get (3 * i) ^ 2 + d.get (3 * i + 1) ^ 2 + d.get (3 * i + 2) ^ 2 ≤ M)
      ∧ ((∃ i, i < s.sim.natoms
            ∧ M = d.get (3 * i) ^ 2 + d.get (3 * i + 1) ^ 2 + d.get (3 * i + 2) ^ 2)
          ∨ (s.sim.natoms = 0 ∧ M = 0)) := by
  subst hd
  have hf := sample_before_jump_frame C E O deriv sqrt BOLTZ r T (sample_clear s) dev
  have hpd2 : (sample_before_jump C E O deriv sqrt BOLTZ r T (sample_clear s) dev).1.parser.postDump
      = false := by rw [hf.1]; exact hpd
  have hnat : (sample_before_jump C E O deriv sqrt BOLTZ r T (sample_clear s) dev).1.sim.natoms
      = s.sim.natoms := hf.2.2
  have hj := sample_jump_results sqrt
    (sample_before_jump C E O deriv sqrt BOLTZ r T (sample_clear s) dev).1
    (sample_before_jump C E O deriv sqrt BOLTZ r T (sample_clear s) dev).2
  rw [hpd2, hnat] at hj
  have h1 := sample_body_frame C E O deriv sqrt BOLTZ r T (sample_clear s) dev "MaxJump"
    (by decide)
  rw [hj.1] at h1
  have hspec := max_jump_spec false s.sim.natoms
    (sample_before_jump C E O deriv sqrt BOLTZ r T (sample_clear s) dev).2
  have hmax := max_loop_spec s.sim.natoms
    (atom_disp (sample_before_jump C E O deriv sqrt BOLTZ r T (sample_clear s) dev).2)
    (fun i => by rw [atom_disp_eq]; positivity)
  have hbody : (sample_body C E O deriv sqrt BOLTZ r T (sample_clear s) dev).2
        = (max_jump false s.sim.natoms
            (sample_before_jump C E O deriv sqrt BOLTZ r T (sample_clear s) dev).2).1
      ∧ (sample_body C E O deriv sqrt BOLTZ r T (sample_clear s) dev).1.results "MaxDev"
        = some (sqrt (max_jump false s.sim.natoms
            (sample_before_jump C E O deriv sqrt BOLTZ r T (sample_clear s) dev).2).2) := by
    unfold sample_body
    dsimp only
    rw [(sample_finish_frame C O deriv sqrt r _).1]
    unfold sample_deviation
    have hp : (sample_jump sqrt
        (sample_before_jump C E O deriv sqrt BOLTZ r T (sample_clear s) dev).1
        (sample_before_jump C E O deriv sqrt BOLTZ r T (sample_clear s) dev).2).1.parser.postDump
        = false := hpd2
    rw [if_neg (by rw [hp]; simp)]
    constructor
    · show (max_jump _ _ _).1 = _
      rw [hpd2, hnat]
    · simp only [set_result, Function.update_same]
      show some (sqrt (max_jump _ _ _).2) = _
      rw [hpd2, hnat]
  refine ⟨_, (max_jump false s.sim.natoms
      (sample_before_jump C E O deriv sqrt BOLTZ r T (sample_clear s) dev).2).2,
    sample_eq_body C E O deriv sqrt BOLTZ s params dev r T hr hT hlen, ?_, h1, ?_, ?_, ?_⟩
  · intro k hk
    rw [hbody.1, hspec.2 k, if_pos ⟨rfl, hk⟩]
  · rw [hbody.2, h1]
  · intro i hi
    rw [hspec.1, ← atom_disp_eq]
    exact hmax.1 i hi
  · rw [hspec.1]
    rcases hmax.2 with ⟨i, hi, he⟩ | ⟨hn, he⟩
    · exact Or.inl ⟨i, hi, by rw [he, atom_disp_eq]⟩
    · exact Or.inr ⟨hn, he⟩

theorem sample_before_force_ext (C : Text K) (O : Lammps K) (deriv : spline K → Int → K → K)
    (sqrt : K → K) (BOLTZ : K) (r T : K) (s : LAMMPSSimulator K) :
    ∃ l, (sample_before_force C O deriv sqrt BOLTZ r T s).1.session.log = s.session.log ++ l := by
  obtain ⟨l0, h0⟩ := rescale_cell_log C O 0 (default_overdamped s)
  obtain ⟨l1, h1⟩ := sample_prepare_log C O deriv sqrt r s
  obtain ⟨l2, h2⟩ := populate_core_ext C O deriv sqrt r T (sample_prepare C O deriv sqrt r s).1
  obtain ⟨l3, h3⟩ := sample_fix_ext C O T
    (populate_core C O deriv sqrt r T (sample_prepare C O deriv sqrt r s).1).1
  obtain ⟨l4, h4⟩ := sample_thermalize_ext O BOLTZ (sample_prepare C O deriv sqrt r s).2
    (sample_fix C O T (populate_core C O deriv sqrt r T (sample_prepare C O deriv sqrt r s).1).1)
  obtain ⟨l5, h5⟩ := sample_average_ext O BOLTZ (sample_prepare C O deriv sqrt r s).2
    (sample_thermalize O BOLTZ (sample_prepare C O deriv sqrt r s).2
      (sample_fix C O T (populate_core C O deriv sqrt r T
        (sample_prepare C O deriv sqrt r s).1).1))
  refine ⟨l0 ++ l1 ++ l2 ++ l3 ++ l4 ++ l5, ?_⟩
  show (sample_average O BOLTZ _ _).session.log = _
  rw [h5, h4, h3, h2, h1, h0, (default_overdamped_frame s).2.2.2]
  simp only [List.append_assoc]

theorem sample_body_after_gather (C : Text K) (E : Engine K) (O : Lammps K)
    (deriv : spline K → Int → K → K) (sqrt : K → K) (BOLTZ : K) (r T : K)
    (s : LAMMPSSimulator K) (dev : Buf K) :
    ∃ l, (sample_body C E O deriv sqrt BOLTZ r T s dev).1.session.log
      = (sample_before_jump C E O deriv sqrt BOLTZ r T s dev).1.session.log ++ l := by
  obtain ⟨l8, h8⟩ := sample_deviation_ext E O deriv sqrt r
    (sample_jump sqrt (sample_before_jump C E O deriv sqrt BOLTZ r T s dev).1
      (sample_before_jump C E O deriv sqrt BOLTZ r T s dev).2).2.2
    (sample_jump sqrt (sample_before_jump C E O deriv sqrt BOLTZ r T s dev).1
      (sample_before_jump C E O deriv sqrt BOLTZ r T s dev).2).1
    (sample_jump sqrt (sample_before_jump C E O deriv sqrt BOLTZ r T s dev).1
      (sample_before_jump C E O deriv sqrt BOLTZ r T s dev).2).2.1
  obtain ⟨l9, h9⟩ := sample_finish_ext C O deriv sqrt r
    (sample_deviation E O deriv sqrt r
      (sample_jump sqrt (sample_before_jump C E O deriv sqrt BOLTZ r T s dev).1
        (sample_before_jump C E O deriv sqrt BOLTZ r T s dev).2).2.2
      (sample_jump sqrt (sample_before_jump C E O deriv sqrt BOLTZ r T s dev).1
        (sample_before_jump C E O deriv sqrt BOLTZ r T s dev).2).1
      (sample_jump sqrt (sample_before_jump C E O deriv sqrt BOLTZ r T s dev).1
        (sample_before_jump C E O deriv sqrt BOLTZ r T s dev).2).2.1).1
  refine ⟨l8 ++ l9, ?_⟩
  show (sample_finish C O deriv sqrt r _).session.log = _
  rw [h9, h8]
  show (sample_before_jump C E O deriv sqrt BOLTZ r T s dev).1.session.log ++ l8 ++ l9 = _
  rw [List.append_assoc]

/-- C14. With `postDump` off, a call of `sample` that runs to its end returns a deviation
buffer whose `3*natoms` entries are all 0 and returns `MaxDev` equal to `MaxJump`, while
`MaxJump` is the square root of `M`, the maximum over the atoms of the squared length of
the wrapped deviation `d` computed before the zero-fill. Here `h` is the list of engine
calls made up to the gather of the positions, `g` is `dev` after that gather, and `d` is
`pbc.wrap` of the entries `g[k] - path(k,r,0,scale[k%3])`, `k < 3*natoms`, with the scale
`expansion(T)` in force during the run: every atom is at most `M` and, when there is an
atom, one attains it. -/
theorem sample_zero_fills_deviation (C : Text K) (E : Engine K) (O : Lammps K)
    (deriv : spline K → Int → K → K) (sqrt : K → K) (BOLTZ : K) (s : LAMMPSSimulator K)
    (params : String → Option K) (dev : Buf K) (r T : K)
    (hr : params "ReactionCoordinate" = some r) (hT : params "Temperature" = some T)
    (hlen : 3 * s.sim.natoms ≤ s.sim.pathway.length)
    (hpd : s.parser.postDump = false) :
    ∃ out M h g d,
      sample C E O deriv sqrt BOLTZ s params dev = some out
      ∧ (∃ l, h = s.session.log ++ l)
      ∧ (∃ l, out.1.session.log = h ++ EngineCall.gather "x" 3 :: l)
      ∧ g = dev.write (O.gather h "x" 3)
      ∧ d = E.wrap ((List.range (3 * s.sim.natoms)).map (fun k =>
          g.get k - deriv (chan s.sim k) 0 r
            * (expansion C s.parser T ⟨fun _ => 0⟩).get (k % 3)))
      ∧ (∀ k, k < 3 * s.sim.natoms → out.2.get k = 0)
      ∧ out.1.results "MaxJump" = some (sqrt M)
      ∧ out.1.results "MaxDev" = out.1.results "MaxJump"
      ∧ (∀ i, i < s.sim.natoms →
          d.getD (3 * i) 0 ^ 2 + d.getD (3 * i + 1) 0 ^ 2 + d.getD (3 * i + 2) 0 ^ 2 ≤ M)
      ∧ ((∃ i, i < s.sim.natoms
            ∧ M = d.getD (3 * i) 0 ^ 2 + d.getD (3 * i + 1) 0 ^ 2 + d.getD (3 * i + 2) 0 ^ 2)
          ∨ (s.sim.natoms = 0 ∧ M = 0)) := by
  obtain ⟨out, M, hout, hzero, hmj, hmd, hle, hat⟩ :=
    sample_zero_fill_buffer C E O deriv sqrt BOLTZ s params dev r T hr hT hlen hpd _ rfl
  have hbody := sample_eq_body C E O deriv sqrt BOLTZ s params dev r T hr hT hlen
  have hout2 : out = sample_body C E O deriv sqrt BOLTZ r T (sample_clear s) dev :=
    Option.some.inj (hout.symm.trans hbody)
  obtain ⟨hnat, hpath, hscale⟩ :=
    sample_before_force_state C O deriv sqrt BOLTZ r T (sample_clear s)
  obtain ⟨h, ⟨l0, hl0⟩, hlog, hdev⟩ := sample_gather_spec E O deriv r
    (sample_force O (sample_before_force C O deriv sqrt BOLTZ r T (sample_clear s)).2
      (sample_before_force C O deriv sqrt BOLTZ r T (sample_clear s)).1) dev
  obtain ⟨l1, hl1⟩ := sample_force_ext O
    (sample_before_force C O deriv sqrt BOLTZ r T (sample_clear s)).2
    (sample_before_force C O deriv sqrt BOLTZ r T (sample_clear s)).1
  obtain ⟨l2, hl2⟩ := sample_before_force_ext C O deriv sqrt BOLTZ r T (sample_clear s)
  obtain ⟨l3, hl3⟩ := sample_body_after_gather C E O deriv sqrt BOLTZ r T (sample_clear s) dev
  have hn5 : (sample_force O (sample_before_force C O deriv sqrt BOLTZ r T (sample_clear s)).2
      (sample_before_force C O deriv sqrt BOLTZ r T (sample_clear s)).1).sim.natoms
      = s.sim.natoms := hnat
  have hp5 : (sample_force O (sample_before_force C O deriv sqrt BOLTZ r T (sample_clear s)).2
      (sample_before_force C O deriv sqrt BOLTZ r T (sample_clear s)).1).sim.pathway
      = s.sim.pathway := hpath
  have hs5 : ∀ a, a < 3 →
      (sample_force O (sample_before_force C O deriv sqrt BOLTZ r T (sample_clear s)).2
        (sample_before_force C O deriv sqrt BOLTZ r T (sample_clear s)).1).scale.get a
      = (expansion C s.parser T ⟨fun _ => 0⟩).get a := hscale
  have hd : (sample_before_jump C E O deriv sqrt BOLTZ r T (sample_clear s) dev).2.toList
      (3 * s.sim.natoms)
      = E.wrap ((List.range (3 * s.sim.natoms)).map (fun k =>
          (dev.write (O.gather h "x" 3)).get k - deriv (chan s.sim k) 0 r
            * (expansion C s.parser T ⟨fun _ => 0⟩).get (k % 3))) := by
    have hw := wrapped_deviation_toList E deriv r
      (sample_force O (sample_before_force C O deriv sqrt BOLTZ r T (sample_clear s)).2
        (sample_before_force C O deriv sqrt BOLTZ r T (sample_clear s)).1)
      (dev.write (O.gather h "x" 3)) (by rw [hn5, hp5]; exact hlen)
    rw [hn5] at hw
    show (sample_gather E O deriv r _ dev).2.toList (3 * s.sim.natoms) = _
    rw [hdev, hw]
    congr 1
    apply List.map_congr_left
    intro k _
    rw [hs5 (k % 3) (Nat.mod_lt _ (by norm_num))]
    unfold chan
    rw [hp5]
  have hget : ∀ k, k < 3 * s.sim.natoms →
      (sample_before_jump C E O deriv sqrt BOLTZ r T (sample_clear s) dev).2.get k
        = (E.wrap ((List.range (3 * s.sim.natoms)).map (fun k =>
          (dev.write (O.gather h "x" 3)).get k - deriv (chan s.sim k) 0 r
            * (expansion C s.parser T ⟨fun _ => 0⟩).get (k % 3)))).getD k 0 := by
    intro k hk
    rw [← hd, Buf.toList_getD _ _ _ hk]
  refine ⟨out, M, h, _, _, hout, ⟨l2 ++ l1 ++ l0, ?_⟩, ⟨l3, ?_⟩, rfl, rfl, hzero, hmj, hmd,
    ?_, ?_⟩
  · rw [hl0, hl1, hl2]
    simp only [List.append_assoc]
    rfl
  · rw [hout2, hl3]
    show (sample_gather E O deriv r _ dev).1.session.log ++ l3 = _
    rw [hlog]
    simp only [List.append_assoc, List.singleton_append]
  · intro i hi
    rw [← hget (3 * i) (by omega), ← hget (3 * i + 1) (by omega),
      ← hget (3 * i + 2) (by omega)]
    exact hle i hi
  · rcases hat with ⟨i, hi, he⟩ | hz
    · refine Or.inl ⟨i, hi, ?_⟩
      rw [← hget (3 * i) (by omega), ← hget (3 * i + 1) (by omega),
        ← hget (3 * i + 2) (by omega)]
      exact he
    · exact Or.inr hz

theorem sample_zero_fills_deviation_witness :
    (paramsHot ℚ) "ReactionCoordinate" = some 0 ∧ (paramsHot ℚ) "Temperature" = some 300
    ∧ 3 * (lsimEx ℚ).sim.natoms ≤ (lsimEx ℚ).sim.pathway.length
    ∧ (lsimEx ℚ).parser.postDump = false
    ∧ ∃ out M h g d,
      sample (textEx ℚ) (engineEx ℚ) (lammpsEx ℚ) (derivLine ℚ) sqrtEx 1 (lsimEx ℚ)
        (paramsHot ℚ) (devEx ℚ) = some out
      ∧ (∃ l, h = (lsimEx ℚ).session.log ++ l)
      ∧ (∃ l, out.1.session.log = h ++ EngineCall.gather "x" 3 :: l)
      ∧ g = (devEx ℚ).write ((lammpsEx ℚ).gather h "x" 3)
      ∧ d = (engineEx ℚ).wrap ((List.range (3 * (lsimEx ℚ).sim.natoms)).map (fun k =>
          g.get k - derivLine ℚ (chan (lsimEx ℚ).sim k) 0 0
            * (expansion (textEx ℚ) (lsimEx ℚ).parser 300 ⟨fun _ => 0⟩).get (k % 3)))
      ∧ (∀ k, k < 3 * (lsimEx ℚ).sim.natoms → out.2.get k = 0)
      ∧ out.1.results "MaxJump" = some (sqrtEx M)
      ∧ out.1.results "MaxDev" = out.1.results "MaxJump"
      ∧ (∀ i, i < (lsimEx ℚ).sim.natoms →
          d.getD (3 * i) 0 ^ 2 + d.getD (3 * i + 1) 0 ^ 2 + d.getD (3 * i + 2) 0 ^ 2 ≤ M)
      ∧ ((∃ i, i < (lsimEx ℚ).sim.natoms
            ∧ M = d.getD (3 * i) 0 ^ 2 + d.getD (3 * i + 1) 0 ^ 2 + d.getD (3 * i + 2) 0 ^ 2)
          ∨ ((lsimEx ℚ).sim.natoms = 0 ∧ M = 0)) :=
  ⟨by simp [paramsHot], by simp [paramsHot], by decide, rfl,
   sample_zero_fills_deviation (textEx ℚ) (engineEx ℚ) (lammpsEx ℚ) (derivLine ℚ) sqrtEx 1
     (lsimEx ℚ) (paramsHot ℚ) (devEx ℚ) 0 300 (by simp [paramsHot]) (by simp [paramsHot])
     (by decide) rfl⟩

end DeviationProofs

end PAFI
